import Mathlib

/-!
# Entropy Productions backend: enrollment and completion on the in-memory store

A shallow embedding of `src/server.js`.  The route handlers are embedded as pure
functions from a store (the two module-level arrays `users` and `modules`) and the
request data to a response and the next store.  The embedding follows the
in-memory branch of every `if (User) ... else ...` (the Mongoose model `User` unset).

JavaScript values that reach the handlers through `req.body` are embedded by
`JsVal`; the ECMAScript primitives the handlers apply to them (`!v`, `parseInt`,
property-key conversion, `<`, `>`) are embedded next to it.  `BodyVal` adds arrays and
objects for the field `moduleId`, with the routes `enrollRoute` and `completeRoute`.

Requests served one after the other are `run`; `asyncRun` also lets signups overlap at
the one `await` between a check and a write, `await bcrypt.hash` in `POST /signup`.
-/

namespace Entropy

/-! ## JavaScript values and primitives -/

/-- A primitive value of a JSON request body field: absent (`undefined`), `null`, a
boolean, a number, or a string.  A number is a double.  A double that is a safe integer
`n` (below `2 ^ 53` in magnitude; `-0` counts as `0`) is `num n`.  Every other double
(fractional, `2 ^ 53` or more in magnitude, or an infinity, which `JSON.parse` gives
for a literal beyond the double range) is `numText t`, with `t` the text that
`Number::toString` gives for it, such as `15.5`, `1e+21` or `Infinity`: that text
names the double, and every operation the handlers apply to a number (`!v`, `ToString`,
`<`, `>`, `===`) is a function of it.  `JsVal.wellFormed` below states which values
stand for a body field.  A string is a sequence of Unicode characters.  Arrays and
objects are not primitives; `BodyVal` below adds them for the field `moduleId`. -/
inductive JsVal where
  | undefined : JsVal
  | null : JsVal
  | bool (b : Bool) : JsVal
  | num (n : Int) : JsVal
  | numText (text : String) : JsVal
  | str (s : String) : JsVal
deriving DecidableEq, Repr

/-- ECMAScript `ToBoolean`: what `!v` negates. -/
def isTruthy : JsVal → Bool
  | .undefined => false
  | .null => false
  | .bool b => b
  | .num n => n != 0
  | .numText _ => true
  | .str s => s != ""

/-- ECMAScript `Number::toString` on a safe integer: its decimal expansion, with a
leading `-` when negative. -/
def numberToString (n : Int) : String :=
  if n < 0 then "-" ++ Nat.repr n.natAbs else Nat.repr n.natAbs

/-- ECMAScript `ToString`, used by `parseInt(v)` and by the property access `obj[v]`. -/
def jsToString : JsVal → String
  | .undefined => "undefined"
  | .null => "null"
  | .bool b => if b then "true" else "false"
  | .num n => numberToString n
  | .numText t => t
  | .str s => s

/-- ECMAScript `StrWhiteSpaceChar`: white space and line terminators. -/
def isStrWhiteSpace (c : Char) : Bool :=
  let n := c.toNat
  n == 9 || n == 10 || n == 11 || n == 12 || n == 13 || n == 32 || n == 160 ||
  n == 0x1680 || (0x2000 ≤ n && n ≤ 0x200A) || n == 0x2028 || n == 0x2029 ||
  n == 0x202F || n == 0x205F || n == 0x3000 || n == 0xFEFF

/-- The value of `c` as a digit of the given radix (`0-9`, `a-z`, `A-Z`), if it is one. -/
def digitValue (radix : Nat) (c : Char) : Option Nat :=
  let n := c.toNat
  let v : Option Nat :=
    if 48 ≤ n ∧ n ≤ 57 then some (n - 48)
    else if 97 ≤ n ∧ n ≤ 122 then some (n - 87)
    else if 65 ≤ n ∧ n ≤ 90 then some (n - 55)
    else none
  match v with
  | some d => if d < radix then some d else none
  | none => none

/-- The longest prefix of digits of the given radix, as digit values. -/
def takeDigits (radix : Nat) : List Char → List Nat
  | [] => []
  | c :: cs =>
    match digitValue radix c with
    | some d => d :: takeDigits radix cs
    | none => []

/-- The mathematical integer written by a list of digit values. -/
def digitsToNat (radix : Nat) (ds : List Nat) : Nat :=
  ds.foldl (fun acc d => acc * radix + d) 0

/-- Steps 3-4 of `parseInt`: an optional leading sign. -/
def stripSign : List Char → Int × List Char
  | [] => (1, [])
  | c :: cs => if c = '-' then (-1, cs) else if c = '+' then (1, cs) else (1, c :: cs)

/-- Step 6 of `parseInt` (radix argument absent): a leading `0x` or `0X` selects radix 16. -/
def stripHexMarker : List Char → Nat × List Char
  | c :: d :: cs => if c = '0' ∧ (d = 'x' ∨ d = 'X') then (16, cs) else (10, c :: d :: cs)
  | cs => (10, cs)

/-- ECMAScript `parseInt(string)` with no radix argument, on the characters of the
string; `none` is `NaN`.  The result is the exact integer (rounding to a double
beyond `2^53` is not modelled; no module id is that large). -/
def parseIntChars (cs : List Char) : Option Int :=
  let trimmed := cs.dropWhile isStrWhiteSpace
  let signed := stripSign trimmed
  let radixed := stripHexMarker signed.2
  let ds := takeDigits radixed.1 radixed.2
  if ds = [] then none else some (signed.1 * (digitsToNat radixed.1 ds : Int))

/-- The call `parseInt(v)`: `v` is converted with `ToString` first. -/
def parseInt (v : JsVal) : Option Int :=
  parseIntChars (jsToString v).toList

/-- The result of ECMAScript `ToNumber` as far as the handlers use it: `NaN`, an
infinity, or the decimal value `mantissa * 10 ^ exponent` that the text denotes.  The
number itself is the double nearest to that value; the rounding is done where the
number is used, in `numLt` and `numGt`. -/
inductive JsNumber where
  | nan : JsNumber
  | posInf : JsNumber
  | negInf : JsNumber
  | dec (mantissa : Int) (exponent : Int) : JsNumber
deriving DecidableEq, Repr

/-- The longest prefix of decimal digits, as digit values, and the rest. -/
def spanDecimal : List Char → List Nat × List Char
  | [] => ([], [])
  | c :: cs =>
    match digitValue 10 c with
    | some d => let r := spanDecimal cs; (d :: r.1, r.2)
    | none => ([], c :: cs)

/-- The digit values of `cs` when every character is a digit of the radix. -/
def allDigits (radix : Nat) : List Char → Option (List Nat)
  | [] => some []
  | c :: cs =>
    match digitValue radix c, allDigits radix cs with
    | some d, some ds => some (d :: ds)
    | _, _ => none

/-- The grammar `ExponentPart` (optional, up to the end of the literal). -/
def parseExponent : List Char → Option Int
  | [] => some 0
  | c :: cs =>
    if c = 'e' ∨ c = 'E' then
      let signed := stripSign cs
      let r := spanDecimal signed.2
      if r.1 = [] ∨ r.2 ≠ [] then none else some (signed.1 * (digitsToNat 10 r.1 : Int))
    else none

/-- The grammar `StrUnsignedDecimalLiteral` other than `Infinity`: digits with an
optional fraction and exponent; the result is a mantissa and a decimal exponent. -/
def parseUnsignedDecimal (cs : List Char) : Option (Nat × Int) :=
  let ip := spanDecimal cs
  let fp : List Nat × List Char :=
    match ip.2 with
    | c :: rest => if c = '.' then spanDecimal rest else ([], c :: rest)
    | [] => ([], [])
  if ip.1 = [] ∧ fp.1 = [] then none
  else
    match parseExponent fp.2 with
    | none => none
    | some e => some (digitsToNat 10 (ip.1 ++ fp.1), e - (fp.1.length : Int))

/-- The grammar `NonDecimalIntegerLiteral`: `0x`, `0o` or `0b` (either case) followed
by digits of that radix only. -/
def parseNonDecimal : List Char → Option Nat
  | c :: d :: cs =>
    if c = '0' then
      let radix : Option Nat :=
        if d = 'x' ∨ d = 'X' then some 16
        else if d = 'o' ∨ d = 'O' then some 8
        else if d = 'b' ∨ d = 'B' then some 2
        else none
      match radix with
      | none => none
      | some r =>
        match allDigits r cs with
        | some (x :: xs) => some (digitsToNat r (x :: xs))
        | _ => none
    else none
  | _ => none

/-- ECMAScript `StringToNumber`, up to the final rounding: the mathematical value of
the literal. -/
def stringToNumber (s : String) : JsNumber :=
  let body := ((s.toList.dropWhile isStrWhiteSpace).reverse.dropWhile isStrWhiteSpace).reverse
  if body = [] then .dec 0 0
  else
    match parseNonDecimal body with
    | some n => .dec n 0
    | none =>
      let signed := stripSign body
      if signed.2 = "Infinity".toList then (if signed.1 < 0 then .negInf else .posInf)
      else
        match parseUnsignedDecimal signed.2 with
        | some (m, e) => .dec (signed.1 * (m : Int)) e
        | none => .nan

/-- ECMAScript `ToNumber`, applied by the relational operators to a non-number operand. -/
def toNumber : JsVal → JsNumber
  | .undefined => .nan
  | .null => .dec 0 0
  | .bool b => if b then .dec 1 0 else .dec 0 0
  | .num n => .dec n 0
  | .numText t => stringToNumber t
  | .str s => stringToNumber s

/-- The number of binary digits of `n`, for `n ≤ fuel`. -/
def bitLengthAux : Nat → Nat → Nat
  | 0, _ => 0
  | fuel + 1, n => if n = 0 then 0 else bitLengthAux fuel (n / 2) + 1

/-- The number of binary digits of `n`: 4 for 13, 5 for 19. -/
def bitLength (n : Nat) : Nat := bitLengthAux n n

/-- Rounding next to an integer constant `k` that is positive, below `2 ^ 52` and no
power of two (the source compares with 13 and 19).  The doubles next to `k` are
`k - 2 ^ (bitLength k - 53)` and `k + 2 ^ (bitLength k - 53)`, so a decimal value `v`
rounds to a double below `k` exactly when `v < k - 2 ^ (-h)`, and to a double above
`k` exactly when `v > k + 2 ^ (-h)`, for `h = 54 - bitLength k`; a value on one of
these two bounds is a tie and rounds to `k`, whose significand is even.  For 13 the
bounds are `13 - 2 ^ (-50)` and `13 + 2 ^ (-50)`, for 19 they are `19 - 2 ^ (-49)` and
`19 + 2 ^ (-49)`. -/
def halfUlpShift (k : Int) : Nat := 54 - bitLength k.natAbs

/-- The comparison `x < k` against an integer constant (`false` when `x` is `NaN`): the
double nearest to the decimal value of `x` is below `k`. -/
def numLt (x : JsNumber) (k : Int) : Bool :=
  match x with
  | .nan => false
  | .posInf => false
  | .negInf => true
  | .dec m e =>
    if 0 ≤ e then m * 10 ^ e.toNat * 2 ^ halfUlpShift k < k * 2 ^ halfUlpShift k - 1
    else m * 2 ^ halfUlpShift k < (k * 2 ^ halfUlpShift k - 1) * 10 ^ (-e).toNat

/-- The comparison `x > k` against an integer constant (`false` when `x` is `NaN`): the
double nearest to the decimal value of `x` is above `k`. -/
def numGt (x : JsNumber) (k : Int) : Bool :=
  match x with
  | .nan => false
  | .posInf => true
  | .negInf => false
  | .dec m e =>
    if 0 ≤ e then k * 2 ^ halfUlpShift k + 1 < m * 10 ^ e.toNat * 2 ^ halfUlpShift k
    else (k * 2 ^ halfUlpShift k + 1) * 10 ^ (-e).toNat < m * 2 ^ halfUlpShift k

/-- The `length` of a string: its number of UTF-16 code units. -/
def utf16Length (s : String) : Nat :=
  (s.toList.map (fun c => if c.toNat < 0x10000 then 1 else 2)).sum

/-! ## Plain objects used as maps -/

/-- A JavaScript object with numeric values (`user.moduleProgress`, the `progress`
object of `GET /modules`): its own properties as key/value pairs with distinct keys.
Property enumeration order is not modelled.  The handlers only use keys that
`parseInt` reads as a module id or that are the decimal text of one; none of these is
a property of `Object.prototype`, so a read finds own properties only. -/
abbrev JsObj := List (String × Nat)

/-- Property read `obj[key]`; `none` is `undefined`. -/
def JsObj.get (o : JsObj) (key : String) : Option Nat :=
  match o with
  | [] => none
  | (k, v) :: rest => if k = key then some v else JsObj.get rest key

/-- Property write `obj[key] = v`. -/
def JsObj.set (o : JsObj) (key : String) (v : Nat) : JsObj :=
  match o with
  | [] => [(key, v)]
  | (k, w) :: rest => if k = key then (k, v) :: rest else (k, w) :: JsObj.set rest key v

/-! ## Data model -/

/-- An element of the `modules` array. -/
structure Module where
  id : Int
  category : String
  title : String
  description : String
  duration : String
  level : String
  videoUrl : String
  enrolled : Nat
deriving DecidableEq, Repr

/-- An element of the in-memory `users` array.  `completedModules` and
`moduleProgress` are absent (`none`) until `POST /modules/complete` creates them.
The `createdAt` date is not modelled. -/
structure User where
  id : Nat
  name : JsVal
  email : JsVal
  age : JsVal
  password : String
  enrolledModules : List Int
  completedModules : Option (List Int)
  moduleProgress : Option JsObj
deriving DecidableEq, Repr

/-- The in-memory storage: `let users = []; let modules = [...]`. -/
structure Store where
  users : List User
  modules : List Module
deriving DecidableEq, Repr

/-- The seeded `modules` array. -/
def seedModules : List Module :=
  [ { id := 1, category := "Design", title := "Intro to Graphic Design",
      description := "Learn the fundamentals of visual design, color theory, and typography. Perfect for beginners!",
      duration := "2 hours", level := "Beginner",
      videoUrl := "https://www.youtube.com/embed/dQw4w9WgXcQ", enrolled := 0 },
    { id := 2, category := "Design", title := "UI/UX Design Basics",
      description := "Master user interface and experience design principles for digital products.",
      duration := "3 hours", level := "Beginner",
      videoUrl := "https://www.youtube.com/embed/dQw4w9WgXcQ", enrolled := 0 },
    { id := 3, category := "Design", title := "Digital Photography",
      description := "Capture stunning images with professional techniques and composition rules.",
      duration := "2.5 hours", level := "Intermediate",
      videoUrl := "https://www.youtube.com/embed/dQw4w9WgXcQ", enrolled := 0 },
    { id := 4, category := "Filmmaking", title := "Intro to Storyboarding",
      description := "Plan your films with professional storyboarding techniques and visual storytelling.",
      duration := "2 hours", level := "Beginner",
      videoUrl := "https://www.youtube.com/embed/dQw4w9WgXcQ", enrolled := 0 },
    { id := 5, category := "Filmmaking", title := "Cinematography 101",
      description := "Learn camera angles, lighting, and shot composition for compelling visuals.",
      duration := "3 hours", level := "Intermediate",
      videoUrl := "https://www.youtube.com/embed/dQw4w9WgXcQ", enrolled := 0 },
    { id := 6, category := "Filmmaking", title := "Video Editing Mastery",
      description := "Master post-production with industry-standard editing software and techniques.",
      duration := "4 hours", level := "Intermediate",
      videoUrl := "https://www.youtube.com/embed/dQw4w9WgXcQ", enrolled := 0 },
    { id := 7, category := "Music", title := "Music Production Basics",
      description := "Create professional-quality tracks using digital audio workstations and mixing techniques.",
      duration := "3 hours", level := "Beginner",
      videoUrl := "https://www.youtube.com/embed/dQw4w9WgXcQ", enrolled := 0 },
    { id := 8, category := "Music", title := "Audio Recording & Mixing",
      description := "Learn professional recording techniques and audio mixing for crystal-clear sound.",
      duration := "2.5 hours", level := "Intermediate",
      videoUrl := "https://www.youtube.com/embed/dQw4w9WgXcQ", enrolled := 0 },
    { id := 9, category := "Music", title := "Sound Design for Film",
      description := "Create immersive soundscapes and audio effects for video projects.",
      duration := "3.5 hours", level := "Advanced",
      videoUrl := "https://www.youtube.com/embed/dQw4w9WgXcQ", enrolled := 0 } ]

/-- The store when the server starts: no users, the seeded modules. -/
def initStore : Store := { users := [], modules := seedModules }

/-! ## Responses -/

/-- The JSON body passed to `res.json`.  A token (the result of `generateToken`) is
represented by the `userId` it signs.  The field `id` of a user is `user.id || user._id`,
which is `user.id` for the positive ids of the in-memory store. -/
inductive Body where
  | failure (error : String) : Body
  | signedUp (message : String) (id : Nat) (name email age : JsVal)
      (enrolledModules : List Int) (token : Nat) : Body
  | loggedIn (message : String) (id : Nat) (name email age : JsVal)
      (enrolledModules : List Int) (token : Nat) : Body
  | learningState (id : Nat) (name email age : JsVal)
      (enrolledModules completedModules : List Int) (progress : JsObj)
      (enrolledModulesData completedModulesData allModules : List Module) : Body
  | enrolled (message : String) (module : Module) (enrolledModules : List Int) : Body
  | completed (message : String) (module : Module) (completedModules : List Int)
      (progress : JsObj) : Body
deriving DecidableEq, Repr

/-- A response: the status set with `res.status` (200 when not set) and the body. -/
structure Response where
  status : Nat
  body : Body
deriving DecidableEq, Repr

/-- The failure response: `res.status(code).json` of an object with `success: false`
and the `error` text. -/
def failWith (code : Nat) (error : String) : Response :=
  { status := code, body := .failure error }

/-! ## Store access -/

/-- Replace, by `f`, the first element that satisfies `p`: the effect of mutating the
object that `Array.prototype.find` returned. -/
def updateFirst {α : Type} (p : α → Bool) (f : α → α) : List α → List α
  | [] => []
  | x :: xs => if p x then f x :: xs else x :: updateFirst p f xs

/-- The lookup `users.find(u => u.id === userId)`. -/
def findUser (s : Store) (userId : Nat) : Option User :=
  s.users.find? (fun u => decide (u.id = userId))

/-- The lookup `modules.find(m => m.id === k)` for a number `k`. -/
def findModule (s : Store) (k : Int) : Option Module :=
  s.modules.find? (fun m => decide (m.id = k))

/-! ## Route handlers -/

/-- The test `password.length < 6`: a number or boolean has no `length`, and
`undefined < 6` is false. -/
def passwordTooShort : JsVal → Bool
  | .str s => decide (utf16Length s < 6)
  | _ => false

/-- Handler of `POST /signup`.  `hashed` is what `bcrypt.hash(password, 10)` resolves to;
`bcrypt.hash` rejects when the password is not a string, which the handler answers
with status 500. -/
def signupHandler (s : Store) (name email age password : JsVal) (hashed : String) :
    Response × Store :=
  if !isTruthy name || !isTruthy email || !isTruthy age || !isTruthy password then
    (failWith 400 "All fields are required", s)
  else if numLt (toNumber age) 13 || numGt (toNumber age) 19 then
    (failWith 400 "Age must be between 13 and 19", s)
  else if passwordTooShort password then
    (failWith 400 "Password must be at least 6 characters long", s)
  else
    match s.users.find? (fun u => decide (u.email = email)) with
    | some _ => (failWith 400 "User already exists with this email", s)
    | none =>
      match password with
      | .str _ =>
        let newUser : User :=
          { id := s.users.length + 1, name := name, email := email, age := age,
            password := hashed, enrolledModules := [], completedModules := none,
            moduleProgress := none }
        ({ status := 201,
           body := .signedUp "User created successfully" newUser.id newUser.name
             newUser.email newUser.age newUser.enrolledModules newUser.id },
         { s with users := s.users ++ [newUser] })
      | _ => (failWith 500 "Failed to create user", s)

/-- Handler of `POST /login`.  `verifies` is what `bcrypt.compare(password, user.password)`
resolves to; `bcrypt.compare` rejects when the password is not a string. -/
def loginHandler (s : Store) (email password : JsVal) (verifies : Bool) : Response :=
  if !isTruthy email || !isTruthy password then
    failWith 400 "Email and password are required"
  else
    match s.users.find? (fun u => decide (u.email = email)) with
    | none => failWith 401 "Invalid email or password"
    | some user =>
      match password with
      | .str _ =>
        if !verifies then failWith 401 "Invalid email or password"
        else
          { status := 200,
            body := .loggedIn "Login successful" user.id user.name user.email user.age
              user.enrolledModules user.id }
      | _ => failWith 500 "Failed to login"

/-- The expression `user.moduleProgress && user.moduleProgress[moduleId] || 0` for a
module id taken from `user.enrolledModules`. -/
def storedProgress (user : User) (moduleId : Int) : Nat :=
  match user.moduleProgress with
  | none => 0
  | some o =>
    match o.get (numberToString moduleId) with
    | none => 0
    | some v => if v = 0 then 0 else v

/-- The `progress` object built by the `forEach` over `user.enrolledModules`. -/
def progressObject (user : User) : JsObj :=
  user.enrolledModules.foldl
    (fun o moduleId => o.set (numberToString moduleId) (storedProgress user moduleId)) []

/-- Handler of `GET /modules` for the `userId` of the verified token. -/
def getModulesHandler (s : Store) (userId : Nat) : Response :=
  match findUser s userId with
  | none => failWith 404 "User not found"
  | some user =>
    { status := 200,
      body := .learningState user.id user.name user.email user.age
        user.enrolledModules
        (user.completedModules.getD [])
        (progressObject user)
        (s.modules.filter (fun m => decide (m.id ∈ user.enrolledModules)))
        (s.modules.filter (fun m => decide (m.id ∈ user.completedModules.getD [])))
        s.modules }

/-- Handler of `POST /modules/enroll` for the `userId` of the verified token and the
body field `moduleId`.  When `parseInt(moduleId)` is `NaN` the `find` returns nothing,
`m.id === NaN` being false for every module. -/
def enrollHandler (s : Store) (userId : Nat) (moduleId : JsVal) : Response × Store :=
  if !isTruthy moduleId then (failWith 400 "Module ID is required", s)
  else
    match parseInt moduleId with
    | none => (failWith 404 "Module not found", s)
    | some k =>
      match findModule s k with
      | none => (failWith 404 "Module not found", s)
      | some mdl =>
        match findUser s userId with
        | none => (failWith 404 "User not found", s)
        | some user =>
          if k ∈ user.enrolledModules then
            (failWith 400 "Already enrolled in this module", s)
          else
            ({ status := 200,
               body := .enrolled "Successfully enrolled in module"
                 { mdl with enrolled := mdl.enrolled + 1 } (user.enrolledModules ++ [k]) },
             { users := updateFirst (fun u => decide (u.id = userId))
                 (fun u => { u with enrolledModules := u.enrolledModules ++ [k] }) s.users,
               modules := updateFirst (fun m => decide (m.id = k))
                 (fun m => { m with enrolled := m.enrolled + 1 }) s.modules })

/-- The field updates of a successful `POST /modules/complete` on the user record:
`completedModules.push(parseInt(moduleId))` (creating the array when absent) and
`moduleProgress[moduleId] = 100` (creating the object when absent), the property key
being the body value `moduleId` itself. -/
def markCompleted (k : Int) (moduleId : JsVal) (u : User) : User :=
  { u with
    completedModules := some (u.completedModules.getD [] ++ [k]),
    moduleProgress := some ((u.moduleProgress.getD []).set (jsToString moduleId) 100) }

/-- Handler of `POST /modules/complete` for the `userId` of the verified token and the
body field `moduleId`.  The guard `user.completedModules && user.completedModules.includes(k)`
is membership in the list, an absent list having no member. -/
def completeHandler (s : Store) (userId : Nat) (moduleId : JsVal) : Response × Store :=
  if !isTruthy moduleId then (failWith 400 "Module ID is required", s)
  else
    match parseInt moduleId with
    | none => (failWith 404 "Module not found", s)
    | some k =>
      match findModule s k with
      | none => (failWith 404 "Module not found", s)
      | some mdl =>
        match findUser s userId with
        | none => (failWith 404 "User not found", s)
        | some user =>
          if k ∉ user.enrolledModules then
            (failWith 400 "You must be enrolled in this module to complete it", s)
          else if k ∈ user.completedModules.getD [] then
            (failWith 400 "Module already completed", s)
          else
            ({ status := 200,
               body := .completed "Module marked as completed" mdl
                 ((markCompleted k moduleId user).completedModules.getD [])
                 ((markCompleted k moduleId user).moduleProgress.getD []) },
             { s with
               users := updateFirst (fun u => decide (u.id = userId))
                 (markCompleted k moduleId) s.users })

/-- The value that the `progress` object of a response holds at a key (`none` when the
response carries no progress object or the object has no such property). -/
def Response.progressAt (r : Response) (key : String) : Option Nat :=
  match r.body with
  | .learningState _ _ _ _ _ _ progress _ _ _ => progress.get key
  | .completed _ _ _ progress => progress.get key
  | _ => none

/-- The `completedModules` array of a response, when it carries one. -/
def Response.completedModules (r : Response) : Option (List Int) :=
  match r.body with
  | .learningState _ _ _ _ _ completed _ _ _ _ => some completed
  | .completed _ _ completed _ => some completed
  | _ => none

/-! ## The server as a transition system -/

/-- A request that reached its route handler (the protected routes past the token
check, with the `userId` of the verified token). -/
inductive Request where
  | signup (name email age password : JsVal) (hashed : String) : Request
  | login (email password : JsVal) (verifies : Bool) : Request
  | getModules (userId : Nat) : Request
  | enroll (userId : Nat) (moduleId : JsVal) : Request
  | complete (userId : Nat) (moduleId : JsVal) : Request
deriving DecidableEq, Repr

/-- Serve one request. -/
def step (s : Store) : Request → Response × Store
  | .signup name email age password hashed => signupHandler s name email age password hashed
  | .login email password verifies => (loginHandler s email password verifies, s)
  | .getModules userId => (getModulesHandler s userId, s)
  | .enroll userId moduleId => enrollHandler s userId moduleId
  | .complete userId moduleId => completeHandler s userId moduleId

/-- Serve a sequence of requests one after the other, each handler running to its
response before the next request; the final store.  (Every handler but that of
`POST /signup` runs without an `await` on the in-memory store or writes nothing;
`asyncRun` below also lets signups overlap at their `await bcrypt.hash`.) -/
def run (s : Store) : List Request → Store
  | [] => s
  | r :: rs => run (step s r).2 rs

/-- The responses of a sequence of requests served one after the other. -/
def responses (s : Store) : List Request → List Response
  | [] => []
  | r :: rs => (step s r).1 :: responses (step s r).2 rs

/-- The stores the server can be in: those a sequence of requests leads to from the
store at startup. -/
def Reachable (s : Store) : Prop := ∃ rs : List Request, run initStore rs = s

/-- The ids of the seeded modules, `1` to `9`. -/
def catalogIds : List Int := seedModules.map (fun m => m.id)

/-- The number of requests of a sequence, served one after the other from `s`, that are
an enrollment whose `moduleId` parses to `k` and that succeed (status 200). -/
def successfulEnrolls (k : Int) (s : Store) : List Request → Nat
  | [] => 0
  | r :: rs =>
    (match r with
     | .enroll _ moduleId =>
       if parseInt moduleId = some k ∧ (step s r).1.status = 200 then 1 else 0
     | _ => 0) + successfulEnrolls k (step s r).2 rs

/-- What every reachable store satisfies. -/
structure Inv (s : Store) : Prop where
  moduleIds : s.modules.map (fun m => m.id) = catalogIds
  userIds : s.users.map (fun u => u.id) = List.range' 1 s.users.length
  enrolledValid : ∀ u ∈ s.users, ∀ k ∈ u.enrolledModules, k ∈ catalogIds
  enrolledNodup : ∀ u ∈ s.users, u.enrolledModules.Nodup
  completedNodup : ∀ u ∈ s.users, (u.completedModules.getD []).Nodup
  completedSub : ∀ u ∈ s.users, ∀ k ∈ u.completedModules.getD [], k ∈ u.enrolledModules
  progressKeys : ∀ u ∈ s.users, ∀ kv ∈ u.moduleProgress.getD [],
    kv.2 = 100 ∧ ∃ k, parseIntChars kv.1.toList = some k ∧ k ∈ u.completedModules.getD []
  counters : ∀ m ∈ s.modules,
    m.enrolled = s.users.countP (fun u => decide (m.id ∈ u.enrolledModules))

/-! ## Concrete runs -/

/-- A registration request: Ana, aged 15. -/
def anaSignup : Request :=
  .signup (.str "Ana") (.str "ana@x.com") (.num 15) (.str "secret1") "$2a$10$hashOfSecret1"

/-- The user record that `anaSignup` creates on the empty user list. -/
def anaUser : User :=
  { id := 1, name := .str "Ana", email := .str "ana@x.com", age := .num 15,
    password := "$2a$10$hashOfSecret1", enrolledModules := [], completedModules := none,
    moduleProgress := none }

/-- The seeded module with id 1. -/
def module1 : Module :=
  { id := 1, category := "Design", title := "Intro to Graphic Design",
    description := "Learn the fundamentals of visual design, color theory, and typography. Perfect for beginners!",
    duration := "2 hours", level := "Beginner",
    videoUrl := "https://www.youtube.com/embed/dQw4w9WgXcQ", enrolled := 0 }

/-- Ana's record once she is enrolled in module 1. -/
def anaEnrolled : User := { anaUser with enrolledModules := [1] }

/-- Ana's record once she has completed module 1 with the body `moduleId: 1`. -/
def anaCompleted : User :=
  { anaUser with
    enrolledModules := [1], completedModules := some [1], moduleProgress := some [("1", 100)] }

/-- Ana's record once she has completed module 1 with the body `moduleId: "1abc"`. -/
def anaCompletedRaw : User :=
  { anaUser with
    enrolledModules := [1], completedModules := some [1],
    moduleProgress := some [("1abc", 100)] }

/-- Module 1 once one user has enrolled in it. -/
def module1Enrolled : Module := { module1 with enrolled := 1 }

/-- The store after Ana registered. -/
def storeRegistered : Store := run initStore [anaSignup]

/-- The store after Ana registered and enrolled in module 1. -/
def storeEnrolled : Store := run initStore [anaSignup, .enroll 1 (.num 1)]

/-- The store after Ana registered, enrolled in module 1 and completed it with the
body `moduleId: 1`. -/
def storeCompleted : Store :=
  run initStore [anaSignup, .enroll 1 (.num 1), .complete 1 (.num 1)]

/-- The store after Ana registered, enrolled in module 1 and completed it with the
body `moduleId: "1abc"`, which `parseInt` reads as 1. -/
def storeCompletedRaw : Store :=
  run initStore [anaSignup, .enroll 1 (.num 1), .complete 1 (.str "1abc")]

/-! ## Field validation -/

/-- The three validation guards of `POST /signup` all let the request through: no field
is falsy, neither `age < 13` nor `age > 19` holds, and `password.length < 6` does not hold. -/
def fieldsValid (name email age password : JsVal) : Bool :=
  isTruthy name && isTruthy email && isTruthy age && isTruthy password &&
    !(numLt (toNumber age) 13 || numGt (toNumber age) 19) && !passwordTooShort password

/-! ## The token check -/

/-- The pieces of `String.prototype.split(' ')`, on the characters of the string. -/
def splitOnSpace : List Char → List (List Char)
  | [] => [[]]
  | c :: cs =>
    if c = ' ' then [] :: splitOnSpace cs
    else
      match splitOnSpace cs with
      | [] => [[c]]
      | piece :: rest => (c :: piece) :: rest

/-- The expression `authHeader && authHeader.split(' ')[1]` of `authenticateToken`;
`none` when it is falsy: the header is absent or empty, there is no second piece, or
the second piece is the empty string. -/
def headerToken (authorization : Option String) : Option String :=
  match authorization with
  | none => none
  | some h =>
    match (splitOnSpace h.toList).drop 1 with
    | [] => none
    | piece :: _ => if piece = [] then none else some (String.mk piece)

/-- How the middleware `authenticateToken` ends: it answers itself, with a status and
the body `error` (a body without a `success` field), or it calls `next()` with the
`userId` of the verified token in `req.user`. -/
inductive AuthResult where
  | denied (status : Nat) (error : String) : AuthResult
  | granted (userId : Nat) : AuthResult
deriving DecidableEq, Repr

/-- The middleware `authenticateToken`.  `verify token` is what `jwt.verify(token,
JWT_SECRET, ...)` decodes: `none` when it reports an error, else the `userId` of the
payload. -/
def authenticateToken (verify : String → Option Nat) (authorization : Option String) :
    AuthResult :=
  match headerToken authorization with
  | none => .denied 401 "Access token required"
  | some token =>
    match verify token with
    | none => .denied 403 "Invalid or expired token"
    | some userId => .granted userId

/-- The routes registered with `authenticateToken` in front of the handler, with the
body field they read. -/
inductive ProtectedRoute where
  | getModules : ProtectedRoute
  | enroll (moduleId : JsVal) : ProtectedRoute
  | complete (moduleId : JsVal) : ProtectedRoute
deriving DecidableEq, Repr

/-- The request that reaches the handler of a protected route once the token is verified. -/
def ProtectedRoute.request (userId : Nat) : ProtectedRoute → Request
  | .getModules => .getModules userId
  | .enroll moduleId => .enroll userId moduleId
  | .complete moduleId => .complete userId moduleId

/-- What a protected route sends back: the answer of the middleware, the handler not
being run, or the response of the handler. -/
inductive Served where
  | rejected (status : Nat) (error : String) : Served
  | handled (r : Response) : Served
deriving DecidableEq, Repr

/-- A protected route: `authenticateToken`, then the handler. -/
def serveProtected (verify : String → Option Nat) (s : Store)
    (authorization : Option String) (route : ProtectedRoute) : Served × Store :=
  match authenticateToken verify authorization with
  | .denied status error => (.rejected status error, s)
  | .granted userId =>
    (.handled (step s (route.request userId)).1, (step s (route.request userId)).2)

/-! ## The catalog route -/

/-- The body of `GET /api/entropy` (`success: true`): the three groups of `data` and
`totalModules`, with the status. -/
structure CatalogReply where
  status : Nat
  design : List Module
  filmmaking : List Module
  music : List Module
  totalModules : Nat
deriving DecidableEq, Repr

/-- Handler of `GET /api/entropy`. -/
def catalogHandler (s : Store) : CatalogReply :=
  { status := 200,
    design := s.modules.filter (fun m => decide (m.category = "Design")),
    filmmaking := s.modules.filter (fun m => decide (m.category = "Filmmaking")),
    music := s.modules.filter (fun m => decide (m.category = "Music")),
    totalModules := s.modules.length }

/-! ## The persisted user schema -/

/-- The paths of the Mongoose `userSchema`. -/
def userSchemaPaths : List String :=
  ["name", "email", "age", "password", "enrolledModules", "createdAt"]

/-! ## Concrete tokens -/

/-- A stand-in for `jwt.sign`: the token of `userId` is `userId + 1` letters `x`. -/
def unarySign (userId : Nat) : String := String.mk (List.replicate (userId + 1) 'x')

/-- The stand-in for `jwt.verify` that decodes the tokens of `unarySign` and reports an
error on every other text. -/
def unaryVerify (token : String) : Option Nat :=
  if token.toList = List.replicate token.toList.length 'x' ∧ token.toList ≠ [] then
    some (token.toList.length - 1)
  else none

/-! ## The shape of the response bodies -/

/-- The top-level keys of the object that a route handler passes to `res.json`. -/
def Body.keys : Body → List String
  | .failure _ => ["success", "error"]
  | .signedUp _ _ _ _ _ _ _ => ["success", "message", "data", "token"]
  | .loggedIn _ _ _ _ _ _ _ => ["success", "message", "data", "token"]
  | .learningState _ _ _ _ _ _ _ _ _ _ => ["success", "data"]
  | .enrolled _ _ _ => ["success", "message", "data"]
  | .completed _ _ _ _ => ["success", "message", "data"]

/-- The value of the key `success` in the body of a route handler. -/
def Body.success : Body → Bool
  | .failure _ => false
  | _ => true

/-- The keys of the user object inside `data` (`data` itself for `/signup` and `/login`,
`data.user` for `GET /modules`); empty when the body has no user object. -/
def Body.userKeys : Body → List String
  | .signedUp _ _ _ _ _ _ _ => ["id", "name", "email", "age", "enrolledModules"]
  | .loggedIn _ _ _ _ _ _ _ => ["id", "name", "email", "age", "enrolledModules"]
  | .learningState _ _ _ _ _ _ _ _ _ _ => ["id", "name", "email", "age"]
  | _ => []

/-- The top-level keys of what a protected route sends: the middleware passes an object
with the one key `error` to `res.json`. -/
def Served.keys : Served → List String
  | .rejected _ _ => ["error"]
  | .handled r => r.body.keys

/-- The top-level keys of the body of `GET /health`. -/
def healthKeys : List String := ["status", "message", "timestamp"]

/-- The top-level keys of the body of `GET /api/entropy`. -/
def CatalogReply.keys (_ : CatalogReply) : List String := ["success", "data", "totalModules"]

/-- What `GET /api/entropy/module/:id` answers: the module found (status 200, body with
`success: true` and `data`), or none (status 404, body with `success: false` and `error:
'Module not found'`). -/
def moduleByIdHandler (s : Store) (id : String) : Option Module :=
  (parseInt (.str id)).bind (findModule s)

/-- The status of the answer of `GET /api/entropy/module/:id`. -/
def moduleByIdStatus : Option Module → Nat
  | some _ => 200
  | none => 404

/-- The top-level keys of the body of `GET /api/entropy/module/:id`. -/
def moduleByIdKeys : Option Module → List String
  | some _ => ["success", "data"]
  | none => ["success", "error"]

/-- The JSON answer of the catch-all route, given to an unknown path under an API root
(`catchAllHandler` below has both branches of the route). -/
def routeNotFound : Response := failWith 404 "Route not found"

/-- The answer of the error-handling middleware. -/
def errorMiddleware : Response := failWith 500 "Something went wrong!"

/-! ## Stores without the password hashes -/

/-- A user record with the `password` field blanked. -/
def User.withoutPassword (u : User) : User := { u with password := "" }

/-- A store with the `password` field of every user blanked. -/
def Store.withoutPasswords (s : Store) : Store :=
  { s with users := s.users.map User.withoutPassword }

/-- A request with the result of `bcrypt.hash` blanked. -/
def Request.withoutHash : Request → Request
  | .signup name email age password _ => .signup name email age password ""
  | r => r

/-! ## The frontend: age check, recommendations, statistics -/

/-- Frontend `validateAge(age)` on the text of the form field: `parseInt(age)` is
compared with 13 and 19, and both comparisons are false for `NaN`. -/
def validateAge (age : String) : Bool :=
  match parseInt (.str age) with
  | none => false
  | some ageNum => decide (13 ≤ ageNum) && decide (ageNum ≤ 19)

/-- The `age` that `handleSignup` sends, as the server reads it from the JSON body:
`JSON.stringify` writes `parseInt(age)` as a number, and as `null` when it is `NaN`. -/
def sentAge (age : String) : JsVal :=
  match parseInt (.str age) with
  | none => .null
  | some ageNum => .num ageNum

/-- The guards of `POST /signup` that concern `age` let the value through: `!age`,
`age < 13` and `age > 19` are all false. -/
def ageAccepted (age : JsVal) : Bool :=
  isTruthy age && !numLt (toNumber age) 13 && !numGt (toNumber age) 19

/-- The frontend expression `Object.values(modulesData).flat()`, `modulesData` being given by its
values in key order. -/
def flatModules (modulesData : List (List Module)) : List Module := modulesData.flatten

/-- The values of `modulesData` after `loadModules` stored the `data` of the catalog
route: the groups `Design`, `Filmmaking`, `Music`. -/
def CatalogReply.groups (c : CatalogReply) : List (List Module) :=
  [c.design, c.filmmaking, c.music]

/-- Frontend `findModuleById(moduleId)`. -/
def findModuleById (modulesData : List (List Module)) (moduleId : Int) : Option Module :=
  (flatModules modulesData).find? (fun m => decide (m.id = moduleId))

/-- The list `enrolledCategories` of `updateRecommendedModules`: the category of each
enrolled id, `null` for an id that no module has, then `.filter(Boolean)`, which drops
the `null`s and empty strings. -/
def enrolledCategories (modulesData : List (List Module)) (enrolled : List Int) : List String :=
  (enrolled.map (fun id =>
      match findModuleById modulesData id with
      | some m => some m.category
      | none => none)).filterMap
    (fun c =>
      match c with
      | some category => if category = "" then none else some category
      | none => none)

/-- The list `recommendedModules` of `updateRecommendedModules`. -/
def recommendedModules (modulesData : List (List Module)) (enrolled completed : List Int) :
    List Module :=
  ((flatModules modulesData).filter (fun m =>
    !decide (m.id ∈ enrolled) && !decide (m.id ∈ completed) &&
      decide (m.category ∈ enrolledCategories modulesData enrolled))).take 3

/-- The recommendation policy in the words of the specification, for comparison with
`recommendedModules`: of the modules of the catalog whose category is the category of
some enrolled module and whose id is neither enrolled nor completed, in catalog order,
the first three at most. -/
def recommendedBySpec (catalog : List Module) (enrolled completed : List Int) : List Module :=
  (catalog.filter (fun m =>
    catalog.any (fun e => decide (e.id ∈ enrolled) && decide (e.category = m.category)) &&
      !decide (m.id ∈ enrolled) && !decide (m.id ∈ completed))).take 3

/-- The `reduce` of `updateLearningStats`: the sum over the enrolled ids of
`myLearningData.progress[moduleId] || 0`. -/
def totalProgress (enrolled : List Int) (progress : JsObj) : Nat :=
  enrolled.foldl (fun sum moduleId =>
    sum + (match progress.get (numberToString moduleId) with
           | some v => if v = 0 then 0 else v
           | none => 0)) 0

/-- The value `Math.round(total / count)` for natural numbers `total` and `count > 0`:
the quotient rounded to the nearest integer, a half rounded up.  (The double division
is exact enough not to move a quotient across a half.) -/
def roundedQuotient (total count : Nat) : Nat := (2 * total + count) / (2 * count)

/-- The text that `updateLearningStats` writes into `progress-percentage`. -/
def progressPercentageText (enrolled : List Int) (progress : JsObj) : String :=
  if enrolled.length > 0 then
    numberToString (roundedQuotient (totalProgress enrolled progress) enrolled.length) ++ "%"
  else "0%"

/-! ## Values that stand for a body field -/

/-- The decimal value `m * 10 ^ e` is an integer below `2 ^ 53` in magnitude. -/
def isSafeInteger (m e : Int) : Bool :=
  if 0 ≤ e then decide (m.natAbs * 10 ^ e.toNat < 2 ^ 53)
  else decide (m % 10 ^ (-e).toNat = 0) && decide (m.natAbs / 10 ^ (-e).toNat < 2 ^ 53)

/-- The values of `JsVal` that stand for a body field, every number with one
representation: `num n` when `n` is a safe integer, `numText t` when `t` is the text of
a number that is no safe integer.  (That `t` is the shortest text of its double, as
`Number::toString` writes it, is not checked.) -/
def JsVal.wellFormed : JsVal → Bool
  | .num n => decide (n.natAbs < 2 ^ 53)
  | .numText t =>
    match stringToNumber t with
    | .nan => false
    | .posInf => true
    | .negInf => true
    | .dec m e => !isSafeInteger m e
  | _ => true

/-! ## Any JSON value as `moduleId` -/

/-- A value of the body field `moduleId` as `express.json()` delivers it: a primitive,
or an array or object.  Of an array or object the two handlers use its truth value,
which is true, and its conversion to a string, which `parseInt(moduleId)` and the
property key `moduleProgress[moduleId]` apply: `toText` is `some t` when the conversion
gives `t` (`1,2` for `[1,2]`, the empty string for `[]`, `[object Object]` for an object
without a property `toString`), and `none` when it throws a `TypeError` (an object with
a property `toString`, which JSON never makes a function, or an array that holds one). -/
inductive BodyVal where
  | prim (v : JsVal) : BodyVal
  | composite (toText : Option String) : BodyVal
deriving DecidableEq, Repr

/-- ECMAScript `ToBoolean` on any value: an array or object is truthy. -/
def BodyVal.truthy : BodyVal → Bool
  | .prim v => isTruthy v
  | .composite _ => true

/-- ECMAScript `ToString` on any value; `none` when it throws. -/
def BodyVal.text : BodyVal → Option String
  | .prim v => some (jsToString v)
  | .composite toText => toText

/-- The call `parseInt(moduleId)` on any value: `none` when the conversion to a string
throws, else what `parseInt` returns (`some none` is `NaN`). -/
def BodyVal.parsed (v : BodyVal) : Option (Option Int) :=
  v.text.map (fun t => parseIntChars t.toList)

/-- The values of `BodyVal` that stand for a body field. -/
def BodyVal.wellFormed : BodyVal → Bool
  | .prim v => v.wellFormed
  | .composite _ => true

/-- The field updates of a successful `POST /modules/complete`, with the property key
that `moduleProgress[moduleId]` converts `moduleId` to. -/
def markCompletedAt (k : Int) (key : String) (u : User) : User :=
  { u with
    completedModules := some (u.completedModules.getD [] ++ [k]),
    moduleProgress := some ((u.moduleProgress.getD []).set key 100) }

/-- Handler of `POST /modules/enroll` for any JSON value of the body field `moduleId`.
`parseInt(moduleId)` is first evaluated in the callback of `modules.find`, which runs
when `modules` has an element; a conversion that throws is caught by the `catch` of the
handler, which answers with status 500. -/
def enrollRoute (s : Store) (userId : Nat) (moduleId : BodyVal) : Response × Store :=
  if !moduleId.truthy then (failWith 400 "Module ID is required", s)
  else
    match s.modules with
    | [] => (failWith 404 "Module not found", s)
    | _ :: _ =>
      match moduleId.text with
      | none => (failWith 500 "Failed to enroll in module", s)
      | some t =>
        match parseIntChars t.toList with
        | none => (failWith 404 "Module not found", s)
        | some k =>
          match findModule s k with
          | none => (failWith 404 "Module not found", s)
          | some mdl =>
            match findUser s userId with
            | none => (failWith 404 "User not found", s)
            | some user =>
              if k ∈ user.enrolledModules then
                (failWith 400 "Already enrolled in this module", s)
              else
                ({ status := 200,
                   body := .enrolled "Successfully enrolled in module"
                     { mdl with enrolled := mdl.enrolled + 1 } (user.enrolledModules ++ [k]) },
                 { users := updateFirst (fun u => decide (u.id = userId))
                     (fun u => { u with enrolledModules := u.enrolledModules ++ [k] }) s.users,
                   modules := updateFirst (fun m => decide (m.id = k))
                     (fun m => { m with enrolled := m.enrolled + 1 }) s.modules })

/-- Handler of `POST /modules/complete` for any JSON value of the body field
`moduleId`; a conversion that throws is answered by the `catch` with status 500. -/
def completeRoute (s : Store) (userId : Nat) (moduleId : BodyVal) : Response × Store :=
  if !moduleId.truthy then (failWith 400 "Module ID is required", s)
  else
    match s.modules with
    | [] => (failWith 404 "Module not found", s)
    | _ :: _ =>
      match moduleId.text with
      | none => (failWith 500 "Failed to complete module", s)
      | some t =>
        match parseIntChars t.toList with
        | none => (failWith 404 "Module not found", s)
        | some k =>
          match findModule s k with
          | none => (failWith 404 "Module not found", s)
          | some mdl =>
            match findUser s userId with
            | none => (failWith 404 "User not found", s)
            | some user =>
              if k ∉ user.enrolledModules then
                (failWith 400 "You must be enrolled in this module to complete it", s)
              else if k ∈ user.completedModules.getD [] then
                (failWith 400 "Module already completed", s)
              else
                ({ status := 200,
                   body := .completed "Module marked as completed" mdl
                     ((markCompletedAt k t user).completedModules.getD [])
                     ((markCompletedAt k t user).moduleProgress.getD []) },
                 { s with
                   users := updateFirst (fun u => decide (u.id = userId))
                     (markCompletedAt k t) s.users })

/-! ## Signups that overlap -/

/-- The part of the handler of `POST /signup` that runs before `await bcrypt.hash`
(server.js 233-270): the three validation guards and the lookup of the email.  `some r`
when the handler answers `r` there; `none` when it goes on to hash the password and is
suspended at the `await`. -/
def signupStart (s : Store) (name email age password : JsVal) : Option Response :=
  if !isTruthy name || !isTruthy email || !isTruthy age || !isTruthy password then
    some (failWith 400 "All fields are required")
  else if numLt (toNumber age) 13 || numGt (toNumber age) 19 then
    some (failWith 400 "Age must be between 13 and 19")
  else if passwordTooShort password then
    some (failWith 400 "Password must be at least 6 characters long")
  else
    match s.users.find? (fun u => decide (u.email = email)) with
    | some _ => some (failWith 400 "User already exists with this email")
    | none => none

/-- The part of the handler of `POST /signup` that runs once `bcrypt.hash` has settled
(server.js 273-312), on the store as it is by then: `bcrypt.hash` rejects a password that
is not a string (status 500), else the record gets the id `users.length + 1` and is
pushed. -/
def signupResume (s : Store) (name email age password : JsVal) (hashed : String) :
    Response × Store :=
  match password with
  | .str _ =>
    let newUser : User :=
      { id := s.users.length + 1, name := name, email := email, age := age,
        password := hashed, enrolledModules := [], completedModules := none,
        moduleProgress := none }
    ({ status := 201,
       body := .signedUp "User created successfully" newUser.id newUser.name
         newUser.email newUser.age newUser.enrolledModules newUser.id },
     { s with users := s.users ++ [newUser] })
  | _ => (failWith 500 "Failed to create user", s)

/-- A signup suspended at `await bcrypt.hash`, with the fields it read from the body. -/
structure PendingSignup where
  name : JsVal
  email : JsVal
  age : JsVal
  password : JsVal
deriving DecidableEq, Repr

/-- What the server runs without another request in between: a whole request (`step`),
the first part of a signup up to its `await`, or the rest of a suspended signup. -/
inductive Event where
  | served (r : Request) : Event
  | signupStarts (p : PendingSignup) : Event
  | signupResumes (p : PendingSignup) (hashed : String) : Event
deriving DecidableEq, Repr

/-- One event on the store and the list of suspended signups.  A signup that answers in
its first part leaves both as they are; a signup resumes only if it is suspended. -/
def asyncStep (st : Store × List PendingSignup) : Event → Store × List PendingSignup
  | .served r => ((step st.1 r).2, st.2)
  | .signupStarts p =>
    match signupStart st.1 p.name p.email p.age p.password with
    | some _ => st
    | none => (st.1, st.2 ++ [p])
  | .signupResumes p hashed =>
    if p ∈ st.2 then
      ((signupResume st.1 p.name p.email p.age p.password hashed).2, st.2.erase p)
    else st

/-- A sequence of events; the final store and the signups still suspended. -/
def asyncRun (st : Store × List PendingSignup) : List Event → Store × List PendingSignup
  | [] => st
  | e :: es => asyncRun (asyncStep st e) es

/-- The responses of the signups that resume during a sequence of events. -/
def resumeResponses (st : Store × List PendingSignup) : List Event → List Response
  | [] => []
  | e :: es =>
    (match e with
     | .signupResumes p hashed =>
       if p ∈ st.2 then [(signupResume st.1 p.name p.email p.age p.password hashed).1] else []
     | _ => []) ++ resumeResponses (asyncStep st e) es

/-- Ana's signup, as the first part of the handler reads it from the body. -/
def anaPending : PendingSignup :=
  { name := .str "Ana", email := .str "ana@x.com", age := .num 15, password := .str "secret1" }

/-- Two signups with Ana's body that overlap: the second request arrives while the
first awaits `bcrypt.hash`, then the two hashes settle. -/
def overlappingSignups : List Event :=
  [.signupStarts anaPending, .signupStarts anaPending,
   .signupResumes anaPending "$2a$10$hashOne", .signupResumes anaPending "$2a$10$hashTwo"]

/-! ## The catch-all route -/

/-- The test `text.startsWith(start)` on the characters of the two strings. -/
def startsWithChars : List Char → List Char → Bool
  | _, [] => true
  | [], _ :: _ => false
  | c :: cs, d :: ds => c == d && startsWithChars cs ds

/-- Handler of the catch-all route `app.get('*')` for the path of the request: the JSON
answer `routeNotFound` for a path that starts with one of the five API roots, and `none`
for every other path, which is answered with the file `frontend/index.html`, an HTML
page and no JSON body. -/
def catchAllHandler (path : String) : Option Response :=
  if startsWithChars path.toList "/api/".toList || startsWithChars path.toList "/signup".toList ||
      startsWithChars path.toList "/login".toList ||
      startsWithChars path.toList "/modules".toList ||
      startsWithChars path.toList "/health".toList then
    some routeNotFound
  else none

/-! ## Lists updated in place -/

theorem length_updateFirst {α : Type} (p : α → Bool) (f : α → α) (l : List α) :
    (updateFirst p f l).length = l.length := by
  induction l with
  | nil => rfl
  | cons x xs ih =>
    by_cases h : p x <;> simp [updateFirst, h, ih]

theorem mem_updateFirst {α : Type} {p : α → Bool} {f : α → α} {l : List α} {y : α} :
    y ∈ updateFirst p f l → y ∈ l ∨ ∃ x ∈ l, p x = true ∧ y = f x := by
  induction l with
  | nil => intro h; simp [updateFirst] at h
  | cons x xs ih =>
    intro h
    by_cases hp : p x
    · rw [updateFirst, if_pos hp, List.mem_cons] at h
      rcases h with h | h
      · exact Or.inr ⟨x, List.mem_cons_self _ _, hp, h⟩
      · exact Or.inl (List.mem_cons_of_mem _ h)
    · rw [updateFirst, if_neg hp, List.mem_cons] at h
      rcases h with rfl | h
      · exact Or.inl (List.mem_cons_self _ _)
      · rcases ih h with h1 | ⟨z, hz, hpz, hy⟩
        · exact Or.inl (List.mem_cons_of_mem _ h1)
        · exact Or.inr ⟨z, List.mem_cons_of_mem _ hz, hpz, hy⟩

theorem map_updateFirst {α β : Type} (p : α → Bool) (f : α → α) (g : α → β)
    (hg : ∀ x, g (f x) = g x) (l : List α) :
    (updateFirst p f l).map g = l.map g := by
  induction l with
  | nil => rfl
  | cons x xs ih =>
    by_cases h : p x <;> simp [updateFirst, h, ih, hg]

theorem find?_updateFirst_same {α : Type} (p : α → Bool) (f : α → α)
    (hf : ∀ x, p (f x) = p x) (l : List α) :
    (updateFirst p f l).find? p = (l.find? p).map f := by
  induction l with
  | nil => rfl
  | cons x xs ih =>
    by_cases h : p x
    · simp [updateFirst, h, hf, List.find?_cons]
    · simp [updateFirst, h, List.find?_cons, ih]

theorem find?_updateFirst_other {α : Type} (p q : α → Bool) (f : α → α)
    (hf : ∀ x, q (f x) = q x) {l : List α} {u : α} :
    l.find? q = some u →
    ∃ v, (updateFirst p f l).find? q = some v ∧ (v = u ∨ v = f u) := by
  induction l with
  | nil => intro h; simp at h
  | cons x xs ih =>
    intro h
    by_cases hq : q x
    · have hx : x = u := by simpa [List.find?_cons, hq] using h
      subst hx
      by_cases hp : p x
      · exact ⟨f x, by simp [updateFirst, hp, List.find?_cons, hf, hq], Or.inr rfl⟩
      · exact ⟨x, by simp [updateFirst, hp, List.find?_cons, hq], Or.inl rfl⟩
    · have hx : xs.find? q = some u := by simpa [List.find?_cons, hq] using h
      by_cases hp : p x
      · exact ⟨u, by simp [updateFirst, hp, List.find?_cons, hf, hq, hx], Or.inl rfl⟩
      · obtain ⟨v, hv, hvu⟩ := ih hx
        exact ⟨v, by simp [updateFirst, hp, List.find?_cons, hq, hv], hvu⟩

theorem countP_updateFirst_eq {α : Type} (p q : α → Bool) (f : α → α)
    (hq : ∀ x, q (f x) = q x) (l : List α) :
    (updateFirst p f l).countP q = l.countP q := by
  induction l with
  | nil => rfl
  | cons x xs ih =>
    by_cases h : p x <;> simp [updateFirst, h, ih, hq, List.countP_cons]

theorem countP_updateFirst_succ {α : Type} (p q : α → Bool) (f : α → α)
    {l : List α} {u : α} (h0 : q u = false) (h1 : q (f u) = true) :
    l.find? p = some u →
    (updateFirst p f l).countP q = l.countP q + 1 := by
  induction l with
  | nil => intro hfind; simp at hfind
  | cons x xs ih =>
    intro hfind
    by_cases h : p x
    · have hx : x = u := by simpa [List.find?_cons, h] using hfind
      subst hx
      simp [updateFirst, h, List.countP_cons, h0, h1]
    · have hx : xs.find? p = some u := by simpa [List.find?_cons, h] using hfind
      rw [show updateFirst p f (x :: xs) = x :: updateFirst p f xs by simp [updateFirst, h],
        List.countP_cons, List.countP_cons, ih hx]
      omega

theorem updateFirst_eq_map {α κ : Type} [DecidableEq κ] (key : α → κ) (k : κ) (f : α → α)
    (l : List α) (hl : (l.map key).Nodup) :
    updateFirst (fun x => decide (key x = k)) f l
      = l.map (fun x => if key x = k then f x else x) := by
  induction l with
  | nil => rfl
  | cons x xs ih =>
    have hx : key x ∉ xs.map key := (List.nodup_cons.mp hl).1
    have hxs : (xs.map key).Nodup := (List.nodup_cons.mp hl).2
    by_cases h : key x = k
    · have hrest : xs.map (fun y => if key y = k then f y else y) = xs := by
        conv_rhs => rw [← List.map_id xs]
        apply List.map_congr_left
        intro y hy
        have : key y ≠ k := by
          intro hyk
          exact hx (List.mem_map.mpr ⟨y, hy, by rw [hyk, h]⟩)
        simp [this]
      simp [updateFirst, h, hrest]
    · simp [updateFirst, h, ih hxs]

theorem eq_of_find?_of_nodup {α κ : Type} [DecidableEq κ] (key : α → κ) (k : κ)
    {l : List α} (hl : (l.map key).Nodup) {u x : α}
    (hfind : l.find? (fun y => decide (key y = k)) = some u) (hx : x ∈ l) (hk : key x = k) :
    x = u := by
  have hu : u ∈ l := List.mem_of_find?_eq_some hfind
  have huk : key u = k := by simpa using List.find?_some hfind
  exact List.inj_on_of_nodup_map hl hx hu (by rw [hk, huk])

/-! ## Objects used as maps -/

theorem JsObj.get_set_same (o : JsObj) (key : String) (v : Nat) :
    JsObj.get (JsObj.set o key v) key = some v := by
  induction o with
  | nil => simp [JsObj.set, JsObj.get]
  | cons kv rest ih =>
    obtain ⟨k, w⟩ := kv
    by_cases h : k = key
    · simp [JsObj.set, JsObj.get, h]
    · simp [JsObj.set, JsObj.get, h, ih]

theorem JsObj.mem_set {o : JsObj} {key : String} {v : Nat} {kv : String × Nat} :
    kv ∈ JsObj.set o key v → kv = (key, v) ∨ kv ∈ o := by
  induction o with
  | nil => intro h; simpa [JsObj.set] using h
  | cons e rest ih =>
    obtain ⟨k, w⟩ := e
    intro h
    by_cases hk : k = key
    · rw [JsObj.set, if_pos hk, List.mem_cons] at h
      rcases h with h | h
      · exact Or.inl (by rw [h, hk])
      · exact Or.inr (List.mem_cons_of_mem _ h)
    · rw [JsObj.set, if_neg hk, List.mem_cons] at h
      rcases h with h | h
      · exact Or.inr (h ▸ List.mem_cons_self _ _)
      · rcases ih h with h1 | h1
        · exact Or.inl h1
        · exact Or.inr (List.mem_cons_of_mem _ h1)

theorem JsObj.mem_of_get {o : JsObj} {key : String} {v : Nat} :
    JsObj.get o key = some v → (key, v) ∈ o := by
  induction o with
  | nil => intro h; simp [JsObj.get] at h
  | cons e rest ih =>
    obtain ⟨k, w⟩ := e
    intro h
    by_cases hk : k = key
    · rw [JsObj.get, if_pos hk] at h
      simp only [Option.some.injEq] at h
      rw [hk, h]; exact List.mem_cons_self _ _
    · rw [JsObj.get, if_neg hk] at h
      exact List.mem_cons_of_mem _ (ih h)

/-! ## Module ids and `parseInt` -/

theorem mem_catalogIds {k : Int} :
    k ∈ catalogIds ↔ k = 1 ∨ k = 2 ∨ k = 3 ∨ k = 4 ∨ k = 5 ∨ k = 6 ∨ k = 7 ∨ k = 8 ∨ k = 9 := by
  simp [catalogIds, seedModules]

theorem catalogIds_nodup : catalogIds.Nodup := by
  simp [catalogIds, seedModules]

theorem parseIntChars_numberToString {k : Int} (hk : k ∈ catalogIds) :
    parseIntChars (numberToString k).toList = some k := by
  rcases mem_catalogIds.mp hk with h | h | h | h | h | h | h | h | h <;> subst h <;> decide

theorem isTruthy_of_parseInt {v : JsVal} {k : Int} (h : parseInt v = some k) (hk : k ≠ 0) :
    isTruthy v = true := by
  cases v with
  | undefined =>
    have h0 : parseInt .undefined = none := by decide
    rw [h0] at h; cases h
  | null =>
    have h0 : parseInt .null = none := by decide
    rw [h0] at h; cases h
  | bool b =>
    have h0 : parseInt (.bool b) = none := by cases b <;> decide
    rw [h0] at h; cases h
  | num n =>
    by_cases hn : n = 0
    · subst hn
      have h0 : parseInt (.num 0) = some 0 := by decide
      rw [h0] at h
      exact absurd (Option.some.inj h).symm hk
    · simp [isTruthy, hn]
  | numText t => rfl
  | str s =>
    by_cases hs : s = ""
    · subst hs
      have h0 : parseInt (.str "") = none := by decide
      rw [h0] at h; cases h
    · simp [isTruthy, hs]
/-! ## The handlers case by case -/

/-- The store after a successful enrollment of user `userId` in module `k`. -/
theorem enrollHandler_ok {s : Store} {userId : Nat} {moduleId : JsVal} {k : Int}
    {mdl : Module} {user : User} (ht : isTruthy moduleId = true)
    (hk : parseInt moduleId = some k) (hm : findModule s k = some mdl)
    (hu : findUser s userId = some user) (hne : k ∉ user.enrolledModules) :
    enrollHandler s userId moduleId =
      ({ status := 200,
         body := .enrolled "Successfully enrolled in module"
           { mdl with enrolled := mdl.enrolled + 1 } (user.enrolledModules ++ [k]) },
       { users := updateFirst (fun u => decide (u.id = userId))
           (fun u => { u with enrolledModules := u.enrolledModules ++ [k] }) s.users,
         modules := updateFirst (fun m => decide (m.id = k))
           (fun m => { m with enrolled := m.enrolled + 1 }) s.modules }) := by
  simp [enrollHandler, ht, hk, hm, hu, hne]

theorem enrollHandler_cases (s : Store) (userId : Nat) (moduleId : JsVal) :
    ((enrollHandler s userId moduleId).2 = s ∧ (enrollHandler s userId moduleId).1.status ≠ 200) ∨
    ∃ k mdl user, isTruthy moduleId = true ∧ parseInt moduleId = some k ∧
      findModule s k = some mdl ∧ findUser s userId = some user ∧
      k ∉ user.enrolledModules := by
  by_cases ht : isTruthy moduleId = true
  · cases hk : parseInt moduleId with
    | none => left; simp [enrollHandler, ht, hk, failWith]
    | some k =>
      cases hm : findModule s k with
      | none => left; simp [enrollHandler, ht, hk, hm, failWith]
      | some mdl =>
        cases hu : findUser s userId with
        | none => left; simp [enrollHandler, ht, hk, hm, hu, failWith]
        | some user =>
          by_cases hne : k ∈ user.enrolledModules
          · left; simp [enrollHandler, ht, hk, hm, hu, hne, failWith]
          · right; exact ⟨k, mdl, user, ht, rfl, hm, rfl, hne⟩
  · left; simp [enrollHandler, ht, failWith]

/-- The store after a successful completion of module `k` by user `userId`. -/
theorem completeHandler_ok {s : Store} {userId : Nat} {moduleId : JsVal} {k : Int}
    {mdl : Module} {user : User} (ht : isTruthy moduleId = true)
    (hk : parseInt moduleId = some k) (hm : findModule s k = some mdl)
    (hu : findUser s userId = some user) (he : k ∈ user.enrolledModules)
    (hc : k ∉ user.completedModules.getD []) :
    completeHandler s userId moduleId =
      ({ status := 200,
         body := .completed "Module marked as completed" mdl
           ((markCompleted k moduleId user).completedModules.getD [])
           ((markCompleted k moduleId user).moduleProgress.getD []) },
       { s with
         users := updateFirst (fun u => decide (u.id = userId))
           (markCompleted k moduleId) s.users }) := by
  simp [completeHandler, ht, hk, hm, hu, he, hc]

theorem completeHandler_cases (s : Store) (userId : Nat) (moduleId : JsVal) :
    ((completeHandler s userId moduleId).2 = s ∧
      (completeHandler s userId moduleId).1.status ≠ 200) ∨
    ∃ k mdl user, isTruthy moduleId = true ∧ parseInt moduleId = some k ∧
      findModule s k = some mdl ∧ findUser s userId = some user ∧
      k ∈ user.enrolledModules ∧ k ∉ user.completedModules.getD [] := by
  by_cases ht : isTruthy moduleId = true
  · cases hk : parseInt moduleId with
    | none => left; simp [completeHandler, ht, hk, failWith]
    | some k =>
      cases hm : findModule s k with
      | none => left; simp [completeHandler, ht, hk, hm, failWith]
      | some mdl =>
        cases hu : findUser s userId with
        | none => left; simp [completeHandler, ht, hk, hm, hu, failWith]
        | some user =>
          by_cases he : k ∈ user.enrolledModules
          · by_cases hc : k ∈ user.completedModules.getD []
            · left; simp [completeHandler, ht, hk, hm, hu, he, hc, failWith]
            · right; exact ⟨k, mdl, user, ht, rfl, hm, rfl, he, hc⟩
          · left; simp [completeHandler, ht, hk, hm, hu, he, failWith]
  · left; simp [completeHandler, ht, failWith]

theorem signupHandler_cases (s : Store) (name email age password : JsVal) (hashed : String) :
    (signupHandler s name email age password hashed).2 = s ∨
    (signupHandler s name email age password hashed).2 =
      { s with users := s.users ++
          [{ id := s.users.length + 1, name := name, email := email, age := age,
             password := hashed, enrolledModules := [], completedModules := none,
             moduleProgress := none }] } := by
  unfold signupHandler
  split
  · exact Or.inl rfl
  · split
    · exact Or.inl rfl
    · split
      · exact Or.inl rfl
      · split
        · exact Or.inl rfl
        · split
          · exact Or.inr rfl
          · exact Or.inl rfl
/-! ## The invariant -/

theorem Inv.users_nodup {s : Store} (hs : Inv s) : (s.users.map (fun u => u.id)).Nodup := by
  rw [hs.userIds]; exact List.nodup_range' _ _

theorem Inv.modules_nodup {s : Store} (hs : Inv s) : (s.modules.map (fun m => m.id)).Nodup := by
  rw [hs.moduleIds]; exact catalogIds_nodup

theorem Inv.id_mem_of_findModule {s : Store} (hs : Inv s) {k : Int} {mdl : Module}
    (hm : findModule s k = some mdl) : k ∈ catalogIds := by
  have h1 : mdl ∈ s.modules := List.mem_of_find?_eq_some hm
  have h2 : mdl.id = k := by simpa using List.find?_some hm
  rw [← hs.moduleIds, ← h2]
  exact List.mem_map.mpr ⟨mdl, h1, rfl⟩

theorem Inv.findModule_of_mem {s : Store} (hs : Inv s) {k : Int} (hk : k ∈ catalogIds) :
    ∃ mdl, findModule s k = some mdl := by
  rw [← hs.moduleIds] at hk
  obtain ⟨m, hm, hmk⟩ := List.mem_map.mp hk
  cases h : findModule s k with
  | some mdl => exact ⟨mdl, rfl⟩
  | none =>
    have := List.find?_eq_none.mp h m hm
    simp [hmk] at this

theorem mem_of_findUser {s : Store} {userId : Nat} {user : User}
    (hu : findUser s userId = some user) : user ∈ s.users ∧ user.id = userId :=
  ⟨List.mem_of_find?_eq_some hu, by simpa using List.find?_some hu⟩

/-- After the record found for `userId` has been changed by `f`, every record is either
an untouched record of another user or the changed record. -/
theorem Inv.mem_users_update {s : Store} (hs : Inv s) {userId : Nat} {user : User}
    (hu : findUser s userId = some user) (f : User → User) {v : User}
    (h : v ∈ updateFirst (fun u => decide (u.id = userId)) f s.users) :
    (v ∈ s.users ∧ v.id ≠ userId) ∨ v = f user := by
  rw [updateFirst_eq_map (fun u : User => u.id) userId f s.users hs.users_nodup] at h
  obtain ⟨x, hx, hxv⟩ := List.mem_map.mp h
  by_cases hid : x.id = userId
  · right
    have : x = user := eq_of_find?_of_nodup (fun u : User => u.id) userId hs.users_nodup hu hx hid
    rw [← hxv, if_pos hid, this]
  · left
    rw [if_neg hid] at hxv
    rw [← hxv]; exact ⟨hx, hid⟩

theorem inv_init : Inv initStore where
  moduleIds := rfl
  userIds := rfl
  enrolledValid := by intro u hu; simp [initStore] at hu
  enrolledNodup := by intro u hu; simp [initStore] at hu
  completedNodup := by intro u hu; simp [initStore] at hu
  completedSub := by intro u hu; simp [initStore] at hu
  progressKeys := by intro u hu; simp [initStore] at hu
  counters := by
    intro m hm
    simp [initStore, seedModules] at hm
    rcases hm with h | h | h | h | h | h | h | h | h <;> subst h <;> rfl

theorem inv_signup {s : Store} (hs : Inv s) (name email age password : JsVal)
    (hashed : String) : Inv (signupHandler s name email age password hashed).2 := by
  rcases signupHandler_cases s name email age password hashed with h | h
  · rw [h]; exact hs
  · rw [h]
    refine ⟨hs.moduleIds, ?_, ?_, ?_, ?_, ?_, ?_, ?_⟩
    · simp only [List.map_append, List.map_cons, List.map_nil, List.length_append,
        List.length_singleton, hs.userIds]
      rw [List.range'_concat]; simp [Nat.add_comm]
    · intro u hu k hk
      rcases List.mem_append.mp hu with h1 | h1
      · exact hs.enrolledValid u h1 k hk
      · simp at h1; subst h1; simp at hk
    · intro u hu
      rcases List.mem_append.mp hu with h1 | h1
      · exact hs.enrolledNodup u h1
      · simp at h1; subst h1; simp
    · intro u hu
      rcases List.mem_append.mp hu with h1 | h1
      · exact hs.completedNodup u h1
      · simp at h1; subst h1; simp
    · intro u hu k hk
      rcases List.mem_append.mp hu with h1 | h1
      · exact hs.completedSub u h1 k hk
      · simp at h1; subst h1; simp at hk
    · intro u hu kv hkv
      rcases List.mem_append.mp hu with h1 | h1
      · exact hs.progressKeys u h1 kv hkv
      · simp at h1; subst h1; simp at hkv
    · intro m hm
      simp only [List.countP_append]
      rw [hs.counters m hm]
      simp [List.countP_cons]
theorem inv_enroll {s : Store} (hs : Inv s) (userId : Nat) (moduleId : JsVal) :
    Inv (enrollHandler s userId moduleId).2 := by
  rcases enrollHandler_cases s userId moduleId with h | ⟨k, mdl, user, ht, hk, hm, hu, hne⟩
  · rw [h.1]; exact hs
  · rw [enrollHandler_ok ht hk hm hu hne]
    have hkc : k ∈ catalogIds := hs.id_mem_of_findModule hm
    have hmem := mem_of_findUser hu
    refine ⟨?_, ?_, ?_, ?_, ?_, ?_, ?_, ?_⟩
    · show (updateFirst _ _ s.modules).map _ = _
      refine (map_updateFirst _ _ _ ?_ _).trans hs.moduleIds
      intro _; rfl
    · show (updateFirst _ _ s.users).map _ = List.range' 1 (updateFirst _ _ s.users).length
      rw [length_updateFirst]
      refine (map_updateFirst _ _ _ ?_ _).trans hs.userIds
      intro _; rfl
    · intro v hv j hj
      rcases hs.mem_users_update hu _ hv with ⟨h1, _⟩ | h1
      · exact hs.enrolledValid v h1 j hj
      · subst h1
        rcases List.mem_append.mp hj with h2 | h2
        · exact hs.enrolledValid user hmem.1 j h2
        · simp at h2; subst h2; exact hkc
    · intro v hv
      rcases hs.mem_users_update hu _ hv with ⟨h1, _⟩ | h1
      · exact hs.enrolledNodup v h1
      · subst h1
        show (user.enrolledModules ++ [k]).Nodup
        rw [List.nodup_append]
        refine ⟨hs.enrolledNodup user hmem.1, List.nodup_singleton k, ?_⟩
        intro a ha hb
        simp at hb; subst hb; exact hne ha
    · intro v hv
      rcases hs.mem_users_update hu _ hv with ⟨h1, _⟩ | h1
      · exact hs.completedNodup v h1
      · subst h1; exact hs.completedNodup user hmem.1
    · intro v hv j hj
      rcases hs.mem_users_update hu _ hv with ⟨h1, _⟩ | h1
      · exact hs.completedSub v h1 j hj
      · subst h1
        exact List.mem_append_left _ (hs.completedSub user hmem.1 j hj)
    · intro v hv kv hkv
      rcases hs.mem_users_update hu _ hv with ⟨h1, _⟩ | h1
      · exact hs.progressKeys v h1 kv hkv
      · subst h1; exact hs.progressKeys user hmem.1 kv hkv
    · intro m hm'
      show m.enrolled = (updateFirst _ _ s.users).countP _
      have hm2 : m ∈ updateFirst (fun m => decide (m.id = k))
          (fun m => { m with enrolled := m.enrolled + 1 }) s.modules := hm'
      rw [updateFirst_eq_map (fun m : Module => m.id) k _ s.modules hs.modules_nodup] at hm2
      obtain ⟨x, hx, hxm⟩ := List.mem_map.mp hm2
      by_cases hid : x.id = k
      · rw [if_pos hid] at hxm
        subst hxm
        show x.enrolled + 1 = _
        rw [hid, countP_updateFirst_succ _ (fun u => decide (k ∈ u.enrolledModules)) _
          (by simpa using hne) (by simp) hu, hs.counters x hx, hid]
      · rw [if_neg hid] at hxm
        subst hxm
        rw [countP_updateFirst_eq _ _ _ (fun u => by simp [hid]), hs.counters x hx]

theorem inv_complete {s : Store} (hs : Inv s) (userId : Nat) (moduleId : JsVal) :
    Inv (completeHandler s userId moduleId).2 := by
  rcases completeHandler_cases s userId moduleId with
    h | ⟨k, mdl, user, ht, hk, hm, hu, he, hc⟩
  · rw [h.1]; exact hs
  · rw [completeHandler_ok ht hk hm hu he hc]
    have hmem := mem_of_findUser hu
    refine ⟨hs.moduleIds, ?_, ?_, ?_, ?_, ?_, ?_, ?_⟩
    · show (updateFirst _ _ s.users).map _ = List.range' 1 (updateFirst _ _ s.users).length
      rw [length_updateFirst]
      refine (map_updateFirst _ _ _ ?_ _).trans hs.userIds
      intro _; rfl
    · intro v hv j hj
      rcases hs.mem_users_update hu _ hv with ⟨h1, _⟩ | h1
      · exact hs.enrolledValid v h1 j hj
      · subst h1; exact hs.enrolledValid user hmem.1 j hj
    · intro v hv
      rcases hs.mem_users_update hu _ hv with ⟨h1, _⟩ | h1
      · exact hs.enrolledNodup v h1
      · subst h1; exact hs.enrolledNodup user hmem.1
    · intro v hv
      rcases hs.mem_users_update hu _ hv with ⟨h1, _⟩ | h1
      · exact hs.completedNodup v h1
      · subst h1
        show (user.completedModules.getD [] ++ [k]).Nodup
        rw [List.nodup_append]
        refine ⟨hs.completedNodup user hmem.1, List.nodup_singleton k, ?_⟩
        intro a ha hb
        simp at hb; subst hb; exact hc ha
    · intro v hv j hj
      rcases hs.mem_users_update hu _ hv with ⟨h1, _⟩ | h1
      · exact hs.completedSub v h1 j hj
      · subst h1
        have hj2 : j ∈ user.completedModules.getD [] ++ [k] := hj
        rcases List.mem_append.mp hj2 with h2 | h2
        · exact hs.completedSub user hmem.1 j h2
        · simp at h2; subst h2; exact he
    · intro v hv kv hkv
      rcases hs.mem_users_update hu _ hv with ⟨h1, _⟩ | h1
      · exact hs.progressKeys v h1 kv hkv
      · subst h1
        have hkv2 : kv ∈ JsObj.set (user.moduleProgress.getD []) (jsToString moduleId) 100 := hkv
        show kv.2 = 100 ∧ ∃ j, parseIntChars kv.1.toList = some j ∧
          j ∈ user.completedModules.getD [] ++ [k]
        rcases JsObj.mem_set hkv2 with h2 | h2
        · subst h2
          exact ⟨rfl, k, hk, List.mem_append_right _ (List.mem_singleton_self k)⟩
        · obtain ⟨h3, j, hj, hjc⟩ := hs.progressKeys user hmem.1 kv h2
          exact ⟨h3, j, hj, List.mem_append_left _ hjc⟩
    · intro m hm'
      show m.enrolled = (updateFirst _ _ s.users).countP _
      refine (hs.counters m hm').trans (countP_updateFirst_eq _ _ _ ?_ _).symm
      intro _; rfl

theorem inv_step {s : Store} (hs : Inv s) (r : Request) : Inv (step s r).2 := by
  cases r with
  | signup name email age password hashed => exact inv_signup hs name email age password hashed
  | login email password verifies => exact hs
  | getModules userId => exact hs
  | enroll userId moduleId => exact inv_enroll hs userId moduleId
  | complete userId moduleId => exact inv_complete hs userId moduleId

theorem inv_run {s : Store} (hs : Inv s) (rs : List Request) : Inv (run s rs) := by
  induction rs generalizing s with
  | nil => exact hs
  | cons r rs ih => exact ih (inv_step hs r)

theorem inv_of_reachable {s : Store} (h : Reachable s) : Inv s := by
  obtain ⟨rs, hrs⟩ := h
  rw [← hrs]; exact inv_run inv_init rs
theorem Inv.ne_zero_of_findModule {s : Store} (hs : Inv s) {k : Int} {mdl : Module}
    (hm : findModule s k = some mdl) : k ≠ 0 := by
  have h := mem_catalogIds.mp (hs.id_mem_of_findModule hm)
  omega

theorem findUser_update {s : Store} {userId : Nat} {user : User} (f : User → User)
    (hf : ∀ u, (f u).id = u.id) (hu : findUser s userId = some user) :
    (updateFirst (fun u => decide (u.id = userId)) f s.users).find?
      (fun u => decide (u.id = userId)) = some (f user) := by
  rw [find?_updateFirst_same _ _ (fun u => by simp [hf u])]
  unfold findUser at hu
  rw [hu]; rfl

/-! ## Enrollment -/

/-- C1: in a reachable store, when user `userId` exists, the request's `moduleId` parses
to the id `k` of an existing module and `k` is not in the user's enrolled list, the
enrollment succeeds: the response (status 200) carries the module with its counter raised
by one and the enrolled list with `k` appended, and in the next store the user's enrolled
list is the old one with `k` appended (so it contains `k`) and the module's counter is
its previous value plus one. -/
theorem enroll_success (s : Store) (hs : Reachable s) (userId : Nat) (moduleId : JsVal)
    (k : Int) (user : User) (mdl : Module)
    (hu : findUser s userId = some user) (hk : parseInt moduleId = some k)
    (hm : findModule s k = some mdl) (hne : k ∉ user.enrolledModules) :
    (enrollHandler s userId moduleId).1 =
        { status := 200,
          body := .enrolled "Successfully enrolled in module"
            { mdl with enrolled := mdl.enrolled + 1 } (user.enrolledModules ++ [k]) } ∧
      findUser (enrollHandler s userId moduleId).2 userId =
        some { user with enrolledModules := user.enrolledModules ++ [k] } ∧
      k ∈ user.enrolledModules ++ [k] ∧
      findModule (enrollHandler s userId moduleId).2 k =
        some { mdl with enrolled := mdl.enrolled + 1 } := by
  have hinv := inv_of_reachable hs
  have ht := isTruthy_of_parseInt hk (hinv.ne_zero_of_findModule hm)
  rw [enrollHandler_ok ht hk hm hu hne]
  refine ⟨rfl, ?_, by simp, ?_⟩
  · exact findUser_update _ (fun _ => rfl) hu
  · show (updateFirst _ _ s.modules).find? _ = _
    rw [find?_updateFirst_same _ _ (fun m => by simp)]
    unfold findModule at hm
    rw [hm]; rfl

/-- Ana, registered and not enrolled anywhere, enrolls in module 1. -/
theorem enroll_success_witness :
    (enrollHandler storeRegistered 1 (.num 1)).1 =
        { status := 200,
          body := .enrolled "Successfully enrolled in module"
            module1Enrolled [1] } ∧
      findUser (enrollHandler storeRegistered 1 (.num 1)).2 1 =
        some anaEnrolled ∧
      (1 : Int) ∈ [1] ∧
      findModule (enrollHandler storeRegistered 1 (.num 1)).2 1 =
        some module1Enrolled :=
  enroll_success storeRegistered ⟨[anaSignup], rfl⟩ 1 (.num 1) 1 anaUser module1
    (by decide) (by decide) (by decide) (by decide)

/-- C2: in a reachable store, when user `userId` exists and the request's `moduleId`
parses to an id `k` that is already in the user's enrolled list, the enrollment is
answered with status 400 and the error `Already enrolled in this module`, and the store
is unchanged (no second copy of `k`, no counter raised). -/
theorem enroll_duplicate_rejected (s : Store) (hs : Reachable s) (userId : Nat)
    (moduleId : JsVal) (k : Int) (user : User)
    (hu : findUser s userId = some user) (hk : parseInt moduleId = some k)
    (he : k ∈ user.enrolledModules) :
    enrollHandler s userId moduleId = (failWith 400 "Already enrolled in this module", s) := by
  have hinv := inv_of_reachable hs
  have hkc : k ∈ catalogIds := hinv.enrolledValid user (mem_of_findUser hu).1 k he
  obtain ⟨mdl, hm⟩ := hinv.findModule_of_mem hkc
  have ht := isTruthy_of_parseInt hk (hinv.ne_zero_of_findModule hm)
  simp [enrollHandler, ht, hk, hm, hu, he]

/-- Ana, enrolled in module 1, asks to enroll in it again with the body `moduleId: "1"`. -/
theorem enroll_duplicate_rejected_witness :
    enrollHandler storeEnrolled 1 (.str "1") =
      (failWith 400 "Already enrolled in this module", storeEnrolled) :=
  enroll_duplicate_rejected storeEnrolled ⟨[anaSignup, .enroll 1 (.num 1)], rfl⟩ 1 (.str "1") 1
    anaEnrolled (by decide) (by decide) (by decide)

/-! ## Completion -/

/-- C3: in a reachable store, when user `userId` exists and the request's `moduleId`
parses to the id `k` of an existing module that is not in the user's enrolled list, the
completion is answered with status 400 and the error `You must be enrolled in this
module to complete it`, and the store (completed lists, progress maps, module records)
is unchanged. -/
theorem complete_not_enrolled_rejected (s : Store) (hs : Reachable s) (userId : Nat)
    (moduleId : JsVal) (k : Int) (user : User) (mdl : Module)
    (hu : findUser s userId = some user) (hk : parseInt moduleId = some k)
    (hm : findModule s k = some mdl) (hne : k ∉ user.enrolledModules) :
    completeHandler s userId moduleId =
      (failWith 400 "You must be enrolled in this module to complete it", s) := by
  have hinv := inv_of_reachable hs
  have ht := isTruthy_of_parseInt hk (hinv.ne_zero_of_findModule hm)
  simp [completeHandler, ht, hk, hm, hu, hne]

/-- Ana, registered and not enrolled anywhere, asks to complete module 1. -/
theorem complete_not_enrolled_rejected_witness :
    completeHandler storeRegistered 1 (.num 1) =
      (failWith 400 "You must be enrolled in this module to complete it", storeRegistered) :=
  complete_not_enrolled_rejected storeRegistered ⟨[anaSignup], rfl⟩ 1 (.num 1) 1 anaUser module1
    (by decide) (by decide) (by decide) (by decide)

/-- C5: in a reachable store, when user `userId` exists and the request's `moduleId`
parses to an id `k` that is already in the user's completed list, the completion is
answered with status 400 and the error `Module already completed`, and the store is
unchanged (no second copy of `k` in the completed list). -/
theorem complete_duplicate_rejected (s : Store) (hs : Reachable s) (userId : Nat)
    (moduleId : JsVal) (k : Int) (user : User)
    (hu : findUser s userId = some user) (hk : parseInt moduleId = some k)
    (hc : k ∈ user.completedModules.getD []) :
    completeHandler s userId moduleId = (failWith 400 "Module already completed", s) := by
  have hinv := inv_of_reachable hs
  have hmem := (mem_of_findUser hu).1
  have he : k ∈ user.enrolledModules := hinv.completedSub user hmem k hc
  have hkc : k ∈ catalogIds := hinv.enrolledValid user hmem k he
  obtain ⟨mdl, hm⟩ := hinv.findModule_of_mem hkc
  have ht := isTruthy_of_parseInt hk (hinv.ne_zero_of_findModule hm)
  simp [completeHandler, ht, hk, hm, hu, he, hc]

/-- Ana, who completed module 1, asks to complete it again. -/
theorem complete_duplicate_rejected_witness :
    completeHandler storeCompleted 1 (.num 1) =
      (failWith 400 "Module already completed", storeCompleted) :=
  complete_duplicate_rejected storeCompleted
    ⟨[anaSignup, .enroll 1 (.num 1), .complete 1 (.num 1)], rfl⟩ 1 (.num 1) 1
    anaCompleted (by decide) (by decide) (by decide)
/-- C4 (failing input): Ana is enrolled in module 1 and completes it with the body
`moduleId: "1abc"`, which `parseInt` reads as 1.  The completion succeeds and module 1
enters her completed list, but the progress value 100 is stored under the property
`1abc`: the progress map has nothing at key `1`, neither in the response nor in the
stored record. -/
theorem complete_raw_key_misses_progress :
    parseInt (.str "1abc") = some 1 ∧
    (completeHandler storeEnrolled 1 (.str "1abc")).1 =
      { status := 200,
        body := .completed "Module marked as completed" module1Enrolled
          [1] [("1abc", 100)] } ∧
    (completeHandler storeEnrolled 1 (.str "1abc")).1.progressAt (numberToString 1) = none ∧
    findUser (completeHandler storeEnrolled 1 (.str "1abc")).2 1 =
      some anaCompletedRaw := by
  decide

/-- C6: in every reachable store, every id in a user's completed list is in that
user's enrolled list. -/
theorem completed_subset_enrolled (s : Store) (hs : Reachable s) (u : User)
    (hu : u ∈ s.users) (k : Int) (hk : k ∈ u.completedModules.getD []) :
    k ∈ u.enrolledModules :=
  (inv_of_reachable hs).completedSub u hu k hk

/-- Ana's record after she completed module 1: the completed id 1 is enrolled. -/
theorem completed_subset_enrolled_witness :
    (1 : Int) ∈ anaCompleted.enrolledModules :=
  completed_subset_enrolled storeCompleted
    ⟨[anaSignup, .enroll 1 (.num 1), .complete 1 (.num 1)], rfl⟩
    anaCompleted (by decide) 1 (by decide)

/-- C7 (failing input): the store reached by Ana registering, enrolling in module 1 and
completing it with the body `moduleId: "1abc"` is reachable and has 1 in her completed
list, yet her stored progress map has no value at key `1` and `GET /modules` reports
progress 0 for module 1. -/
theorem completed_without_progress_reachable :
    Reachable storeCompletedRaw ∧
    findUser storeCompletedRaw 1 =
      some anaCompletedRaw ∧
    (1 : Int) ∈ anaCompletedRaw.completedModules.getD [] ∧
    (anaCompletedRaw.moduleProgress.getD []).get (numberToString 1) = none ∧
    (getModulesHandler storeCompletedRaw 1).completedModules = some [1] ∧
    (getModulesHandler storeCompletedRaw 1).progressAt (numberToString 1) = some 0 :=
  ⟨⟨[anaSignup, .enroll 1 (.num 1), .complete 1 (.str "1abc")], rfl⟩,
    by decide, by decide, by decide, by decide, by decide⟩
/-! ## The enrolled counter -/

theorem find?_updateFirst_disjoint {α : Type} (p q : α → Bool) (f : α → α)
    (hpq : ∀ x, p x = true → q x = false) (hf : ∀ x, q (f x) = q x) (l : List α) :
    (updateFirst p f l).find? q = l.find? q := by
  induction l with
  | nil => rfl
  | cons x xs ih =>
    by_cases hp : p x
    · simp [updateFirst, hp, List.find?_cons, hf, hpq x hp]
    · simp [updateFirst, hp, List.find?_cons, ih]

/-- One request raises the counter of module `k` by one when it is a successful
enrollment in `k`, and leaves it alone otherwise. -/
theorem counter_step (s : Store) (r : Request) {k : Int} {m : Module}
    (hm : findModule s k = some m) :
    ∃ m1, findModule (step s r).2 k = some m1 ∧
      m1.enrolled = m.enrolled + successfulEnrolls k s [r] := by
  cases r with
  | signup name email age password hashed =>
    refine ⟨m, ?_, by simp [successfulEnrolls]⟩
    rcases signupHandler_cases s name email age password hashed with h | h
    · simp only [step]; rw [h]; exact hm
    · simp only [step]; rw [h]; exact hm
  | login email password verifies => exact ⟨m, hm, by simp [successfulEnrolls]⟩
  | getModules userId => exact ⟨m, hm, by simp [successfulEnrolls]⟩
  | complete userId moduleId =>
    refine ⟨m, ?_, by simp [successfulEnrolls]⟩
    rcases completeHandler_cases s userId moduleId with
      h | ⟨j, mdl, user, ht, hj, hmj, hu, he, hc⟩
    · simp only [step]; rw [h.1]; exact hm
    · simp only [step]; rw [completeHandler_ok ht hj hmj hu he hc]; exact hm
  | enroll userId moduleId =>
    rcases enrollHandler_cases s userId moduleId with
      h | ⟨j, mdl, user, ht, hj, hmj, hu, hne⟩
    · refine ⟨m, ?_, ?_⟩
      · simp only [step]; rw [h.1]; exact hm
      · simp [successfulEnrolls, step, h.2]
    · by_cases hjk : j = k
      · subst hjk
        refine ⟨{ m with enrolled := m.enrolled + 1 }, ?_, ?_⟩
        · simp only [step]
          rw [enrollHandler_ok ht hj hmj hu hne]
          show (updateFirst _ _ s.modules).find? _ = _
          rw [find?_updateFirst_same _ _ (fun x => by simp)]
          unfold findModule at hm
          rw [hm]; rfl
        · simp [successfulEnrolls, step, enrollHandler_ok ht hj hmj hu hne, hj]
      · refine ⟨m, ?_, ?_⟩
        · simp only [step]
          rw [enrollHandler_ok ht hj hmj hu hne]
          show (updateFirst _ _ s.modules).find? _ = _
          rw [find?_updateFirst_disjoint _ _ _ (fun x hx => by
            simp only [decide_eq_true_eq] at hx
            simp [hx, hjk]) (fun x => by simp)]
          exact hm
        · simp [successfulEnrolls, hj, hjk]

theorem successfulEnrolls_cons (k : Int) (s : Store) (r : Request) (rs : List Request) :
    successfulEnrolls k s (r :: rs) =
      successfulEnrolls k s [r] + successfulEnrolls k (step s r).2 rs := by
  simp [successfulEnrolls]

theorem counter_run (s : Store) (rs : List Request) {k : Int} {m : Module}
    (hm : findModule s k = some m) :
    ∃ m1, findModule (run s rs) k = some m1 ∧
      m1.enrolled = m.enrolled + successfulEnrolls k s rs := by
  induction rs generalizing s m with
  | nil => exact ⟨m, hm, by simp [successfulEnrolls]⟩
  | cons r rs ih =>
    obtain ⟨m1, hm1, h1⟩ := counter_step s r hm
    obtain ⟨m2, hm2, h2⟩ := ih (step s r).2 hm1
    refine ⟨m2, hm2, ?_⟩
    rw [h2, h1, successfulEnrolls_cons k s r rs]; omega

theorem Inv.findModule_of_mem_modules {s : Store} (hs : Inv s) {m : Module}
    (hm : m ∈ s.modules) : findModule s m.id = some m := by
  have hid : m.id ∈ catalogIds := by
    rw [← hs.moduleIds]; exact List.mem_map.mpr ⟨m, hm, rfl⟩
  obtain ⟨m1, hm1⟩ := hs.findModule_of_mem hid
  have : m = m1 :=
    eq_of_find?_of_nodup (fun x : Module => x.id) m.id hs.modules_nodup hm1 hm rfl
  rw [hm1, this]

/-- C8: in every reachable store, user ids are pairwise distinct and each module's
enrolled counter is the number of user records whose enrolled list contains the
module's id; and whenever a sequence of requests leads from the initial store (all
counters 0) to that store, the counter is the number of successful enrollments in that
module in the sequence. -/
theorem enrolled_counter_exact (s : Store) (hs : Reachable s) (m : Module)
    (hm : m ∈ s.modules) :
    (s.users.map (fun u => u.id)).Nodup ∧
      m.enrolled = (s.users.filter (fun u => decide (m.id ∈ u.enrolledModules))).length ∧
      ∀ rs : List Request, run initStore rs = s →
        m.enrolled = successfulEnrolls m.id initStore rs := by
  have hinv := inv_of_reachable hs
  refine ⟨hinv.users_nodup, ?_, ?_⟩
  · rw [hinv.counters m hm, List.countP_eq_length_filter]
  · intro rs hrs
    have hid : m.id ∈ catalogIds := by
      rw [← hinv.moduleIds]; exact List.mem_map.mpr ⟨m, hm, rfl⟩
    obtain ⟨m0, hm0⟩ := inv_init.findModule_of_mem hid
    have h0 : m0.enrolled = 0 := by
      rw [inv_init.counters m0 (List.mem_of_find?_eq_some hm0)]; rfl
    obtain ⟨m1, hm1, h1⟩ := counter_run initStore rs hm0
    rw [hrs, hinv.findModule_of_mem_modules hm] at hm1
    cases hm1
    rw [h1, h0]; omega

/-- Module 1 after Ana's enrollment: one user, one record containing id 1, counter 1. -/
theorem enrolled_counter_exact_witness :
    (storeEnrolled.users.map (fun u => u.id)).Nodup ∧
      module1Enrolled.enrolled =
        (storeEnrolled.users.filter
          (fun u => decide (module1Enrolled.id ∈ u.enrolledModules))).length ∧
      ∀ rs : List Request, run initStore rs = storeEnrolled →
        module1Enrolled.enrolled =
          successfulEnrolls module1Enrolled.id initStore rs :=
  enrolled_counter_exact storeEnrolled ⟨[anaSignup, .enroll 1 (.num 1)], rfl⟩
    module1Enrolled (by decide)
/-! ## Monotonicity of the learning state -/

theorem findUser_step (s : Store) (r : Request) {userId : Nat} {u : User}
    (hu : findUser s userId = some u) :
    ∃ v, findUser (step s r).2 userId = some v ∧
      (v = u ∨
        (∃ k, v = { u with enrolledModules := u.enrolledModules ++ [k] }) ∨
        (∃ k moduleId, v = markCompleted k moduleId u)) := by
  cases r with
  | signup name email age password hashed =>
    refine ⟨u, ?_, Or.inl rfl⟩
    rcases signupHandler_cases s name email age password hashed with h | h
    · simp only [step]; rw [h]; exact hu
    · simp only [step]; rw [h]
      unfold findUser at hu ⊢
      simp [List.find?_append, hu]
  | login email password verifies => exact ⟨u, hu, Or.inl rfl⟩
  | getModules uid => exact ⟨u, hu, Or.inl rfl⟩
  | enroll uid moduleId =>
    rcases enrollHandler_cases s uid moduleId with h | ⟨j, mdl, user, ht, hj, hmj, huj, hne⟩
    · exact ⟨u, by simp only [step]; rw [h.1]; exact hu, Or.inl rfl⟩
    · simp only [step]
      rw [enrollHandler_ok ht hj hmj huj hne]
      obtain ⟨v, hv, hvu⟩ := find?_updateFirst_other (fun x : User => decide (x.id = uid))
        (fun x : User => decide (x.id = userId))
        (fun x => { x with enrolledModules := x.enrolledModules ++ [j] })
        (fun _ => rfl) hu
      refine ⟨v, hv, ?_⟩
      rcases hvu with h1 | h1
      · exact Or.inl h1
      · exact Or.inr (Or.inl ⟨j, h1⟩)
  | complete uid moduleId =>
    rcases completeHandler_cases s uid moduleId with
      h | ⟨j, mdl, user, ht, hj, hmj, huj, he, hc⟩
    · exact ⟨u, by simp only [step]; rw [h.1]; exact hu, Or.inl rfl⟩
    · simp only [step]
      rw [completeHandler_ok ht hj hmj huj he hc]
      obtain ⟨v, hv, hvu⟩ := find?_updateFirst_other (fun x : User => decide (x.id = uid))
        (fun x : User => decide (x.id = userId)) (markCompleted j moduleId)
        (fun _ => rfl) hu
      refine ⟨v, hv, ?_⟩
      rcases hvu with h1 | h1
      · exact Or.inl h1
      · exact Or.inr (Or.inr ⟨j, moduleId, h1⟩)

theorem Inv.findUser_of_mem {s : Store} (hs : Inv s) {u : User} (hu : u ∈ s.users) :
    findUser s u.id = some u := by
  cases h : findUser s u.id with
  | none =>
    have := List.find?_eq_none.mp h u hu
    simp at this
  | some v =>
    have : u = v :=
      eq_of_find?_of_nodup (fun x : User => x.id) u.id hs.users_nodup h hu rfl
    rw [this]

/-- C9: for every reachable store, every request and every stored user, the next store
still holds a record of that user (same id), and every module id that was in the user's
enrolled list is still in it, and every module id that was in the user's completed list
is still in it. -/
theorem membership_never_lost (s : Store) (hs : Reachable s) (r : Request) (u : User)
    (hu : u ∈ s.users) :
    ∃ v, findUser (step s r).2 u.id = some v ∧
      (∀ k, k ∈ u.enrolledModules → k ∈ v.enrolledModules) ∧
      (∀ k, k ∈ u.completedModules.getD [] → k ∈ v.completedModules.getD []) := by
  obtain ⟨v, hv, hvu⟩ := findUser_step s r ((inv_of_reachable hs).findUser_of_mem hu)
  refine ⟨v, hv, ?_⟩
  rcases hvu with h | ⟨k, h⟩ | ⟨k, moduleId, h⟩
  · subst h; exact ⟨fun _ h => h, fun _ h => h⟩
  · subst h; exact ⟨fun _ h => List.mem_append_left _ h, fun _ h => h⟩
  · subst h
    refine ⟨fun _ h => h, fun j h => ?_⟩
    show j ∈ u.completedModules.getD [] ++ [k]
    exact List.mem_append_left _ h

/-- Ana, who completed module 1, enrolls in module 2: module 1 stays enrolled and completed. -/
theorem membership_never_lost_witness :
    ∃ v, findUser (step storeCompleted (.enroll 1 (.num 2))).2 anaCompleted.id = some v ∧
      (∀ k, k ∈ anaCompleted.enrolledModules → k ∈ v.enrolledModules) ∧
      (∀ k, k ∈ anaCompleted.completedModules.getD [] → k ∈ v.completedModules.getD []) :=
  membership_never_lost storeCompleted
    ⟨[anaSignup, .enroll 1 (.num 1), .complete 1 (.num 1)], rfl⟩
    (.enroll 1 (.num 2)) anaCompleted (by decide)
/-! ## Progress after enrollment -/

theorem progressObject_get_last (u : User) (l : List Int) (k : Int) (o : JsObj) :
    JsObj.get ((l ++ [k]).foldl
      (fun o moduleId => o.set (numberToString moduleId) (storedProgress u moduleId)) o)
      (numberToString k) = some (storedProgress u k) := by
  rw [List.foldl_append]
  exact JsObj.get_set_same _ _ _

/-- The stored progress map of a reachable store has no entry under the decimal text of
a module id that the user is not enrolled in. -/
theorem Inv.no_progress_of_not_enrolled {s : Store} (hs : Inv s) {u : User}
    (hu : u ∈ s.users) {k : Int} (hk : k ∈ catalogIds) (hne : k ∉ u.enrolledModules) :
    (u.moduleProgress.getD []).get (numberToString k) = none := by
  cases h : (u.moduleProgress.getD []).get (numberToString k) with
  | none => rfl
  | some v =>
    obtain ⟨_, j, hj, hjc⟩ := hs.progressKeys u hu _ (JsObj.mem_of_get h)
    rw [parseIntChars_numberToString hk] at hj
    cases hj
    exact absurd (hs.completedSub u hu k hjc) hne

/-- C10 (counterexample): Ana, registered, enrolls in module 1 and the enrollment
succeeds, but her stored record has no progress map afterwards, so there is no stored
entry for module 1 with value 0. -/
theorem enroll_stores_no_progress :
    (enrollHandler storeRegistered 1 (.num 1)).1.status = 200 ∧
    ¬ ∃ u o, findUser (enrollHandler storeRegistered 1 (.num 1)).2 1 = some u ∧
        u.moduleProgress = some o ∧ o.get (numberToString 1) = some 0 := by
  refine ⟨by decide, ?_⟩
  rintro ⟨u, o, hu, ho, _⟩
  have h : findUser (enrollHandler storeRegistered 1 (.num 1)).2 1 = some anaEnrolled := by
    decide
  rw [h] at hu
  cases hu
  cases ho

/-- C10 (amended): in a reachable store, after a successful enrollment of user `userId`
in module `k`, the user's stored progress map is the one from before the enrollment and
holds no entry for `k`, and `GET /modules` for that user succeeds with a progress object
whose value for `k` is 0. -/
theorem enroll_reports_zero_progress (s : Store) (hs : Reachable s) (userId : Nat)
    (moduleId : JsVal) (k : Int) (user : User) (mdl : Module)
    (hu : findUser s userId = some user) (hk : parseInt moduleId = some k)
    (hm : findModule s k = some mdl) (hne : k ∉ user.enrolledModules) :
    (enrollHandler s userId moduleId).1.status = 200 ∧
      (∃ v, findUser (enrollHandler s userId moduleId).2 userId = some v ∧
        v.moduleProgress = user.moduleProgress ∧
        (v.moduleProgress.getD []).get (numberToString k) = none) ∧
      (getModulesHandler (enrollHandler s userId moduleId).2 userId).status = 200 ∧
      (getModulesHandler (enrollHandler s userId moduleId).2 userId).progressAt
        (numberToString k) = some 0 := by
  have hinv := inv_of_reachable hs
  have hkc := hinv.id_mem_of_findModule hm
  have ht := isTruthy_of_parseInt hk (hinv.ne_zero_of_findModule hm)
  have hnone := hinv.no_progress_of_not_enrolled (mem_of_findUser hu).1 hkc hne
  have hfind : findUser (enrollHandler s userId moduleId).2 userId =
      some { user with enrolledModules := user.enrolledModules ++ [k] } := by
    rw [enrollHandler_ok ht hk hm hu hne]
    exact findUser_update _ (fun _ => rfl) hu
  have hstored : storedProgress
      { user with enrolledModules := user.enrolledModules ++ [k] } k = 0 := by
    unfold storedProgress
    cases hp : user.moduleProgress with
    | none => rfl
    | some o =>
      rw [hp] at hnone
      have : JsObj.get o (numberToString k) = none := hnone
      simp [this]
  refine ⟨by rw [enrollHandler_ok ht hk hm hu hne], ⟨_, hfind, rfl, hnone⟩, ?_, ?_⟩
  · simp [getModulesHandler, hfind]
  · simp only [getModulesHandler, hfind, Response.progressAt, progressObject]
    rw [progressObject_get_last, hstored]

/-- Ana, registered, enrolls in module 1: nothing is stored for module 1 and `GET /modules` reports 0. -/
theorem enroll_reports_zero_progress_witness :
    (enrollHandler storeRegistered 1 (.num 1)).1.status = 200 ∧
      (∃ v, findUser (enrollHandler storeRegistered 1 (.num 1)).2 1 = some v ∧
        v.moduleProgress = anaUser.moduleProgress ∧
        (v.moduleProgress.getD []).get (numberToString 1) = none) ∧
      (getModulesHandler (enrollHandler storeRegistered 1 (.num 1)).2 1).status = 200 ∧
      (getModulesHandler (enrollHandler storeRegistered 1 (.num 1)).2 1).progressAt
        (numberToString 1) = some 0 :=
  enroll_reports_zero_progress storeRegistered ⟨[anaSignup], rfl⟩ 1 (.num 1) 1 anaUser module1
    (by decide) (by decide) (by decide) (by decide)
/-! ## Unknown modules -/

/-- C11 (counterexample): with the body `moduleId: 0`, which resolves to no module of
the catalog (`parseInt(0)` is 0 and no module has id 0), both routes answer 400 `Module
ID is required`, not 404. -/
theorem zero_module_id_is_required_error :
    (parseInt (.num 0)).bind (findModule storeRegistered) = none ∧
    (enrollHandler storeRegistered 1 (.num 0)).1 = failWith 400 "Module ID is required" ∧
    (completeHandler storeRegistered 1 (.num 0)).1 = failWith 400 "Module ID is required" ∧
    (enrollRoute storeRegistered 1 (.prim (.num 0))).1 = failWith 400 "Module ID is required" ∧
    (completeRoute storeRegistered 1 (.prim (.num 0))).1 =
      failWith 400 "Module ID is required" := by
  decide

/-! ## Registration: validation -/

theorem numLt_dec_iff (m e k : Int) :
    numLt (.dec m e) k = true ↔
      (m : ℚ) * (10 : ℚ) ^ e < (k : ℚ) - 1 / (2 : ℚ) ^ halfUlpShift k := by
  unfold numLt
  have hP : (0 : ℚ) < (2 : ℚ) ^ halfUlpShift k := by positivity
  have key : ∀ a : ℚ, a < (k : ℚ) - 1 / (2 : ℚ) ^ halfUlpShift k ↔
      a * (2 : ℚ) ^ halfUlpShift k < (k : ℚ) * (2 : ℚ) ^ halfUlpShift k - 1 := by
    intro a
    rw [← mul_lt_mul_right hP, sub_mul, one_div, inv_mul_cancel₀ hP.ne']
  by_cases he : 0 ≤ e
  · obtain ⟨n, rfl⟩ := Int.eq_ofNat_of_zero_le he
    simp only [he, if_true, Int.toNat_ofNat, decide_eq_true_eq, zpow_natCast]
    rw [key, ← Int.cast_lt (R := ℚ)]
    push_cast
    rfl
  · have hneg : 0 ≤ -e := by omega
    obtain ⟨n, hn⟩ := Int.eq_ofNat_of_zero_le hneg
    have he' : e = -(n : Int) := by omega
    subst he'
    have hpos : (0 : ℚ) < (10 : ℚ) ^ n := by positivity
    simp only [he, if_false, neg_neg, Int.toNat_ofNat, decide_eq_true_eq, zpow_neg,
      zpow_natCast]
    rw [key, ← Int.cast_lt (R := ℚ)]
    push_cast
    rw [← div_eq_mul_inv, div_mul_eq_mul_div, div_lt_iff₀ hpos]

theorem numGt_dec_iff (m e k : Int) :
    numGt (.dec m e) k = true ↔
      (k : ℚ) + 1 / (2 : ℚ) ^ halfUlpShift k < (m : ℚ) * (10 : ℚ) ^ e := by
  unfold numGt
  have hP : (0 : ℚ) < (2 : ℚ) ^ halfUlpShift k := by positivity
  have key : ∀ a : ℚ, (k : ℚ) + 1 / (2 : ℚ) ^ halfUlpShift k < a ↔
      (k : ℚ) * (2 : ℚ) ^ halfUlpShift k + 1 < a * (2 : ℚ) ^ halfUlpShift k := by
    intro a
    rw [← mul_lt_mul_right hP, add_mul, one_div, inv_mul_cancel₀ hP.ne']
  by_cases he : 0 ≤ e
  · obtain ⟨n, rfl⟩ := Int.eq_ofNat_of_zero_le he
    simp only [he, if_true, Int.toNat_ofNat, decide_eq_true_eq, zpow_natCast]
    rw [key, ← Int.cast_lt (R := ℚ)]
    push_cast
    rfl
  · have hneg : 0 ≤ -e := by omega
    obtain ⟨n, hn⟩ := Int.eq_ofNat_of_zero_le hneg
    have he' : e = -(n : Int) := by omega
    subst he'
    have hpos : (0 : ℚ) < (10 : ℚ) ^ n := by positivity
    simp only [he, if_false, neg_neg, Int.toNat_ofNat, decide_eq_true_eq, zpow_neg,
      zpow_natCast]
    rw [key, ← Int.cast_lt (R := ℚ)]
    push_cast
    rw [← div_eq_mul_inv, div_mul_eq_mul_div, lt_div_iff₀ hpos]

theorem halfUlpShift_13 : halfUlpShift 13 = 50 := by decide

theorem halfUlpShift_19 : halfUlpShift 19 = 49 := by decide

/-- The guard `age < 13` on a decimal value: the value is below `13 - 2 ^ (-50)`, the
midpoint between 13 and the double before it. -/
theorem numLt_13_iff (m e : Int) :
    numLt (.dec m e) 13 = true ↔ (m : ℚ) * (10 : ℚ) ^ e < 13 - 1 / 2 ^ 50 := by
  have h := numLt_dec_iff m e 13
  rw [halfUlpShift_13] at h
  exact_mod_cast h

/-- The guard `age > 19` on a decimal value: the value is above `19 + 2 ^ (-49)`, the
midpoint between 19 and the double after it. -/
theorem numGt_19_iff (m e : Int) :
    numGt (.dec m e) 19 = true ↔ 19 + 1 / 2 ^ 49 < (m : ℚ) * (10 : ℚ) ^ e := by
  have h := numGt_dec_iff m e 19
  rw [halfUlpShift_19] at h
  exact_mod_cast h

/-- On an integer the guard `age < 13` is the comparison of integers. -/
theorem numLt_int_13 (n : Int) : numLt (.dec n 0) 13 = false ↔ 13 ≤ n := by
  rw [← Bool.not_eq_true, numLt_13_iff]
  simp only [zpow_zero, mul_one, not_lt]
  constructor
  · intro h
    by_contra hc
    have h1 : n ≤ 12 := by omega
    have h2 : (n : ℚ) ≤ 12 := by exact_mod_cast h1
    have h3 : (0 : ℚ) < 1 / 2 ^ 50 := by positivity
    have h4 : (1 : ℚ) / 2 ^ 50 ≤ 1 := by norm_num
    linarith
  · intro h
    have h2 : (13 : ℚ) ≤ n := by exact_mod_cast h
    have h3 : (0 : ℚ) < 1 / 2 ^ 50 := by positivity
    linarith

/-- On an integer the guard `age > 19` is the comparison of integers. -/
theorem numGt_int_19 (n : Int) : numGt (.dec n 0) 19 = false ↔ n ≤ 19 := by
  rw [← Bool.not_eq_true, numGt_19_iff]
  simp only [zpow_zero, mul_one, not_lt]
  constructor
  · intro h
    by_contra hc
    have h1 : 20 ≤ n := by omega
    have h2 : (20 : ℚ) ≤ n := by exact_mod_cast h1
    have h3 : (0 : ℚ) < 1 / 2 ^ 49 := by positivity
    have h4 : (1 : ℚ) / 2 ^ 49 ≤ 1 := by norm_num
    linarith
  · intro h
    have h2 : (n : ℚ) ≤ 19 := by exact_mod_cast h
    have h3 : (0 : ℚ) < 1 / 2 ^ 49 := by positivity
    linarith

/-- The validation guards of `POST /signup`: whatever the store, a request is answered
with status 400 and the store is unchanged whenever one of `name`, `email`, `age`,
`password` is falsy, or the decimal value of `age` rounds to a double below 13 or above
19 (an infinity included), or `password` is a string of fewer than 6 UTF-16 code
units. -/
theorem signup_guards_reject (s : Store) (name email age password : JsVal)
    (hashed : String)
    (h : isTruthy name = false ∨ isTruthy email = false ∨ isTruthy age = false ∨
      isTruthy password = false ∨
      (∃ m e : Int, toNumber age = .dec m e ∧
        ((m : ℚ) * (10 : ℚ) ^ e < 13 - 1 / 2 ^ 50 ∨ 19 + 1 / 2 ^ 49 < (m : ℚ) * (10 : ℚ) ^ e)) ∨
      toNumber age = .negInf ∨ toNumber age = .posInf ∨
      (∃ p : String, password = .str p ∧ utf16Length p < 6)) :
    (signupHandler s name email age password hashed).1.status = 400 ∧
      (signupHandler s name email age password hashed).2 = s := by
  by_cases hreq : (!isTruthy name || !isTruthy email || !isTruthy age || !isTruthy password) = true
  · simp [signupHandler, hreq, failWith]
  · by_cases hage : (numLt (toNumber age) 13 || numGt (toNumber age) 19) = true
    · simp [signupHandler, hreq, hage, failWith]
    · by_cases hpw : passwordTooShort password = true
      · simp [signupHandler, hreq, hage, hpw, failWith]
      · exfalso
        simp only [Bool.or_eq_true, Bool.not_eq_true', not_or, Bool.not_eq_false] at hreq hage
        obtain ⟨⟨⟨hn, hem⟩, hag⟩, hp⟩ := hreq
        rcases h with h | h | h | h | ⟨m, e, hme, hout⟩ | h | h | ⟨p, hp1, hp2⟩
        · rw [hn] at h; cases h
        · rw [hem] at h; cases h
        · rw [hag] at h; cases h
        · rw [hp] at h; cases h
        · rw [hme] at hage
          rcases hout with hlt | hgt
          · exact hage.1 ((numLt_13_iff m e).mpr hlt)
          · exact hage.2 ((numGt_19_iff m e).mpr hgt)
        · rw [h] at hage; exact hage.1 rfl
        · rw [h] at hage; exact hage.2 rfl
        · subst hp1
          exact hpw (by simp [passwordTooShort, hp2])

/-- A twelve-year-old, and a password of five letters. -/
theorem signup_guards_reject_examples :
    ((signupHandler initStore (.str "Bo") (.str "bo@x.com") (.num 12) (.str "secret1") "h").1.status
        = 400 ∧
      (signupHandler initStore (.str "Bo") (.str "bo@x.com") (.num 12) (.str "secret1") "h").2
        = initStore) ∧
    ((signupHandler initStore (.str "Bo") (.str "bo@x.com") (.num 15) (.str "abcde") "h").1.status
        = 400 ∧
      (signupHandler initStore (.str "Bo") (.str "bo@x.com") (.num 15) (.str "abcde") "h").2
        = initStore) :=
  ⟨signup_guards_reject initStore (.str "Bo") (.str "bo@x.com") (.num 12) (.str "secret1") "h"
      (Or.inr (Or.inr (Or.inr (Or.inr (Or.inl ⟨12, 0, rfl, Or.inl (by norm_num)⟩))))),
   signup_guards_reject initStore (.str "Bo") (.str "bo@x.com") (.num 15) (.str "abcde") "h"
      (Or.inr (Or.inr (Or.inr (Or.inr (Or.inr (Or.inr (Or.inr
        ⟨"abcde", rfl, by decide⟩)))))))⟩

/-- The age guards compare doubles: the text `19.0000000000000000001` denotes a value
above 19 that rounds to the double 19, so the request is let through, and
`19.00000000000001` rounds to a double above 19 and is refused. -/
theorem signup_age_guard_rounds :
    (signupHandler initStore (.str "Bo") (.str "bo@x.com") (.str "19.0000000000000000001")
        (.str "secret1") "h").1.status = 201 ∧
    (signupHandler initStore (.str "Bo") (.str "bo@x.com") (.str "19.00000000000001")
        (.str "secret1") "h").1 = failWith 400 "Age must be between 13 and 19" ∧
    (signupHandler initStore (.str "Bo") (.str "bo@x.com") (.str "12.9999999999999999999")
        (.str "secret1") "h").1.status = 201 ∧
    (signupHandler initStore (.str "Bo") (.str "bo@x.com") (.str "12.99999999999999")
        (.str "secret1") "h").1 = failWith 400 "Age must be between 13 and 19" := by
  refine ⟨by decide, by decide, by decide, by decide⟩

/-- C12: the `age` `"abc"` is no number from 13 to 19 (`ToNumber` gives `NaN`, and the
frontend `validateAge` refuses the same text), yet `POST /signup` does not answer with
the validation response: both `age < 13` and `age > 19` are false for `NaN`, the
request is answered with status 201 and the user is stored with that age. -/
theorem signup_accepts_non_numeric_age :
    toNumber (.str "abc") = .nan ∧ validateAge "abc" = false ∧
    numLt (toNumber (.str "abc")) 13 = false ∧ numGt (toNumber (.str "abc")) 19 = false ∧
    (signupHandler initStore (.str "Bo") (.str "bo@x.com") (.str "abc") (.str "secret1")
        "h").1.status = 201 ∧
    (signupHandler initStore (.str "Bo") (.str "bo@x.com") (.str "abc") (.str "secret1")
        "h").2.users =
      [{ id := 1, name := .str "Bo", email := .str "bo@x.com", age := .str "abc",
         password := "h", enrolledModules := [], completedModules := none,
         moduleProgress := none }] := by
  refine ⟨by decide, by decide, by decide, by decide, by decide, by decide⟩

/-! ## Registration: the email check -/

theorem fieldsValid_iff {name email age password : JsVal} :
    fieldsValid name email age password = true ↔
      (isTruthy name = true ∧ isTruthy email = true ∧ isTruthy age = true ∧
        isTruthy password = true) ∧
      (numLt (toNumber age) 13 = false ∧ numGt (toNumber age) 19 = false) ∧
      passwordTooShort password = false := by
  simp only [fieldsValid, Bool.and_eq_true, Bool.not_eq_true', Bool.or_eq_false_iff]
  tauto

/-- With valid fields and a stored user of that email, the signup is a conflict. -/
theorem signupHandler_conflict {s : Store} {name email age password : JsVal}
    (hashed : String) {u : User} (hv : fieldsValid name email age password = true)
    (hf : s.users.find? (fun u => decide (u.email = email)) = some u) :
    signupHandler s name email age password hashed =
      (failWith 400 "User already exists with this email", s) := by
  obtain ⟨⟨hn, he, ha, hp⟩, ⟨hlt, hgt⟩, hshort⟩ := fieldsValid_iff.mp hv
  simp [signupHandler, hn, he, ha, hp, hlt, hgt, hshort, hf]

/-- With valid fields, no stored user of that email and a string password, the signup
pushes a record. -/
theorem signupHandler_new {s : Store} {name email age : JsVal} {p : String}
    (hashed : String) (hv : fieldsValid name email age (.str p) = true)
    (hf : s.users.find? (fun u => decide (u.email = email)) = none) :
    signupHandler s name email age (.str p) hashed =
      ({ status := 201,
         body := .signedUp "User created successfully" (s.users.length + 1) name
           email age [] (s.users.length + 1) },
       { s with users := s.users ++
          [{ id := s.users.length + 1, name := name, email := email, age := age,
             password := hashed, enrolledModules := [], completedModules := none,
             moduleProgress := none }] }) := by
  obtain ⟨⟨hn, he, ha, hp⟩, ⟨hlt, hgt⟩, hshort⟩ := fieldsValid_iff.mp hv
  simp [signupHandler, hn, he, ha, hp, hlt, hgt, hshort, hf]

/-- With valid fields, no stored user of that email and a password that is not a
string, `bcrypt.hash` rejects and the signup is answered with status 500. -/
theorem signupHandler_throws {s : Store} {name email age password : JsVal}
    (hashed : String) (hv : fieldsValid name email age password = true)
    (hf : s.users.find? (fun u => decide (u.email = email)) = none)
    (hstr : ∀ p, password ≠ .str p) :
    signupHandler s name email age password hashed =
      (failWith 500 "Failed to create user", s) := by
  obtain ⟨⟨hn, he, ha, hp⟩, ⟨hlt, hgt⟩, hshort⟩ := fieldsValid_iff.mp hv
  cases password with
  | str p => exact absurd rfl (hstr p)
  | undefined => simp [signupHandler, hn, he, ha, hp, hlt, hgt, hshort, hf]
  | null => simp [signupHandler, hn, he, ha, hp, hlt, hgt, hshort, hf]
  | bool b => simp [signupHandler, hn, he, ha, hp, hlt, hgt, hshort, hf]
  | num n => simp [signupHandler, hn, he, ha, hp, hlt, hgt, hshort, hf]
  | numText t => simp [signupHandler, hn, he, ha, hp, hlt, hgt, hshort, hf]

theorem signupHandler_invalid {s : Store} {name email age password : JsVal} (hashed : String)
    (hv : fieldsValid name email age password = false) :
    (signupHandler s name email age password hashed).1.status = 400 ∧
      (signupHandler s name email age password hashed).2 = s := by
  by_cases hreq : (!isTruthy name || !isTruthy email || !isTruthy age || !isTruthy password) = true
  · simp [signupHandler, hreq, failWith]
  · by_cases hage : (numLt (toNumber age) 13 || numGt (toNumber age) 19) = true
    · simp [signupHandler, hreq, hage, failWith]
    · by_cases hpw : passwordTooShort password = true
      · simp [signupHandler, hreq, hage, hpw, failWith]
      · exfalso
        simp only [Bool.or_eq_true, Bool.not_eq_true', not_or, Bool.not_eq_false] at hreq hage
        simp [fieldsValid, hreq, hage, hpw] at hv

theorem str_or_not (password : JsVal) : (∃ p, password = .str p) ∨ ∀ p, password ≠ .str p := by
  cases password with
  | str p => exact Or.inl ⟨p, rfl⟩
  | undefined => exact Or.inr (fun p h => by cases h)
  | null => exact Or.inr (fun p h => by cases h)
  | bool b => exact Or.inr (fun p h => by cases h)
  | num n => exact Or.inr (fun p h => by cases h)
  | numText t => exact Or.inr (fun p h => by cases h)

/-- A signup answered with status 201 found the fields valid, no user with the email and
a string password, and pushed one record. -/
theorem signupHandler_created {s : Store} {name email age password : JsVal} {hashed : String}
    (h201 : (signupHandler s name email age password hashed).1.status = 201) :
    fieldsValid name email age password = true ∧
      s.users.find? (fun u => decide (u.email = email)) = none ∧
      signupHandler s name email age password hashed =
        ({ status := 201,
           body := .signedUp "User created successfully" (s.users.length + 1) name
             email age [] (s.users.length + 1) },
         { s with users := s.users ++
            [{ id := s.users.length + 1, name := name, email := email, age := age,
               password := hashed, enrolledModules := [], completedModules := none,
               moduleProgress := none }] }) := by
  cases hv : fieldsValid name email age password with
  | false =>
    have := (signupHandler_invalid (s := s) hashed hv).1
    rw [this] at h201; cases h201
  | true =>
    cases hf : s.users.find? (fun u => decide (u.email = email)) with
    | some u =>
      rw [signupHandler_conflict hashed hv hf] at h201
      simp [failWith] at h201
    | none =>
      rcases str_or_not password with ⟨p, rfl⟩ | hstr
      · exact ⟨rfl, rfl, signupHandler_new hashed hv hf⟩
      · rw [signupHandler_throws hashed hv hf hstr] at h201
        simp [failWith] at h201

/-- A signup not answered with status 201 leaves the store as it is. -/
theorem signupHandler_not_created {s : Store} {name email age password : JsVal}
    {hashed : String}
    (h201 : (signupHandler s name email age password hashed).1.status ≠ 201) :
    (signupHandler s name email age password hashed).2 = s := by
  cases hv : fieldsValid name email age password with
  | false => exact (signupHandler_invalid hashed hv).2
  | true =>
    cases hf : s.users.find? (fun u => decide (u.email = email)) with
    | some u => rw [signupHandler_conflict hashed hv hf]
    | none =>
      rcases str_or_not password with ⟨p, rfl⟩ | hstr
      · rw [signupHandler_new hashed hv hf] at h201
        exact absurd rfl h201
      · rw [signupHandler_throws hashed hv hf hstr]

theorem emails_nodup_step {s : Store} (r : Request)
    (h : (s.users.map (fun u => u.email)).Nodup) :
    ((step s r).2.users.map (fun u => u.email)).Nodup := by
  cases r with
  | signup name email age password hashed =>
    by_cases h201 : (signupHandler s name email age password hashed).1.status = 201
    · obtain ⟨_, hf, heq⟩ := signupHandler_created h201
      simp only [step]
      rw [heq]
      simp only [List.map_append, List.map_cons, List.map_nil]
      rw [List.nodup_append]
      refine ⟨h, List.nodup_singleton _, ?_⟩
      intro a ha hb
      simp only [List.mem_singleton] at hb
      subst hb
      obtain ⟨u, hu, hue⟩ := List.mem_map.mp ha
      have := List.find?_eq_none.mp hf u hu
      simp [hue] at this
    · simp only [step]
      rw [signupHandler_not_created h201]; exact h
  | login email password verifies => exact h
  | getModules userId => exact h
  | enroll userId moduleId =>
    rcases enrollHandler_cases s userId moduleId with h1 | ⟨k, mdl, user, ht, hk, hm, hu, hne⟩
    · simp only [step]; rw [h1.1]; exact h
    · simp only [step]
      rw [enrollHandler_ok ht hk hm hu hne]
      show ((updateFirst _ _ s.users).map _).Nodup
      have e := map_updateFirst (fun u : User => decide (u.id = userId))
        (fun u => { u with enrolledModules := u.enrolledModules ++ [k] })
        (fun u : User => u.email) (fun _ => rfl) s.users
      rw [e]; exact h
  | complete userId moduleId =>
    rcases completeHandler_cases s userId moduleId with
      h1 | ⟨k, mdl, user, ht, hk, hm, hu, he, hc⟩
    · simp only [step]; rw [h1.1]; exact h
    · simp only [step]
      rw [completeHandler_ok ht hk hm hu he hc]
      show ((updateFirst _ _ s.users).map _).Nodup
      have e := map_updateFirst (fun u : User => decide (u.id = userId))
        (markCompleted k moduleId) (fun u : User => u.email) (fun _ => rfl) s.users
      rw [e]; exact h

theorem emails_nodup_run {s : Store} (rs : List Request)
    (h : (s.users.map (fun u => u.email)).Nodup) :
    ((run s rs).users.map (fun u => u.email)).Nodup := by
  induction rs generalizing s with
  | nil => exact h
  | cons r rs ih => exact ih (emails_nodup_step r h)

theorem emails_nodup_of_reachable {s : Store} (hs : Reachable s) :
    (s.users.map (fun u => u.email)).Nodup := by
  obtain ⟨rs, hrs⟩ := hs
  rw [← hrs]
  exact emails_nodup_run rs (by simp [initStore])
/-- Signups served one after the other: in a store that `run` reaches, a signup request
whose fields pass validation is answered with status 400 and `User already exists with
this email` exactly when some stored user has an equal email (`===`, so
case-sensitive), that answer leaves the store unchanged, and the emails of the stored
users are pairwise different, before the request and after it.  Signups that overlap
at their `await` are not covered here (see `asyncRun`). -/
theorem signup_conflict_iff_email_taken (s : Store) (hs : Reachable s)
    (name email age password : JsVal) (hashed : String)
    (hv : fieldsValid name email age password = true) :
    ((signupHandler s name email age password hashed).1 =
        failWith 400 "User already exists with this email" ↔
      ∃ u, u ∈ s.users ∧ u.email = email) ∧
    ((signupHandler s name email age password hashed).1 =
        failWith 400 "User already exists with this email" →
      (signupHandler s name email age password hashed).2 = s) ∧
    (s.users.map (fun u => u.email)).Nodup ∧
    ((signupHandler s name email age password hashed).2.users.map (fun u => u.email)).Nodup := by
  have hnd := emails_nodup_of_reachable hs
  refine ⟨?_, ?_, hnd, emails_nodup_step (.signup name email age password hashed) hnd⟩
  · cases hf : s.users.find? (fun u => decide (u.email = email)) with
    | some u =>
      rw [signupHandler_conflict hashed hv hf]
      exact ⟨fun _ => ⟨u, List.mem_of_find?_eq_some hf, by simpa using List.find?_some hf⟩,
        fun _ => rfl⟩
    | none =>
      have hno : ¬ ∃ u, u ∈ s.users ∧ u.email = email := by
        rintro ⟨u, hu, hue⟩
        have := List.find?_eq_none.mp hf u hu
        simp [hue] at this
      rcases str_or_not password with ⟨p, rfl⟩ | hstr
      · rw [signupHandler_new hashed hv hf]
        exact ⟨fun h => by simp [failWith] at h, fun h => absurd h hno⟩
      · rw [signupHandler_throws hashed hv hf hstr]
        exact ⟨fun h => by simp [failWith] at h, fun h => absurd h hno⟩
  · intro h
    by_cases h201 : (signupHandler s name email age password hashed).1.status = 201
    · rw [h] at h201; simp [failWith] at h201
    · exact signupHandler_not_created h201

/-- A second registration with Ana's email, once Ana is registered. -/
theorem signup_conflict_iff_email_taken_witness :
    ((signupHandler storeRegistered (.str "Ann") (.str "ana@x.com") (.num 16) (.str "secret2")
          "h2").1 = failWith 400 "User already exists with this email" ↔
      ∃ u, u ∈ storeRegistered.users ∧ u.email = .str "ana@x.com") ∧
    ((signupHandler storeRegistered (.str "Ann") (.str "ana@x.com") (.num 16) (.str "secret2")
          "h2").1 = failWith 400 "User already exists with this email" →
      (signupHandler storeRegistered (.str "Ann") (.str "ana@x.com") (.num 16) (.str "secret2")
          "h2").2 = storeRegistered) ∧
    (storeRegistered.users.map (fun u => u.email)).Nodup ∧
    ((signupHandler storeRegistered (.str "Ann") (.str "ana@x.com") (.num 16) (.str "secret2")
          "h2").2.users.map (fun u => u.email)).Nodup :=
  signup_conflict_iff_email_taken storeRegistered ⟨[anaSignup], rfl⟩
    (.str "Ann") (.str "ana@x.com") (.num 16) (.str "secret2") "h2" (by decide)

/-! ## The token check -/

theorem splitOnSpace_of_no_space (l : List Char) (h : ' ' ∉ l) : splitOnSpace l = [l] := by
  induction l with
  | nil => rfl
  | cons c cs ih =>
    have hc : c ≠ ' ' := fun e => h (e ▸ List.mem_cons_self _ _)
    have hcs : ' ' ∉ cs := fun e => h (List.mem_cons_of_mem _ e)
    simp [splitOnSpace, hc, ih hcs]

theorem splitOnSpace_append_space (l r : List Char) (h : ' ' ∉ l) :
    splitOnSpace (l ++ ' ' :: r) = l :: splitOnSpace r := by
  induction l with
  | nil => simp [splitOnSpace]
  | cons c cs ih =>
    have hc : c ≠ ' ' := fun e => h (e ▸ List.mem_cons_self _ _)
    have hcs : ' ' ∉ cs := fun e => h (List.mem_cons_of_mem _ e)
    simp [splitOnSpace, hc, ih hcs]

/-- The header `Bearer <token>` yields the token, when the token is not empty and
contains no space. -/
theorem headerToken_bearer (token : String) (hne : token ≠ "")
    (hsp : ' ' ∉ token.toList) : headerToken (some ("Bearer " ++ token)) = some token := by
  have hl : ("Bearer " ++ token).toList = "Bearer".toList ++ ' ' :: token.toList := by
    simp [String.toList, String.data_append]
  have hb : ' ' ∉ "Bearer".toList := by decide
  have hd : token.toList ≠ [] := by
    intro h
    apply hne
    cases token
    simp_all [String.toList]
  simp only [headerToken, hl, splitOnSpace_append_space _ _ hb,
    splitOnSpace_of_no_space _ hsp, List.drop_one, List.tail_cons, hd, if_false]
  cases token
  rfl

/-- C17: whatever `jwt.verify` does, a request to a protected route (`GET /modules`,
`POST /modules/enroll`, `POST /modules/complete`) whose `Authorization` header is absent,
or is a scheme word with nothing after it, or a scheme word and a space with nothing
after it, is answered by the middleware with status 401 and `Access token required`;
the answer is not the handler's, and the store is unchanged. -/
theorem missing_token_rejected (verify : String → Option Nat) (s : Store)
    (route : ProtectedRoute) (authorization : Option String)
    (h : authorization = none ∨
      ∃ scheme : String, ' ' ∉ scheme.toList ∧
        (authorization = some scheme ∨ authorization = some (scheme ++ " "))) :
    serveProtected verify s authorization route =
      (.rejected 401 "Access token required", s) := by
  have ht : headerToken authorization = none := by
    rcases h with rfl | ⟨scheme, hsp, rfl | rfl⟩
    · rfl
    · simp only [headerToken, splitOnSpace_of_no_space _ hsp]
      rfl
    · have hl : (scheme ++ " ").toList = scheme.toList ++ ' ' :: [] := by
        simp [String.toList, String.data_append]
      simp only [headerToken, hl, splitOnSpace_append_space _ _ hsp, splitOnSpace]
      rfl
  simp [serveProtected, authenticateToken, ht]

/-- An enrollment with the header `Bearer ` and nothing after the space. -/
theorem missing_token_rejected_witness :
    serveProtected unaryVerify storeRegistered (some ("Bearer" ++ " ")) (.enroll (.num 1)) =
      (.rejected 401 "Access token required", storeRegistered) :=
  missing_token_rejected unaryVerify storeRegistered (.enroll (.num 1)) (some ("Bearer" ++ " "))
    (Or.inr ⟨"Bearer", by decide, Or.inr rfl⟩)
/-! ## Registration: ids, tokens and the stored record -/

theorem unaryVerify_unarySign (id : Nat) : unaryVerify (unarySign id) = some id := by
  simp [unaryVerify, unarySign, String.toList]

theorem unarySign_shape (id : Nat) : unarySign id ≠ "" ∧ ' ' ∉ (unarySign id).toList := by
  constructor
  · intro h
    have := congrArg String.length h
    simp [unarySign, String.length] at this
  · simp [unarySign, String.toList, List.mem_replicate]

theorem Inv.findUser_new {s : Store} (hs : Inv s) (u : User) (hu : u.id = s.users.length + 1) :
    findUser { s with users := s.users ++ [u] } (s.users.length + 1) = some u := by
  have hnone : s.users.find? (fun v => decide (v.id = s.users.length + 1)) = none := by
    rw [List.find?_eq_none]
    intro v hv
    have hmem : v.id ∈ s.users.map (fun u => u.id) := List.mem_map.mpr ⟨v, hv, rfl⟩
    rw [hs.userIds, List.mem_range'_1] at hmem
    simp only [decide_eq_true_eq]
    omega
  simp [findUser, List.find?_append, hnone, hu]

/-- C14: in a reachable store the stored users have the ids 1, 2, ... in the order of
their registration; a registration that succeeds (status 201) answers with the id
`users.length + 1` and a token signed over that same id, and stores the new record
under that id, so that ids stay 1, 2, ... and pairwise different; and when `jwt.verify`
decodes what `jwt.sign` produced (a non-empty text without a space), the token check
lets the header `Bearer <token>` through with exactly that id. -/
theorem signup_assigns_next_id (s : Store) (hs : Reachable s)
    (name email age password : JsVal) (hashed : String)
    (sign : Nat → String) (verify : String → Option Nat)
    (hround : ∀ id, verify (sign id) = some id)
    (hshape : ∀ id, sign id ≠ "" ∧ ' ' ∉ (sign id).toList)
    (h201 : (signupHandler s name email age password hashed).1.status = 201) :
    s.users.map (fun u => u.id) = List.range' 1 s.users.length ∧
    (signupHandler s name email age password hashed).1.body =
      .signedUp "User created successfully" (s.users.length + 1) name email age []
        (s.users.length + 1) ∧
    (signupHandler s name email age password hashed).2.users.map (fun u => u.id) =
      List.range' 1 (s.users.length + 1) ∧
    ((signupHandler s name email age password hashed).2.users.map (fun u => u.id)).Nodup ∧
    authenticateToken verify (some ("Bearer " ++ sign (s.users.length + 1))) =
      .granted (s.users.length + 1) := by
  have hinv := inv_of_reachable hs
  have hinv2 : Inv (signupHandler s name email age password hashed).2 :=
    inv_signup hinv name email age password hashed
  obtain ⟨_, _, heq⟩ := signupHandler_created h201
  have hlen : (signupHandler s name email age password hashed).2.users.length =
      s.users.length + 1 := by
    rw [heq]; simp
  refine ⟨hinv.userIds, by rw [heq], ?_, hinv2.users_nodup, ?_⟩
  · rw [hinv2.userIds, hlen]
  · simp [authenticateToken, headerToken_bearer _ (hshape _).1 (hshape _).2, hround]

/-- Ana's registration on the empty store, with unary tokens. -/
theorem signup_assigns_next_id_witness :
    initStore.users.map (fun u => u.id) = List.range' 1 initStore.users.length ∧
    (signupHandler initStore (.str "Ana") (.str "ana@x.com") (.num 15) (.str "secret1")
        "$2a$10$hashOfSecret1").1.body =
      .signedUp "User created successfully" (initStore.users.length + 1) (.str "Ana")
        (.str "ana@x.com") (.num 15) [] (initStore.users.length + 1) ∧
    (signupHandler initStore (.str "Ana") (.str "ana@x.com") (.num 15) (.str "secret1")
        "$2a$10$hashOfSecret1").2.users.map (fun u => u.id) =
      List.range' 1 (initStore.users.length + 1) ∧
    ((signupHandler initStore (.str "Ana") (.str "ana@x.com") (.num 15) (.str "secret1")
        "$2a$10$hashOfSecret1").2.users.map (fun u => u.id)).Nodup ∧
    authenticateToken unaryVerify (some ("Bearer " ++ unarySign (initStore.users.length + 1))) =
      .granted (initStore.users.length + 1) :=
  signup_assigns_next_id initStore ⟨[], rfl⟩ (.str "Ana") (.str "ana@x.com") (.num 15)
    (.str "secret1") "$2a$10$hashOfSecret1" unarySign unaryVerify unaryVerify_unarySign
    unarySign_shape (by decide)

/-- C15 (counterexample): Ana's registration succeeds, and the record stored for her
has no `completedModules` and no `moduleProgress` field: it is not a record whose
completed list and progress map are present and empty. -/
theorem signup_record_lacks_fields :
    (step initStore anaSignup).1.status = 201 ∧
    findUser (step initStore anaSignup).2 1 = some anaUser ∧
    ¬ (anaUser.completedModules = some [] ∧ anaUser.moduleProgress = some []) := by
  refine ⟨by decide, by decide, ?_⟩
  rintro ⟨h, _⟩
  cases h

/-- C15 (amended): in a reachable store, a registration that succeeds (status 201)
stores one new record, found under the new id, whose `password` is what `bcrypt.hash`
returned, whose enrolled list is empty and whose `completedModules` and
`moduleProgress` fields are absent; `GET /modules` reads them as an empty completed
list and an empty progress object; and the persisted schema has no path
`completedModules` or `moduleProgress` either. -/
theorem signup_record_fields (s : Store) (hs : Reachable s)
    (name email age password : JsVal) (hashed : String)
    (h201 : (signupHandler s name email age password hashed).1.status = 201) :
    findUser (signupHandler s name email age password hashed).2 (s.users.length + 1) =
      some { id := s.users.length + 1, name := name, email := email, age := age,
             password := hashed, enrolledModules := [], completedModules := none,
             moduleProgress := none } ∧
    (getModulesHandler (signupHandler s name email age password hashed).2
        (s.users.length + 1)).completedModules = some [] ∧
    (∀ key, (getModulesHandler (signupHandler s name email age password hashed).2
        (s.users.length + 1)).progressAt key = none) ∧
    "enrolledModules" ∈ userSchemaPaths ∧ "completedModules" ∉ userSchemaPaths ∧
    "moduleProgress" ∉ userSchemaPaths := by
  have hinv := inv_of_reachable hs
  obtain ⟨_, _, heq⟩ := signupHandler_created h201
  have hfind := hinv.findUser_new
    { id := s.users.length + 1, name := name, email := email, age := age,
      password := hashed, enrolledModules := [], completedModules := none,
      moduleProgress := none } rfl
  rw [heq]
  refine ⟨hfind, ?_, ?_, by decide, by decide, by decide⟩
  · simp only [getModulesHandler, hfind]; rfl
  · intro key
    simp only [getModulesHandler, hfind]; rfl

/-- Ana's registration on the empty store. -/
theorem signup_record_fields_witness :
    findUser (signupHandler initStore (.str "Ana") (.str "ana@x.com") (.num 15)
        (.str "secret1") "$2a$10$hashOfSecret1").2 (initStore.users.length + 1) =
      some { id := initStore.users.length + 1, name := .str "Ana", email := .str "ana@x.com",
             age := .num 15, password := "$2a$10$hashOfSecret1", enrolledModules := [],
             completedModules := none, moduleProgress := none } ∧
    (getModulesHandler (signupHandler initStore (.str "Ana") (.str "ana@x.com") (.num 15)
        (.str "secret1") "$2a$10$hashOfSecret1").2
        (initStore.users.length + 1)).completedModules = some [] ∧
    (∀ key, (getModulesHandler (signupHandler initStore (.str "Ana") (.str "ana@x.com")
        (.num 15) (.str "secret1") "$2a$10$hashOfSecret1").2
        (initStore.users.length + 1)).progressAt key = none) ∧
    "enrolledModules" ∈ userSchemaPaths ∧ "completedModules" ∉ userSchemaPaths ∧
    "moduleProgress" ∉ userSchemaPaths :=
  signup_record_fields initStore ⟨[], rfl⟩ (.str "Ana") (.str "ana@x.com") (.num 15)
    (.str "secret1") "$2a$10$hashOfSecret1" (by decide)

/-! ## Login -/

/-- C16 (failing input): Ana is registered.  A login with the body password `1234567`, a
number, is answered with status 500 `Failed to login` for Ana's email, whatever
`bcrypt.compare` would say, and with status 401 `Invalid email or password` for an
email that no user has: the two failures differ, and tell whether the email is
registered.  Neither changes the store. -/
theorem login_failure_reveals_email :
    isTruthy (.str "ana@x.com") = true ∧ isTruthy (.num 1234567) = true ∧
    step storeRegistered (.login (.str "ana@x.com") (.num 1234567) false) =
      (failWith 500 "Failed to login", storeRegistered) ∧
    step storeRegistered (.login (.str "ana@x.com") (.num 1234567) true) =
      (failWith 500 "Failed to login", storeRegistered) ∧
    step storeRegistered (.login (.str "bob@x.com") (.num 1234567) false) =
      (failWith 401 "Invalid email or password", storeRegistered) ∧
    failWith 500 "Failed to login" ≠ failWith 401 "Invalid email or password" := by
  decide
/-! ## The scenario of the specification -/

/-- C18: from the initial store, Ana registers (name Ana, email ana@x.com, age 15,
password secret1), then enrolls in module 1, completes it and reads her learning state,
the three with the user id 1 that her token signs.  Every step succeeds: the
registration with status 201 and a token for id 1; the enrollment with module 1's
counter at 1, up from 0; the completion with progress 100 for module 1; and the
learning state with enrolled `[1]`, completed `[1]` and progress 100 for module 1 as
its only entry.  The same holds through the token check, for a token that verifies to
id 1. -/
theorem ana_scenario :
    responses initStore [anaSignup, .enroll 1 (.num 1), .complete 1 (.num 1), .getModules 1] =
      [ { status := 201,
          body := .signedUp "User created successfully" 1 (.str "Ana") (.str "ana@x.com")
            (.num 15) [] 1 },
        { status := 200,
          body := .enrolled "Successfully enrolled in module" module1Enrolled [1] },
        { status := 200,
          body := .completed "Module marked as completed" module1Enrolled [1] [("1", 100)] },
        { status := 200,
          body := .learningState 1 (.str "Ana") (.str "ana@x.com") (.num 15) [1] [1]
            [("1", 100)] [module1Enrolled] [module1Enrolled]
            (module1Enrolled :: seedModules.tail) } ] ∧
    (findModule initStore 1).map (fun m => m.enrolled) = some 0 ∧
    (findModule storeEnrolled 1).map (fun m => m.enrolled) = some 1 ∧
    (completeHandler storeEnrolled 1 (.num 1)).1.progressAt (numberToString 1) = some 100 ∧
    serveProtected unaryVerify storeCompleted (some ("Bearer " ++ unarySign 1)) .getModules =
      (.handled
        { status := 200,
          body := .learningState 1 (.str "Ana") (.str "ana@x.com") (.num 15) [1] [1]
            [("1", 100)] [module1Enrolled] [module1Enrolled]
            (module1Enrolled :: seedModules.tail) }, storeCompleted) := by
  decide

/-! ## The learning state -/

theorem JsObj.get_set_ne (o : JsObj) {key other : String} (v : Nat) (h : other ≠ key) :
    JsObj.get (JsObj.set o key v) other = JsObj.get o other := by
  induction o with
  | nil => simp [JsObj.set, JsObj.get, Ne.symm h]
  | cons kv rest ih =>
    obtain ⟨k, w⟩ := kv
    by_cases hk : k = key
    · subst hk
      simp [JsObj.set, JsObj.get, Ne.symm h]
    · by_cases hko : k = other
      · subst hko
        simp [JsObj.set, JsObj.get, hk]
      · simp [JsObj.set, JsObj.get, hk, hko, ih]

theorem JsObj.get_foldl_set (g : Int → String) (f : String → Nat) (l : List Int)
    (o : JsObj) (key : String) :
    JsObj.get (l.foldl (fun o k => o.set (g k) (f (g k))) o) key =
      if key ∈ l.map g then some (f key) else JsObj.get o key := by
  induction l generalizing o with
  | nil => simp
  | cons k l ih =>
    rw [List.foldl_cons, ih]
    by_cases hmem : key ∈ l.map g
    · simp [hmem]
    · by_cases hk : key = g k
      · subst hk
        simp [hmem, JsObj.get_set_same]
      · rw [if_neg hmem, JsObj.get_set_ne _ _ hk]
        have : key ∉ (k :: l).map g := by
          simp only [List.map_cons, List.mem_cons, not_or]
          exact ⟨hk, hmem⟩
        rw [if_neg this]

theorem storedProgress_eq (u : User) (k : Int) :
    storedProgress u k = ((u.moduleProgress.getD []).get (numberToString k)).getD 0 := by
  unfold storedProgress
  cases u.moduleProgress with
  | none => rfl
  | some o =>
    simp only [Option.getD_some]
    cases h : JsObj.get o (numberToString k) with
    | none => rfl
    | some v =>
      by_cases hv : v = 0
      · simp [hv]
      · simp [hv]

theorem progressObject_get (u : User) (key : String) :
    (progressObject u).get key =
      if key ∈ u.enrolledModules.map numberToString then
        some (((u.moduleProgress.getD []).get key).getD 0)
      else none := by
  have hfun : (fun (o : JsObj) (k : Int) => o.set (numberToString k) (storedProgress u k)) =
      fun o k => o.set (numberToString k)
        ((fun key => ((u.moduleProgress.getD []).get key).getD 0) (numberToString k)) := by
    funext o k
    rw [storedProgress_eq]
  unfold progressObject
  rw [hfun, JsObj.get_foldl_set numberToString
    (fun key => ((u.moduleProgress.getD []).get key).getD 0)]
  rfl

/-- C19: serving `GET /modules` never changes the store.  When no stored user has the
authenticated id the answer is status 404 `User not found`.  When the user exists the
answer has status 200 and carries the user's enrolled id list, the completed id list
(empty when the field is absent), the modules of either list, the whole catalog, and a
progress object that has a value exactly at the keys of the enrolled ids, the value for
an enrolled id being the stored progress at that key, or 0 when none is stored. -/
theorem learning_state_reported (s : Store) (userId : Nat) :
    (step s (.getModules userId)).2 = s ∧
    (findUser s userId = none → getModulesHandler s userId = failWith 404 "User not found") ∧
    (∀ u, findUser s userId = some u →
      getModulesHandler s userId =
        { status := 200,
          body := .learningState u.id u.name u.email u.age u.enrolledModules
            (u.completedModules.getD []) (progressObject u)
            (s.modules.filter (fun m => decide (m.id ∈ u.enrolledModules)))
            (s.modules.filter (fun m => decide (m.id ∈ u.completedModules.getD [])))
            s.modules } ∧
      (∀ key, (∃ v, (getModulesHandler s userId).progressAt key = some v) ↔
        ∃ k, k ∈ u.enrolledModules ∧ numberToString k = key) ∧
      (∀ k, k ∈ u.enrolledModules →
        (getModulesHandler s userId).progressAt (numberToString k) =
          some (((u.moduleProgress.getD []).get (numberToString k)).getD 0))) := by
  refine ⟨rfl, ?_, ?_⟩
  · intro h
    simp [getModulesHandler, h]
  · intro u hu
    have hresp : getModulesHandler s userId =
        { status := 200,
          body := .learningState u.id u.name u.email u.age u.enrolledModules
            (u.completedModules.getD []) (progressObject u)
            (s.modules.filter (fun m => decide (m.id ∈ u.enrolledModules)))
            (s.modules.filter (fun m => decide (m.id ∈ u.completedModules.getD [])))
            s.modules } := by
      simp [getModulesHandler, hu]
    have hat : ∀ key, (getModulesHandler s userId).progressAt key =
        (progressObject u).get key := by
      intro key; rw [hresp]; rfl
    refine ⟨hresp, ?_, ?_⟩
    · intro key
      rw [hat, progressObject_get]
      constructor
      · rintro ⟨v, hv⟩
        by_cases hmem : key ∈ u.enrolledModules.map numberToString
        · obtain ⟨k, hk, hkey⟩ := List.mem_map.mp hmem
          exact ⟨k, hk, hkey⟩
        · rw [if_neg hmem] at hv; cases hv
      · rintro ⟨k, hk, hkey⟩
        have hmem : key ∈ u.enrolledModules.map numberToString :=
          List.mem_map.mpr ⟨k, hk, hkey⟩
        rw [if_pos hmem]
        exact ⟨_, rfl⟩
    · intro k hk
      rw [hat, progressObject_get,
        if_pos (List.mem_map.mpr ⟨k, hk, rfl⟩)]
/-! ## The catalog -/

theorem modules_frame_step (s : Store) (r : Request) :
    (step s r).2.modules.map (fun m => { m with enrolled := 0 }) =
      s.modules.map (fun m => { m with enrolled := 0 }) := by
  cases r with
  | signup name email age password hashed =>
    rcases signupHandler_cases s name email age password hashed with h | h
    · simp only [step]; rw [h]
    · simp only [step]; rw [h]
  | login email password verifies => rfl
  | getModules userId => rfl
  | enroll userId moduleId =>
    rcases enrollHandler_cases s userId moduleId with h | ⟨k, mdl, user, ht, hk, hm, hu, hne⟩
    · simp only [step]; rw [h.1]
    · simp only [step]
      rw [enrollHandler_ok ht hk hm hu hne]
      show (updateFirst _ _ s.modules).map _ = _
      refine map_updateFirst _ _ _ ?_ _
      intro _; rfl
  | complete userId moduleId =>
    rcases completeHandler_cases s userId moduleId with
      h | ⟨k, mdl, user, ht, hk, hm, hu, he, hc⟩
    · simp only [step]; rw [h.1]
    · simp only [step]
      rw [completeHandler_ok ht hk hm hu he hc]

theorem modules_frame_run (s : Store) (rs : List Request) :
    (run s rs).modules.map (fun m => { m with enrolled := 0 }) =
      s.modules.map (fun m => { m with enrolled := 0 }) := by
  induction rs generalizing s with
  | nil => rfl
  | cons r rs ih => exact (ih (step s r).2).trans (modules_frame_step s r)

/-- In a reachable store the modules are the seeded ones up to their counters. -/
theorem modules_frame_of_reachable {s : Store} (hs : Reachable s) :
    s.modules.map (fun m => { m with enrolled := 0 }) = seedModules := by
  obtain ⟨rs, hrs⟩ := hs
  rw [← hrs, modules_frame_run]
  rfl

theorem categories_of_reachable {s : Store} (hs : Reachable s) :
    s.modules.map (fun m => m.category) = seedModules.map (fun m => m.category) := by
  rw [← modules_frame_of_reachable hs, List.map_map]
  rfl

theorem length_filter_category (l : List Module) (c : String) :
    (l.filter (fun m => decide (m.category = c))).length =
      (l.map (fun m => m.category)).countP (fun x => decide (x = c)) := by
  rw [← List.countP_eq_length_filter, List.countP_map]
  rfl

/-- C20: in every reachable store `GET /api/entropy` answers with status 200; each of the
groups Design, Filmmaking and Music is the sub-list, in catalog order, of the modules
with that category; `totalModules` is the length of the catalog; every module of the
catalog is in exactly one of the three groups; and the sizes of the groups add up to
`totalModules`. -/
theorem catalog_grouped (s : Store) (hs : Reachable s) :
    (catalogHandler s).status = 200 ∧
    ((catalogHandler s).design = s.modules.filter (fun m => decide (m.category = "Design")) ∧
      (catalogHandler s).filmmaking =
        s.modules.filter (fun m => decide (m.category = "Filmmaking")) ∧
      (catalogHandler s).music = s.modules.filter (fun m => decide (m.category = "Music"))) ∧
    ((catalogHandler s).design.Sublist s.modules ∧
      (catalogHandler s).filmmaking.Sublist s.modules ∧
      (catalogHandler s).music.Sublist s.modules) ∧
    (catalogHandler s).totalModules = s.modules.length ∧
    (∀ m, m ∈ s.modules →
      (m ∈ (catalogHandler s).design ∧ m ∉ (catalogHandler s).filmmaking ∧
          m ∉ (catalogHandler s).music) ∨
        (m ∉ (catalogHandler s).design ∧ m ∈ (catalogHandler s).filmmaking ∧
          m ∉ (catalogHandler s).music) ∨
        (m ∉ (catalogHandler s).design ∧ m ∉ (catalogHandler s).filmmaking ∧
          m ∈ (catalogHandler s).music)) ∧
    (catalogHandler s).design.length + (catalogHandler s).filmmaking.length +
      (catalogHandler s).music.length = (catalogHandler s).totalModules := by
  have hcat := categories_of_reachable hs
  refine ⟨rfl, ⟨rfl, rfl, rfl⟩,
    ⟨List.filter_sublist _, List.filter_sublist _, List.filter_sublist _⟩, rfl, ?_, ?_⟩
  · intro m hm
    have hc : m.category ∈ seedModules.map (fun m => m.category) := by
      rw [← hcat]; exact List.mem_map.mpr ⟨m, hm, rfl⟩
    have hc3 : m.category = "Design" ∨ m.category = "Filmmaking" ∨ m.category = "Music" := by
      simp [seedModules] at hc
      tauto
    simp only [catalogHandler, List.mem_filter, decide_eq_true_eq]
    rcases hc3 with h | h | h
    · left; rw [h]
      exact ⟨⟨hm, rfl⟩, fun h1 => absurd h1.2 (by decide), fun h1 => absurd h1.2 (by decide)⟩
    · right; left; rw [h]
      exact ⟨fun h1 => absurd h1.2 (by decide), ⟨hm, rfl⟩, fun h1 => absurd h1.2 (by decide)⟩
    · right; right; rw [h]
      exact ⟨fun h1 => absurd h1.2 (by decide), fun h1 => absurd h1.2 (by decide), ⟨hm, rfl⟩⟩
  · show (s.modules.filter _).length + (s.modules.filter _).length +
      (s.modules.filter _).length = s.modules.length
    rw [length_filter_category, length_filter_category, length_filter_category,
      ← List.length_map s.modules (fun m => m.category), hcat]
    rfl

/-- The catalog of the initial store. -/
theorem catalog_grouped_witness :
    (catalogHandler initStore).status = 200 ∧
    ((catalogHandler initStore).design =
        initStore.modules.filter (fun m => decide (m.category = "Design")) ∧
      (catalogHandler initStore).filmmaking =
        initStore.modules.filter (fun m => decide (m.category = "Filmmaking")) ∧
      (catalogHandler initStore).music =
        initStore.modules.filter (fun m => decide (m.category = "Music"))) ∧
    ((catalogHandler initStore).design.Sublist initStore.modules ∧
      (catalogHandler initStore).filmmaking.Sublist initStore.modules ∧
      (catalogHandler initStore).music.Sublist initStore.modules) ∧
    (catalogHandler initStore).totalModules = initStore.modules.length ∧
    (∀ m, m ∈ initStore.modules →
      (m ∈ (catalogHandler initStore).design ∧ m ∉ (catalogHandler initStore).filmmaking ∧
          m ∉ (catalogHandler initStore).music) ∨
        (m ∉ (catalogHandler initStore).design ∧ m ∈ (catalogHandler initStore).filmmaking ∧
          m ∉ (catalogHandler initStore).music) ∨
        (m ∉ (catalogHandler initStore).design ∧ m ∉ (catalogHandler initStore).filmmaking ∧
          m ∈ (catalogHandler initStore).music)) ∧
    (catalogHandler initStore).design.length + (catalogHandler initStore).filmmaking.length +
      (catalogHandler initStore).music.length = (catalogHandler initStore).totalModules :=
  catalog_grouped initStore ⟨[], rfl⟩
/-- With a string password the two login failures are the same answer: status 401 and
`Invalid email or password`, whether no user has the email or the password does not
verify. -/
theorem login_failures_same_for_string_password (s : Store) (email : JsVal) (p : String)
    (he : isTruthy email = true) (hp : isTruthy (.str p) = true) :
    (s.users.find? (fun u => decide (u.email = email)) = none →
      ∀ verifies, loginHandler s email (.str p) verifies =
        failWith 401 "Invalid email or password") ∧
    (∀ u, s.users.find? (fun u => decide (u.email = email)) = some u →
      loginHandler s email (.str p) false = failWith 401 "Invalid email or password") := by
  constructor
  · intro hf verifies
    simp [loginHandler, he, hp, hf]
  · intro u hf
    simp [loginHandler, he, hp, hf]
/-! ## Status codes of the enrollment -/

/-- C24 (counterexample): Ana asks to enroll with the body `moduleId: "abc"`, a
non-numeric string; the answer is 404 `Module not found`, not 400. -/
theorem enroll_non_numeric_id_is_404 :
    isTruthy (.str "abc") = true ∧ parseInt (.str "abc") = none ∧
    (enrollHandler storeRegistered 1 (.str "abc")).1 = failWith 404 "Module not found" ∧
    (enrollRoute storeRegistered 1 (.prim (.str "abc"))).1 =
      failWith 404 "Module not found" := by
  decide

/-! ## The age check of the frontend -/

/-- C29: for every text `s` of the age field, the frontend `validateAge(s)` is true
exactly when `parseInt(s)` is a number (an integer, not `NaN`) from 13 to 19, and
exactly then the age guards of `POST /signup` (`!age`, `age < 13`, `age > 19`) let
through the value that `handleSignup` sends for `s`. -/
theorem age_checks_agree (s : String) :
    (validateAge s = true ↔ ∃ n : Int, parseInt (.str s) = some n ∧ 13 ≤ n ∧ n ≤ 19) ∧
    (validateAge s = true ↔ ageAccepted (sentAge s) = true) := by
  unfold validateAge sentAge
  cases h : parseInt (.str s) with
  | none => simp [ageAccepted, isTruthy]
  | some n =>
    simp only [Bool.and_eq_true, decide_eq_true_eq, Option.some.injEq, exists_eq_left',
      ageAccepted, isTruthy, toNumber, Bool.not_eq_true', numLt_int_13, numGt_int_19,
      bne_iff_ne, ne_eq]
    constructor
    · trivial
    · constructor
      · rintro ⟨h1, h2⟩; exact ⟨⟨by omega, h1⟩, h2⟩
      · rintro ⟨⟨_, h1⟩, h2⟩; exact ⟨h1, h2⟩

/-! ## The lists as sets of module ids -/

/-- C28: in every reachable store, the enrolled list and the completed list of every
user have no duplicate, and each of their ids is the id of a module of the catalog. -/
theorem lists_are_sets_of_module_ids (s : Store) (hs : Reachable s) (u : User)
    (hu : u ∈ s.users) :
    u.enrolledModules.Nodup ∧ (u.completedModules.getD []).Nodup ∧
    (∀ k, k ∈ u.enrolledModules → k ∈ s.modules.map (fun m => m.id)) ∧
    (∀ k, k ∈ u.completedModules.getD [] → k ∈ s.modules.map (fun m => m.id)) := by
  have hinv := inv_of_reachable hs
  refine ⟨hinv.enrolledNodup u hu, hinv.completedNodup u hu, ?_, ?_⟩
  · intro k hk
    rw [hinv.moduleIds]; exact hinv.enrolledValid u hu k hk
  · intro k hk
    rw [hinv.moduleIds]; exact hinv.enrolledValid u hu k (hinv.completedSub u hu k hk)

/-- Ana's record after she completed module 1. -/
theorem lists_are_sets_of_module_ids_witness :
    anaCompleted.enrolledModules.Nodup ∧ (anaCompleted.completedModules.getD []).Nodup ∧
    (∀ k, k ∈ anaCompleted.enrolledModules → k ∈ storeCompleted.modules.map (fun m => m.id)) ∧
    (∀ k, k ∈ anaCompleted.completedModules.getD [] →
      k ∈ storeCompleted.modules.map (fun m => m.id)) :=
  lists_are_sets_of_module_ids storeCompleted
    ⟨[anaSignup, .enroll 1 (.num 1), .complete 1 (.num 1)], rfl⟩ anaCompleted (by decide)
/-! ## The stored age -/

/-- C25 (counterexample): a registration with the body `age: 15.5` succeeds and the
record stores the number 15.5, which is no integer; so does one with the string
`"15.5"`, which is stored as that string. -/
theorem signup_stores_fractional_age :
    JsVal.wellFormed (.numText "15.5") = true ∧
    (signupHandler initStore (.str "Bo") (.str "bo@x.com") (.numText "15.5") (.str "secret1")
        "h").1.status = 201 ∧
    (signupHandler initStore (.str "Bo") (.str "bo@x.com") (.numText "15.5") (.str "secret1")
        "h").2.users.map (fun u => u.age) = [.numText "15.5"] ∧
    (signupHandler initStore (.str "Bo") (.str "bo@x.com") (.str "15.5") (.str "secret1")
        "h").1.status = 201 ∧
    (signupHandler initStore (.str "Bo") (.str "bo@x.com") (.str "15.5") (.str "secret1")
        "h").2.users.map (fun u => u.age) = [.str "15.5"] ∧
    toNumber (.numText "15.5") = .dec 155 (-1) ∧
    ¬ ∃ n : Int, (155 : ℚ) * (10 : ℚ) ^ (-1 : Int) = (n : ℚ) := by
  refine ⟨by decide, by decide, by decide, by decide, by decide, by decide, ?_⟩
  rintro ⟨n, hn⟩
  have h2 : (155 : ℚ) = 10 * (n : ℚ) := by
    have h10 : (10 : ℚ) ^ (-1 : Int) = 1 / 10 := by norm_num
    rw [h10] at hn
    linarith
  have h3 : (155 : Int) = 10 * n := by exact_mod_cast h2
  omega

/-- C25 (amended): a registration that succeeds (status 201) appends one record, which
stores the `age` of the request as it came; that value is truthy and neither `age < 13`
nor `age > 19` holds for it: it is no infinity; when it has a decimal value (a number,
or a string that reads as one) the double nearest to that value lies between 13 and
19, that is, the value lies between `13 - 2 ^ (-50)` and `19 + 2 ^ (-49)`, the midpoints
to the doubles next to 13 and 19; and when it is an integer it is one from 13 to 19. -/
theorem signup_stores_checked_age (s : Store) (name email age password : JsVal)
    (hashed : String)
    (h201 : (signupHandler s name email age password hashed).1.status = 201) :
    (∃ u, (signupHandler s name email age password hashed).2.users = s.users ++ [u] ∧
      u.age = age) ∧
    isTruthy age = true ∧ toNumber age ≠ .negInf ∧ toNumber age ≠ .posInf ∧
    (∀ m e : Int, toNumber age = .dec m e →
      (13 : ℚ) - 1 / 2 ^ 50 ≤ (m : ℚ) * (10 : ℚ) ^ e ∧
        (m : ℚ) * (10 : ℚ) ^ e ≤ 19 + 1 / 2 ^ 49) ∧
    (∀ n : Int, toNumber age = .dec n 0 → 13 ≤ n ∧ n ≤ 19) := by
  obtain ⟨hv, _, heq⟩ := signupHandler_created h201
  obtain ⟨⟨_, _, ha, _⟩, ⟨hlt, hgt⟩, _⟩ := fieldsValid_iff.mp hv
  refine ⟨⟨_, by rw [heq], rfl⟩, ha, ?_, ?_, ?_, ?_⟩
  · intro h; rw [h] at hlt; cases hlt
  · intro h; rw [h] at hgt; cases hgt
  · intro m e hme
    rw [hme] at hlt hgt
    constructor
    · by_contra hc
      have := (numLt_13_iff m e).mpr (not_le.mp hc)
      rw [hlt] at this; cases this
    · by_contra hc
      have := (numGt_19_iff m e).mpr (not_le.mp hc)
      rw [hgt] at this; cases this
  · intro n hn
    rw [hn] at hlt hgt
    exact ⟨(numLt_int_13 n).mp hlt, (numGt_int_19 n).mp hgt⟩

/-- Ana's registration, with the age 15. -/
theorem signup_stores_checked_age_witness :
    (∃ u, (signupHandler initStore (.str "Ana") (.str "ana@x.com") (.num 15) (.str "secret1")
        "$2a$10$hashOfSecret1").2.users = initStore.users ++ [u] ∧ u.age = .num 15) ∧
    isTruthy (.num 15) = true ∧ toNumber (.num 15) ≠ .negInf ∧ toNumber (.num 15) ≠ .posInf ∧
    (∀ m e : Int, toNumber (.num 15) = .dec m e →
      (13 : ℚ) - 1 / 2 ^ 50 ≤ (m : ℚ) * (10 : ℚ) ^ e ∧
        (m : ℚ) * (10 : ℚ) ^ e ≤ 19 + 1 / 2 ^ 49) ∧
    (∀ n : Int, toNumber (.num 15) = .dec n 0 → 13 ≤ n ∧ n ≤ 19) :=
  signup_stores_checked_age initStore (.str "Ana") (.str "ana@x.com") (.num 15) (.str "secret1")
    "$2a$10$hashOfSecret1" (by decide)

/-! ## The frame of a request on the modules -/

/-- C26: for every reachable store and every request, the catalog after the request has
the same modules in the same order, each with all its fields but the counter unchanged
and a counter not below the one before; and a counter that changed was raised by one, by
a successful enrollment in that very module. -/
theorem modules_only_gain_enrollments (s : Store) (hs : Reachable s) (r : Request) :
    List.Forall₂
      (fun m m' =>
        { m' with enrolled := m.enrolled } = m ∧ m.enrolled ≤ m'.enrolled ∧
        (m'.enrolled ≠ m.enrolled →
          m'.enrolled = m.enrolled + 1 ∧
          ∃ userId moduleId, r = .enroll userId moduleId ∧ (step s r).1.status = 200 ∧
            parseInt moduleId = some m.id))
      s.modules (step s r).2.modules := by
  have hinv := inv_of_reachable hs
  have hsame : ∀ t : Store, t.modules = s.modules →
      List.Forall₂
        (fun m m' =>
          { m' with enrolled := m.enrolled } = m ∧ m.enrolled ≤ m'.enrolled ∧
          (m'.enrolled ≠ m.enrolled →
            m'.enrolled = m.enrolled + 1 ∧
            ∃ userId moduleId, r = .enroll userId moduleId ∧ (step s r).1.status = 200 ∧
              parseInt moduleId = some m.id))
        s.modules t.modules := by
    intro t ht
    rw [ht, List.forall₂_same]
    intro m _
    exact ⟨rfl, le_refl _, fun h => absurd rfl h⟩
  cases r with
  | signup name email age password hashed =>
    apply hsame
    rcases signupHandler_cases s name email age password hashed with h | h
    · simp only [step]; rw [h]
    · simp only [step]; rw [h]
  | login email password verifies => exact hsame _ rfl
  | getModules userId => exact hsame _ rfl
  | complete userId moduleId =>
    apply hsame
    rcases completeHandler_cases s userId moduleId with
      h | ⟨k, mdl, user, ht, hk, hm, hu, he, hc⟩
    · simp only [step]; rw [h.1]
    · simp only [step]; rw [completeHandler_ok ht hk hm hu he hc]
  | enroll userId moduleId =>
    rcases enrollHandler_cases s userId moduleId with h | ⟨k, mdl, user, ht, hk, hm, hu, hne⟩
    · apply hsame
      simp only [step]; rw [h.1]
    · have hst : (step s (.enroll userId moduleId)).1.status = 200 := by
        simp only [step]; rw [enrollHandler_ok ht hk hm hu hne]
      have hmods : (step s (.enroll userId moduleId)).2.modules =
          s.modules.map (fun m => if m.id = k then { m with enrolled := m.enrolled + 1 } else m) := by
        simp only [step]
        rw [enrollHandler_ok ht hk hm hu hne]
        exact updateFirst_eq_map (fun m : Module => m.id) k _ s.modules hinv.modules_nodup
      rw [hmods, List.forall₂_map_right_iff, List.forall₂_same]
      intro m _
      by_cases hid : m.id = k
      · rw [if_pos hid]
        exact ⟨rfl, Nat.le_succ _, fun _ => ⟨rfl, userId, moduleId, rfl, hst, by rw [hk, hid]⟩⟩
      · rw [if_neg hid]
        exact ⟨rfl, le_refl _, fun h => absurd rfl h⟩

/-- Ana's enrollment in module 1. -/
theorem modules_only_gain_enrollments_witness :
    List.Forall₂
      (fun m m' =>
        { m' with enrolled := m.enrolled } = m ∧ m.enrolled ≤ m'.enrolled ∧
        (m'.enrolled ≠ m.enrolled →
          m'.enrolled = m.enrolled + 1 ∧
          ∃ userId moduleId, Request.enroll 1 (.num 1) = .enroll userId moduleId ∧
            (step storeRegistered (.enroll 1 (.num 1))).1.status = 200 ∧
            parseInt moduleId = some m.id))
      storeRegistered.modules (step storeRegistered (.enroll 1 (.num 1))).2.modules :=
  modules_only_gain_enrollments storeRegistered ⟨[anaSignup], rfl⟩ (.enroll 1 (.num 1))
/-! ## Independence of the pairs -/

theorem Inv.findUser_other {s : Store} (hs : Inv s) {userId : Nat} (f : User → User)
    (hf : ∀ u, (f u).id = u.id) {v : User} (hv : v ∈ s.users) (hne : v.id ≠ userId) :
    (updateFirst (fun u => decide (u.id = userId)) f s.users).find?
      (fun u => decide (u.id = v.id)) = some v := by
  rw [find?_updateFirst_disjoint (fun u : User => decide (u.id = userId))
    (fun u : User => decide (u.id = v.id)) f
    (fun x hx => by
      simp only [decide_eq_true_eq] at hx
      simp only [decide_eq_false_iff_not]
      intro h; exact hne (h ▸ hx))
    (fun x => by simp [hf x])]
  exact hs.findUser_of_mem hv

/-- The property key of a request that resolves to module `k` is not the decimal text
of another module id. -/
theorem key_ne_of_other_module {moduleId : JsVal} {k j : Int}
    (hk : parseInt moduleId = some k) (hj : j ∈ catalogIds) (hjk : j ≠ k) :
    numberToString j ≠ jsToString moduleId := by
  intro h
  have h1 := parseIntChars_numberToString hj
  rw [h] at h1
  have h2 : parseIntChars (jsToString moduleId).toList = some k := hk
  rw [h1] at h2
  exact hjk (Option.some.inj h2)

/-- C27: in a reachable store, an enrollment or completion request of the existing user
`userId` whose `moduleId` resolves to the id `k` leaves the record of every other user
as it is, and in the record of `userId` it leaves, for every module id `j` other than
`k`, the membership of `j` in the enrolled list and in the completed list and the
stored progress of `j` as they are. -/
theorem pairs_are_independent (s : Store) (hs : Reachable s) (userId : Nat)
    (moduleId : JsVal) (k : Int) (user : User) (r : Request)
    (hr : r = .enroll userId moduleId ∨ r = .complete userId moduleId)
    (hk : parseInt moduleId = some k) (hu : findUser s userId = some user) :
    (∀ v, v ∈ s.users → v.id ≠ userId → findUser (step s r).2 v.id = some v) ∧
    ∃ user', findUser (step s r).2 userId = some user' ∧
      ∀ j, j ∈ catalogIds → j ≠ k →
        (j ∈ user'.enrolledModules ↔ j ∈ user.enrolledModules) ∧
        (j ∈ user'.completedModules.getD [] ↔ j ∈ user.completedModules.getD []) ∧
        (user'.moduleProgress.getD []).get (numberToString j) =
          (user.moduleProgress.getD []).get (numberToString j) ∧
        storedProgress user' j = storedProgress user j := by
  have hinv := inv_of_reachable hs
  have hsame : (step s r).2 = s →
      (∀ v, v ∈ s.users → v.id ≠ userId → findUser (step s r).2 v.id = some v) ∧
      ∃ user', findUser (step s r).2 userId = some user' ∧
        ∀ j, j ∈ catalogIds → j ≠ k →
          (j ∈ user'.enrolledModules ↔ j ∈ user.enrolledModules) ∧
          (j ∈ user'.completedModules.getD [] ↔ j ∈ user.completedModules.getD []) ∧
          (user'.moduleProgress.getD []).get (numberToString j) =
            (user.moduleProgress.getD []).get (numberToString j) ∧
          storedProgress user' j = storedProgress user j := by
    intro h
    rw [h]
    exact ⟨fun v hv _ => hinv.findUser_of_mem hv,
      user, hu, fun j _ _ => ⟨Iff.rfl, Iff.rfl, rfl, rfl⟩⟩
  rcases hr with rfl | rfl
  · rcases enrollHandler_cases s userId moduleId with
      h | ⟨k', mdl, user0, ht, hk', hm, hu', hne⟩
    · exact hsame (by simp only [step]; exact h.1)
    · rw [hk] at hk'; cases hk'
      rw [hu] at hu'; cases hu'
      simp only [step]
      rw [enrollHandler_ok ht hk hm hu hne]
      refine ⟨fun v hv hvne => hinv.findUser_other
          (fun u => { u with enrolledModules := u.enrolledModules ++ [k] })
          (fun _ => rfl) hv hvne,
        _, findUser_update _ (fun _ => rfl) hu, ?_⟩
      intro j _ hjk
      refine ⟨?_, Iff.rfl, rfl, rfl⟩
      simp [hjk]
  · rcases completeHandler_cases s userId moduleId with
      h | ⟨k', mdl, user0, ht, hk', hm, hu', he, hc⟩
    · exact hsame (by simp only [step]; exact h.1)
    · rw [hk] at hk'; cases hk'
      rw [hu] at hu'; cases hu'
      simp only [step]
      rw [completeHandler_ok ht hk hm hu he hc]
      refine ⟨fun v hv hvne => hinv.findUser_other (markCompleted k moduleId)
          (fun _ => rfl) hv hvne,
        _, findUser_update _ (fun _ => rfl) hu, ?_⟩
      intro j hj hjk
      have hkey := key_ne_of_other_module hk hj hjk
      have hget : ((markCompleted k moduleId user).moduleProgress.getD []).get (numberToString j) =
          (user.moduleProgress.getD []).get (numberToString j) :=
        JsObj.get_set_ne _ _ hkey
      refine ⟨Iff.rfl, ?_, hget, ?_⟩
      · show j ∈ user.completedModules.getD [] ++ [k] ↔ _
        simp [hjk]
      · rw [storedProgress_eq, storedProgress_eq, hget]

/-- Ana, enrolled in module 1, completes it with the body `moduleId: "1abc"`. -/
theorem pairs_are_independent_witness :
    (∀ v, v ∈ storeEnrolled.users → v.id ≠ 1 →
      findUser (step storeEnrolled (.complete 1 (.str "1abc"))).2 v.id = some v) ∧
    ∃ user', findUser (step storeEnrolled (.complete 1 (.str "1abc"))).2 1 = some user' ∧
      ∀ j, j ∈ catalogIds → j ≠ 1 →
        (j ∈ user'.enrolledModules ↔ j ∈ anaEnrolled.enrolledModules) ∧
        (j ∈ user'.completedModules.getD [] ↔ j ∈ anaEnrolled.completedModules.getD []) ∧
        (user'.moduleProgress.getD []).get (numberToString j) =
          (anaEnrolled.moduleProgress.getD []).get (numberToString j) ∧
        storedProgress user' j = storedProgress anaEnrolled j :=
  pairs_are_independent storeEnrolled ⟨[anaSignup, .enroll 1 (.num 1)], rfl⟩ 1 (.str "1abc") 1
    anaEnrolled (.complete 1 (.str "1abc")) (Or.inr rfl) (by decide) (by decide)
/-! ## The password hash stays inside -/

theorem findUser_withoutPasswords (s : Store) (userId : Nat) :
    findUser s.withoutPasswords userId = (findUser s userId).map User.withoutPassword := by
  simp only [findUser, Store.withoutPasswords, List.find?_map]
  rfl

theorem findModule_withoutPasswords (s : Store) (k : Int) :
    findModule s.withoutPasswords k = findModule s k := rfl

theorem findEmail_withoutPasswords (s : Store) (email : JsVal) :
    s.withoutPasswords.users.find? (fun u => decide (u.email = email)) =
      (s.users.find? (fun u => decide (u.email = email))).map User.withoutPassword := by
  simp only [Store.withoutPasswords, List.find?_map]
  rfl

theorem find?_email_comp (email : JsVal) (l : List User) :
    List.find? ((fun u => decide (u.email = email)) ∘ User.withoutPassword) l =
      List.find? (fun u => decide (u.email = email)) l := rfl

theorem find?_id_comp (userId : Nat) (l : List User) :
    List.find? ((fun u => decide (u.id = userId)) ∘ User.withoutPassword) l =
      List.find? (fun u => decide (u.id = userId)) l := rfl

/-- C23: the answer of `/signup`, `/login`, `GET /modules`, `/modules/enroll` and
`/modules/complete` is the same when every stored password hash, and the hash that
`bcrypt.hash` returns during the request, is replaced by the empty string: no part of
the body holds a stored password value (the outcome of `bcrypt.compare` apart, which
decides between the answers of `/login`).  The user object of the body has the keys
`id`, `name`, `email`, `age` and, on `/signup` and `/login`, `enrolledModules`, and
never the key `password`. -/
theorem responses_ignore_password_hashes (s : Store) (r : Request) :
    (step s r).1 = (step s.withoutPasswords r.withoutHash).1 ∧
    "password" ∉ (step s r).1.body.userKeys ∧ "password" ∉ (step s r).1.body.keys ∧
    ((step s r).1.body.userKeys = [] ∨
      (step s r).1.body.userKeys = ["id", "name", "email", "age"] ∨
      (step s r).1.body.userKeys = ["id", "name", "email", "age", "enrolledModules"]) := by
  refine ⟨?_, ?_, ?_, ?_⟩
  · cases r with
    | signup name email age password hashed =>
      simp only [step, Request.withoutHash]
      by_cases h1 : (!isTruthy name || !isTruthy email || !isTruthy age ||
          !isTruthy password) = true
      · simp [signupHandler, h1]
      · by_cases h2 : (numLt (toNumber age) 13 || numGt (toNumber age) 19) = true
        · simp [signupHandler, h1, h2]
        · by_cases h3 : passwordTooShort password = true
          · simp [signupHandler, h1, h2, h3]
          · cases hf : s.users.find? (fun u => decide (u.email = email)) with
            | some u =>
              simp [signupHandler, h1, h2, h3, hf, findEmail_withoutPasswords, find?_email_comp]
            | none =>
              cases password <;>
                simp [signupHandler, h1, h2, h3, hf, findEmail_withoutPasswords, find?_email_comp,
                  Store.withoutPasswords]
    | login email password verifies =>
      simp only [step, Request.withoutHash]
      by_cases h1 : (!isTruthy email || !isTruthy password) = true
      · simp [loginHandler, h1]
      · cases hf : s.users.find? (fun u => decide (u.email = email)) with
        | none => simp [loginHandler, h1, hf, findEmail_withoutPasswords, find?_email_comp]
        | some u =>
          cases password <;> cases verifies <;>
            simp [loginHandler, h1, hf, findEmail_withoutPasswords, find?_email_comp, User.withoutPassword]
    | getModules userId =>
      simp only [step, Request.withoutHash]
      cases hu : findUser s userId with
      | none => simp [getModulesHandler, hu, findUser_withoutPasswords, find?_id_comp]
      | some u =>
        have h2 := findUser_withoutPasswords s userId
        rw [hu] at h2
        simp only [getModulesHandler, hu, h2]
        rfl
    | enroll userId moduleId =>
      simp only [step, Request.withoutHash]
      by_cases ht : isTruthy moduleId = true
      · cases hk : parseInt moduleId with
        | none => simp [enrollHandler, ht, hk]
        | some k =>
          cases hm : findModule s k with
          | none => simp [enrollHandler, ht, hk, hm, findModule_withoutPasswords]
          | some mdl =>
            cases hu : findUser s userId with
            | none =>
              simp [enrollHandler, ht, hk, hm, hu, findModule_withoutPasswords,
                findUser_withoutPasswords, find?_id_comp]
            | some u =>
              by_cases he : k ∈ u.enrolledModules
              · simp [enrollHandler, ht, hk, hm, hu, he, findModule_withoutPasswords,
                  findUser_withoutPasswords, find?_id_comp, User.withoutPassword]
              · simp [enrollHandler, ht, hk, hm, hu, he, findModule_withoutPasswords,
                  findUser_withoutPasswords, find?_id_comp, User.withoutPassword]
      · simp [enrollHandler, ht]
    | complete userId moduleId =>
      simp only [step, Request.withoutHash]
      by_cases ht : isTruthy moduleId = true
      · cases hk : parseInt moduleId with
        | none => simp [completeHandler, ht, hk]
        | some k =>
          cases hm : findModule s k with
          | none => simp [completeHandler, ht, hk, hm, findModule_withoutPasswords]
          | some mdl =>
            cases hu : findUser s userId with
            | none =>
              simp [completeHandler, ht, hk, hm, hu, findModule_withoutPasswords,
                findUser_withoutPasswords, find?_id_comp]
            | some u =>
              by_cases he : k ∈ u.enrolledModules
              · by_cases hc : k ∈ u.completedModules.getD []
                · simp [completeHandler, ht, hk, hm, hu, he, hc, findModule_withoutPasswords,
                    findUser_withoutPasswords, find?_id_comp, User.withoutPassword]
                · simp [completeHandler, ht, hk, hm, hu, he, hc, findModule_withoutPasswords,
                    findUser_withoutPasswords, find?_id_comp, User.withoutPassword, markCompleted]
              · simp [completeHandler, ht, hk, hm, hu, he, findModule_withoutPasswords,
                  findUser_withoutPasswords, find?_id_comp, User.withoutPassword]
      · simp [completeHandler, ht]
  · cases (step s r).1.body <;> simp [Body.userKeys]
  · cases (step s r).1.body <;> simp [Body.keys]
  · cases (step s r).1.body <;> simp [Body.userKeys]
/-! ## The learning statistics of the frontend -/

theorem foldl_add_eq_sum (g : Int → Nat) (l : List Int) (a : Nat) :
    l.foldl (fun sum id => sum + g id) a = a + (l.map g).sum := by
  induction l generalizing a with
  | nil => simp
  | cons x xs ih => rw [List.foldl_cons, ih]; simp [Nat.add_assoc]

theorem totalProgress_eq_sum (enrolled : List Int) (progress : JsObj) :
    totalProgress enrolled progress =
      (enrolled.map (fun id => (progress.get (numberToString id)).getD 0)).sum := by
  have hg : (fun (sum : Nat) (moduleId : Int) =>
      sum + (match progress.get (numberToString moduleId) with
             | some v => if v = 0 then 0 else v
             | none => 0)) =
      fun sum id => sum + (fun id => (progress.get (numberToString id)).getD 0) id := by
    funext sum id
    show sum + _ = sum + (progress.get (numberToString id)).getD 0
    cases JsObj.get progress (numberToString id) with
    | none => rfl
    | some v =>
      by_cases hv : v = 0
      · simp [hv]
      · simp [hv]
  unfold totalProgress
  rw [hg, foldl_add_eq_sum]
  simp

theorem roundedQuotient_bounds (total count : Nat) (hc : 0 < count) :
    2 * count * roundedQuotient total count ≤ 2 * total + count ∧
      2 * total + count < 2 * count * (roundedQuotient total count + 1) := by
  unfold roundedQuotient
  have hpos : 0 < 2 * count := by omega
  constructor
  · exact Nat.mul_div_le _ _
  · exact Nat.lt_mul_div_succ _ hpos

/-- C30: for every learning state, the text of `progress-percentage` is `0%` when the
enrolled list is empty; otherwise it is `r%` for the integer `r` nearest to the sum,
over the enrolled ids, of the progress value (0 when absent), divided by the number of
enrolled ids, a half being rounded up; and `r` is at most 100 (and, a natural number,
at least 0) when every such progress value is at most 100. -/
theorem learning_stats_percentage (enrolled : List Int) (progress : JsObj) :
    (enrolled = [] → progressPercentageText enrolled progress = "0%") ∧
    (enrolled ≠ [] →
      ∃ r : Nat, progressPercentageText enrolled progress = numberToString (r : Int) ++ "%" ∧
        ((r : ℚ) - 1 / 2 ≤
          ((enrolled.map (fun id => (progress.get (numberToString id)).getD 0)).sum : ℚ) /
            (enrolled.length : ℚ)) ∧
        (((enrolled.map (fun id => (progress.get (numberToString id)).getD 0)).sum : ℚ) /
            (enrolled.length : ℚ) < (r : ℚ) + 1 / 2) ∧
        ((∀ id, id ∈ enrolled → (progress.get (numberToString id)).getD 0 ≤ 100) →
          r ≤ 100)) := by
  constructor
  · intro h
    simp [progressPercentageText, h]
  · intro h
    have hlen : 0 < enrolled.length := List.length_pos.mpr h
    refine ⟨roundedQuotient (totalProgress enrolled progress) enrolled.length, ?_, ?_, ?_, ?_⟩
    · simp [progressPercentageText, hlen]
    · rw [← totalProgress_eq_sum]
      have hb := (roundedQuotient_bounds (totalProgress enrolled progress) enrolled.length hlen).1
      have hq : (0 : ℚ) < (enrolled.length : ℚ) := by exact_mod_cast hlen
      rw [le_div_iff₀ hq]
      have hb' : (2 * (enrolled.length : ℚ) *
          (roundedQuotient (totalProgress enrolled progress) enrolled.length : ℚ)) ≤
          2 * (totalProgress enrolled progress : ℚ) + (enrolled.length : ℚ) := by
        exact_mod_cast hb
      linarith
    · rw [← totalProgress_eq_sum]
      have hb := (roundedQuotient_bounds (totalProgress enrolled progress) enrolled.length hlen).2
      have hq : (0 : ℚ) < (enrolled.length : ℚ) := by exact_mod_cast hlen
      rw [div_lt_iff₀ hq]
      have hb' : 2 * (totalProgress enrolled progress : ℚ) + (enrolled.length : ℚ) <
          2 * (enrolled.length : ℚ) *
            ((roundedQuotient (totalProgress enrolled progress) enrolled.length : ℚ) + 1) := by
        exact_mod_cast hb
      linarith
    · intro hall
      have hsum : totalProgress enrolled progress ≤ enrolled.length * 100 := by
        rw [totalProgress_eq_sum]
        have := List.sum_le_card_nsmul
          (enrolled.map (fun id => (progress.get (numberToString id)).getD 0)) 100
          (by
            intro x hx
            obtain ⟨id, hid, rfl⟩ := List.mem_map.mp hx
            exact hall id hid)
        simpa using this
      have hlt : roundedQuotient (totalProgress enrolled progress) enrolled.length < 101 := by
        unfold roundedQuotient
        apply Nat.div_lt_of_lt_mul
        omega
      omega
/-! ## The recommendations of the frontend -/

theorem mem_enrolledCategories {modulesData : List (List Module)} {enrolled : List Int}
    {c : String} :
    c ∈ enrolledCategories modulesData enrolled ↔
      c ≠ "" ∧ ∃ id, id ∈ enrolled ∧ ∃ m, findModuleById modulesData id = some m ∧
        m.category = c := by
  unfold enrolledCategories
  simp only [List.mem_filterMap, List.mem_map]
  constructor
  · rintro ⟨oc, ⟨id, hid, hoc⟩, hc⟩
    cases hf : findModuleById modulesData id with
    | none =>
      rw [hf] at hoc
      subst hoc
      simp at hc
    | some m =>
      rw [hf] at hoc
      subst hoc
      by_cases hm : m.category = ""
      · simp [hm] at hc
      · simp only [hm, if_false, Option.some.injEq] at hc
        exact ⟨hc ▸ hm, id, hid, m, hf, hc⟩
  · rintro ⟨hne, id, hid, m, hm, hmc⟩
    refine ⟨some c, ⟨id, hid, by simp [hm, hmc]⟩, ?_⟩
    simp [hne]

theorem findModuleById_iff {modulesData : List (List Module)}
    (hids : ((flatModules modulesData).map (fun m => m.id)).Nodup) {id : Int} {m : Module} :
    findModuleById modulesData id = some m ↔ m ∈ flatModules modulesData ∧ m.id = id := by
  constructor
  · intro h
    exact ⟨List.mem_of_find?_eq_some h, by simpa using List.find?_some h⟩
  · rintro ⟨hm, hid⟩
    cases h : findModuleById modulesData id with
    | none =>
      have := List.find?_eq_none.mp h m hm
      simp [hid] at this
    | some m' =>
      have : m = m' := eq_of_find?_of_nodup (fun x : Module => x.id) id hids h hm hid
      rw [this]

/-- In a reachable store the three groups of the catalog route, one after the other, are
the catalog itself. -/
theorem flatModules_of_reachable {s : Store} (hs : Reachable s) :
    flatModules (catalogHandler s).groups = s.modules := by
  have hcat := categories_of_reachable hs
  simp only [seedModules, List.map_cons, List.map_nil] at hcat
  obtain ⟨m1, l1, h1, c1, hcat⟩ := List.map_eq_cons_iff.mp hcat
  obtain ⟨m2, l2, h2, c2, hcat⟩ := List.map_eq_cons_iff.mp hcat
  obtain ⟨m3, l3, h3, c3, hcat⟩ := List.map_eq_cons_iff.mp hcat
  obtain ⟨m4, l4, h4, c4, hcat⟩ := List.map_eq_cons_iff.mp hcat
  obtain ⟨m5, l5, h5, c5, hcat⟩ := List.map_eq_cons_iff.mp hcat
  obtain ⟨m6, l6, h6, c6, hcat⟩ := List.map_eq_cons_iff.mp hcat
  obtain ⟨m7, l7, h7, c7, hcat⟩ := List.map_eq_cons_iff.mp hcat
  obtain ⟨m8, l8, h8, c8, hcat⟩ := List.map_eq_cons_iff.mp hcat
  obtain ⟨m9, l9, h9, c9, hcat⟩ := List.map_eq_cons_iff.mp hcat
  have h10 : l9 = [] := List.map_eq_nil_iff.mp hcat
  subst h10 h9 h8 h7 h6 h5 h4 h3 h2
  simp [flatModules, CatalogReply.groups, catalogHandler, h1, List.filter, c1, c2, c3, c4, c5,
    c6, c7, c8, c9]
/-- C22: for every catalog snapshot `modulesData` whose modules have pairwise different
ids and a non-empty category, and for every learning state (enrolled ids, completed
ids), the list `recommendedModules` is the policy of the specification: the first three
at most, in the iteration order of the snapshot, of the modules whose category is the
category of some enrolled module and whose id is neither enrolled nor completed.  So it
has at most three elements, holds no enrolled and no completed module, and keeps the
order of the snapshot.  Every snapshot that the catalog route gives of a reachable store
is of that kind, and its iteration order is the catalog order, ids 1 to 9 ascending. -/
theorem recommendations_follow_policy (modulesData : List (List Module))
    (enrolled completed : List Int)
    (hids : ((flatModules modulesData).map (fun m => m.id)).Nodup)
    (hcat : ∀ m, m ∈ flatModules modulesData → m.category ≠ "") :
    recommendedModules modulesData enrolled completed =
      recommendedBySpec (flatModules modulesData) enrolled completed ∧
    (recommendedModules modulesData enrolled completed).length ≤ 3 ∧
    (∀ m, m ∈ recommendedModules modulesData enrolled completed →
      m.id ∉ enrolled ∧ m.id ∉ completed) ∧
    (recommendedModules modulesData enrolled completed).Sublist (flatModules modulesData) ∧
    (∀ s, Reachable s →
      flatModules (catalogHandler s).groups = s.modules ∧
      s.modules.map (fun m => m.id) = [1, 2, 3, 4, 5, 6, 7, 8, 9] ∧
      ((flatModules (catalogHandler s).groups).map (fun m => m.id)).Nodup ∧
      ∀ m, m ∈ flatModules (catalogHandler s).groups → m.category ≠ "") := by
  refine ⟨?_, ?_, ?_, ?_, ?_⟩
  · unfold recommendedModules recommendedBySpec
    congr 1
    apply List.filter_congr
    intro m hm
    have hiff : m.category ∈ enrolledCategories modulesData enrolled ↔
        (flatModules modulesData).any
          (fun e => decide (e.id ∈ enrolled) && decide (e.category = m.category)) = true := by
      rw [mem_enrolledCategories, List.any_eq_true]
      constructor
      · rintro ⟨_, id, hid, e, he, hec⟩
        obtain ⟨hemem, heid⟩ := (findModuleById_iff hids).mp he
        exact ⟨e, hemem, by simp [heid, hid, hec]⟩
      · rintro ⟨e, hemem, he⟩
        simp only [Bool.and_eq_true, decide_eq_true_eq] at he
        exact ⟨hcat m hm, e.id, he.1, e, (findModuleById_iff hids).mpr ⟨hemem, rfl⟩, he.2⟩
    by_cases hc : m.category ∈ enrolledCategories modulesData enrolled
    · rw [hiff.mp hc]
      simp [hc]
    · have : (flatModules modulesData).any
          (fun e => decide (e.id ∈ enrolled) && decide (e.category = m.category)) = false := by
        cases h : (flatModules modulesData).any
          (fun e => decide (e.id ∈ enrolled) && decide (e.category = m.category)) with
        | false => rfl
        | true => exact absurd (hiff.mpr h) hc
      simp [hc, this]
  · exact List.length_take_le _ _
  · intro m hm
    have hm2 := List.mem_of_mem_take hm
    simp only [List.mem_filter, Bool.and_eq_true, Bool.not_eq_true', decide_eq_false_iff_not,
      decide_eq_true_eq] at hm2
    exact ⟨hm2.2.1.1, hm2.2.1.2⟩
  · exact (List.take_sublist _ _).trans (List.filter_sublist _)
  · intro s hs
    have hflat := flatModules_of_reachable hs
    have hinv := inv_of_reachable hs
    refine ⟨hflat, hinv.moduleIds, ?_, ?_⟩
    · rw [hflat]; exact hinv.modules_nodup
    · intro m hm
      rw [hflat] at hm
      have hc : m.category ∈ seedModules.map (fun m => m.category) := by
        rw [← categories_of_reachable hs]; exact List.mem_map.mpr ⟨m, hm, rfl⟩
      simp [seedModules] at hc
      rcases hc with h | h | h <;> rw [h] <;> decide

/-- The catalog after Ana enrolled in module 1: modules 2 and 3 are recommended. -/
theorem recommendations_follow_policy_witness :
    recommendedModules (catalogHandler storeEnrolled).groups [1] [] =
      recommendedBySpec (flatModules (catalogHandler storeEnrolled).groups) [1] [] ∧
    (recommendedModules (catalogHandler storeEnrolled).groups [1] []).length ≤ 3 ∧
    (∀ m, m ∈ recommendedModules (catalogHandler storeEnrolled).groups [1] [] →
      m.id ∉ ([1] : List Int) ∧ m.id ∉ ([] : List Int)) ∧
    (recommendedModules (catalogHandler storeEnrolled).groups [1] []).Sublist
      (flatModules (catalogHandler storeEnrolled).groups) ∧
    (∀ s, Reachable s →
      flatModules (catalogHandler s).groups = s.modules ∧
      s.modules.map (fun m => m.id) = [1, 2, 3, 4, 5, 6, 7, 8, 9] ∧
      ((flatModules (catalogHandler s).groups).map (fun m => m.id)).Nodup ∧
      ∀ m, m ∈ flatModules (catalogHandler s).groups → m.category ≠ "") :=
  recommendations_follow_policy (catalogHandler storeEnrolled).groups [1] []
    (by decide) (by decide)
/-! ## Registration: signups that overlap -/

/-- The handler of `POST /signup`, served with no other request in between, is its two
parts run one after the other. -/
theorem signupHandler_eq_parts (s : Store) (name email age password : JsVal)
    (hashed : String) :
    signupHandler s name email age password hashed =
      match signupStart s name email age password with
      | some r => (r, s)
      | none => signupResume s name email age password hashed := by
  unfold signupHandler signupStart signupResume
  split_ifs
  · rfl
  · rfl
  · rfl
  · cases s.users.find? (fun u => decide (u.email = email)) with
    | some u => rfl
    | none => cases password <;> rfl

/-- Requests served one after the other are a sequence of events: every store of
`run` is a store of `asyncRun`. -/
theorem asyncRun_served (s : Store) (ps : List PendingSignup) (rs : List Request) :
    asyncRun (s, ps) (rs.map Event.served) = (run s rs, ps) := by
  induction rs generalizing s with
  | nil => rfl
  | cons r rs ih => exact ih (step s r).2

/-- C13: two signups with the same body overlap, the second request arriving while the
first awaits `bcrypt.hash`: both pass the lookup of the email on the empty user list,
both are answered with status 201, and the store then holds two users, with the ids 1
and 2, that have the same email.  Served one after the other, the second of the same
two requests is answered with the conflict response. -/
theorem overlapping_signups_share_email :
    signupStart initStore anaPending.name anaPending.email anaPending.age
      anaPending.password = none ∧
    (resumeResponses (initStore, []) overlappingSignups).map (fun r => r.status) = [201, 201] ∧
    (asyncRun (initStore, []) overlappingSignups).2 = [] ∧
    (asyncRun (initStore, []) overlappingSignups).1.users.map (fun u => (u.id, u.email)) =
      [(1, .str "ana@x.com"), (2, .str "ana@x.com")] ∧
    ¬ ((asyncRun (initStore, []) overlappingSignups).1.users.map (fun u => u.email)).Nodup ∧
    (responses initStore [anaSignup, anaSignup]).map (fun r => r.status) = [201, 400] := by
  refine ⟨by decide, by decide, by decide, by decide, by decide, by decide⟩

/-! ## Any JSON value as `moduleId` -/

/-- On a primitive `moduleId` the route is the handler `enrollHandler`. -/
theorem enrollRoute_prim (s : Store) (userId : Nat) (v : JsVal) :
    enrollRoute s userId (.prim v) = enrollHandler s userId v := by
  unfold enrollRoute enrollHandler
  cases ht : isTruthy v with
  | false => simp [BodyVal.truthy, ht]
  | true =>
    cases hm : s.modules with
    | nil =>
      cases hk : parseInt v with
      | none => simp [BodyVal.truthy, ht]
      | some k => simp [BodyVal.truthy, ht, findModule, hm]
    | cons m ms =>
      simp only [BodyVal.truthy, ht, BodyVal.text, parseInt]

/-- The update of the user record is the same in the route and in the handler. -/
theorem markCompleted_eq (k : Int) (v : JsVal) :
    markCompleted k v = markCompletedAt k (jsToString v) := rfl

/-- On a primitive `moduleId` the route is the handler `completeHandler`. -/
theorem completeRoute_prim (s : Store) (userId : Nat) (v : JsVal) :
    completeRoute s userId (.prim v) = completeHandler s userId v := by
  unfold completeRoute completeHandler
  cases ht : isTruthy v with
  | false => simp [BodyVal.truthy, ht]
  | true =>
    cases hm : s.modules with
    | nil =>
      cases hk : parseInt v with
      | none => simp [BodyVal.truthy, ht]
      | some k => simp [BodyVal.truthy, ht, findModule, hm]
    | cons m ms =>
      simp only [BodyVal.truthy, ht, BodyVal.text, parseInt, markCompleted_eq]

/-- A `moduleId` whose conversion to a string throws, such as the object with the one
property `toString: 1`: it is truthy, `parseInt(moduleId)` throws inside `modules.find`
and the `catch` of either handler answers with status 500, the store unchanged. -/
theorem throwing_module_id_is_server_error (s : Store) (userId : Nat)
    (hm : s.modules ≠ []) :
    enrollRoute s userId (.composite none) = (failWith 500 "Failed to enroll in module", s) ∧
    completeRoute s userId (.composite none) = (failWith 500 "Failed to complete module", s) := by
  cases h : s.modules with
  | nil => exact absurd h hm
  | cons m ms => simp [enrollRoute, completeRoute, BodyVal.truthy, BodyVal.text, h]

/-- The number `1e21` as `moduleId`: its text is `1e+21`, which `parseInt` reads as 1,
so Ana is enrolled in module 1; the number 1.5 enrolls her in module 1 as well, and the
array `[2]`, whose text is `2`, in module 2. -/
theorem numbers_and_arrays_as_module_id :
    BodyVal.wellFormed (.prim (.numText "1e+21")) = true ∧
    (BodyVal.prim (.numText "1e+21")).parsed = some (some 1) ∧
    (enrollRoute storeRegistered 1 (.prim (.numText "1e+21"))).1.status = 200 ∧
    (enrollRoute storeRegistered 1 (.prim (.numText "1e+21"))).2.users.map
      (fun u => u.enrolledModules) = [[1]] ∧
    BodyVal.wellFormed (.prim (.numText "1.5")) = true ∧
    (enrollRoute storeRegistered 1 (.prim (.numText "1.5"))).2.users.map
      (fun u => u.enrolledModules) = [[1]] ∧
    (enrollRoute storeRegistered 1 (.composite (some "2"))).2.users.map
      (fun u => u.enrolledModules) = [[2]] := by
  refine ⟨by decide, by decide, by decide, by decide, by decide, by decide, by decide⟩

/-- C11 (amended): for every store whose modules are those of the catalog (ids 1 to 9,
as in every store the server reaches), every authenticated user id and every JSON value
of `moduleId`, when `moduleId` is truthy (it passes the `Module ID is required` guard)
and `parseInt(moduleId)` returns `NaN` or a number that no module has as its id, both
the enrollment and the completion are answered with status 404 and the error `Module
not found`, and the store (every user record and every module record) is unchanged. -/
theorem unknown_module_not_found (s : Store) (userId : Nat) (moduleId : BodyVal)
    (hcat : s.modules.map (fun m => m.id) = catalogIds)
    (hw : moduleId.wellFormed = true) (ht : moduleId.truthy = true)
    (hnone : ∃ r, moduleId.parsed = some r ∧ r.bind (findModule s) = none) :
    enrollRoute s userId moduleId = (failWith 404 "Module not found", s) ∧
      completeRoute s userId moduleId = (failWith 404 "Module not found", s) := by
  obtain ⟨r, hr, hfind⟩ := hnone
  unfold BodyVal.parsed at hr
  cases htext : moduleId.text with
  | none => rw [htext] at hr; cases hr
  | some t =>
    rw [htext] at hr
    have hr2 : parseIntChars t.toList = r := Option.some.inj hr
    cases hm : s.modules with
    | nil => rw [hm] at hcat; exact absurd hcat (by decide)
    | cons m ms =>
      cases hk : parseIntChars t.toList with
      | none =>
        have hk2 : parseIntChars t.data = none := hk
        simp [enrollRoute, completeRoute, ht, hm, htext, hk2]
      | some k =>
        rw [hk] at hr2
        subst hr2
        have hf : findModule s k = none := hfind
        have hk2 : parseIntChars t.data = some k := hk
        simp [enrollRoute, completeRoute, ht, hm, htext, hk2, hf]

/-- Ana asks for module 10, for module `abc`, for module 10.5 and for an empty object;
no module has such an id. -/
theorem unknown_module_not_found_witness :
    (enrollRoute storeRegistered 1 (.prim (.num 10)) =
        (failWith 404 "Module not found", storeRegistered) ∧
      completeRoute storeRegistered 1 (.prim (.num 10)) =
        (failWith 404 "Module not found", storeRegistered)) ∧
    (enrollRoute storeRegistered 1 (.prim (.str "abc")) =
        (failWith 404 "Module not found", storeRegistered) ∧
      completeRoute storeRegistered 1 (.prim (.str "abc")) =
        (failWith 404 "Module not found", storeRegistered)) ∧
    (enrollRoute storeRegistered 1 (.prim (.numText "10.5")) =
        (failWith 404 "Module not found", storeRegistered) ∧
      completeRoute storeRegistered 1 (.prim (.numText "10.5")) =
        (failWith 404 "Module not found", storeRegistered)) ∧
    (enrollRoute storeRegistered 1 (.composite (some "[object Object]")) =
        (failWith 404 "Module not found", storeRegistered) ∧
      completeRoute storeRegistered 1 (.composite (some "[object Object]")) =
        (failWith 404 "Module not found", storeRegistered)) :=
  ⟨unknown_module_not_found storeRegistered 1 (.prim (.num 10)) (by decide) (by decide) (by decide)
      ⟨some 10, by decide, by decide⟩,
   unknown_module_not_found storeRegistered 1 (.prim (.str "abc")) (by decide) (by decide) (by decide)
      ⟨none, by decide, by decide⟩,
   unknown_module_not_found storeRegistered 1 (.prim (.numText "10.5")) (by decide) (by decide) (by decide)
      ⟨some 10, by decide, by decide⟩,
   unknown_module_not_found storeRegistered 1 (.composite (some "[object Object]")) (by decide)
      (by decide) (by decide) ⟨none, by decide, by decide⟩⟩

/-! ## Status codes of the enrollment, for any JSON value -/

/-- C24 (amended): for every store whose modules are those of the catalog (ids 1 to 9,
as in every store the server reaches), every authenticated user id and every JSON value
of `moduleId`, the status of the enrollment is 400 exactly when `moduleId` is
missing or otherwise falsy, or `parseInt(moduleId)` is the id of a module in which the
(existing) user is already enrolled; 404 exactly when `moduleId` is truthy and
`parseInt(moduleId)` returns `NaN` (a non-numeric string included) or a number that no
module has as its id, or no user has the authenticated id; 200 exactly when
`moduleId` is truthy, `parseInt(moduleId)` is the id of a module, the user exists and is
not enrolled in it; and 500 exactly when `moduleId` is an array or object whose
conversion to a string throws.  There is no other status. -/
theorem enroll_status_codes (s : Store) (userId : Nat) (moduleId : BodyVal)
    (hcat : s.modules.map (fun m => m.id) = catalogIds)
    (hw : moduleId.wellFormed = true) :
    ((enrollRoute s userId moduleId).1.status = 400 ↔
      moduleId.truthy = false ∨
        ∃ k mdl user, moduleId.parsed = some (some k) ∧ findModule s k = some mdl ∧
          findUser s userId = some user ∧ k ∈ user.enrolledModules) ∧
    ((enrollRoute s userId moduleId).1.status = 404 ↔
      moduleId.truthy = true ∧
        ∃ r, moduleId.parsed = some r ∧
          (r.bind (findModule s) = none ∨ findUser s userId = none)) ∧
    ((enrollRoute s userId moduleId).1.status = 200 ↔
      moduleId.truthy = true ∧
        ∃ k mdl user, moduleId.parsed = some (some k) ∧ findModule s k = some mdl ∧
          findUser s userId = some user ∧ k ∉ user.enrolledModules) ∧
    ((enrollRoute s userId moduleId).1.status = 500 ↔
      moduleId.truthy = true ∧ moduleId.parsed = none) ∧
    ((enrollRoute s userId moduleId).1.status = 400 ∨
      (enrollRoute s userId moduleId).1.status = 404 ∨
      (enrollRoute s userId moduleId).1.status = 200 ∨
      (enrollRoute s userId moduleId).1.status = 500) := by
  cases hm : s.modules with
  | nil => rw [hm] at hcat; exact absurd hcat (by decide)
  | cons m ms =>
    cases ht : moduleId.truthy with
    | false => simp [enrollRoute, ht, failWith]
    | true =>
      cases htext : moduleId.text with
      | none => simp [enrollRoute, ht, hm, htext, BodyVal.parsed, failWith]
      | some t =>
        cases hk : parseIntChars t.toList with
        | none =>
          have hk2 : parseIntChars t.data = none := hk
          simp [enrollRoute, ht, hm, htext, BodyVal.parsed, hk2, failWith]
        | some k =>
          have hk2 : parseIntChars t.data = some k := hk
          cases hf : findModule s k with
          | none => simp [enrollRoute, ht, hm, htext, BodyVal.parsed, hk2, hf, failWith]
          | some mdl =>
            cases hu : findUser s userId with
            | none => simp [enrollRoute, ht, hm, htext, BodyVal.parsed, hk2, hf, hu, failWith]
            | some user =>
              by_cases he : k ∈ user.enrolledModules
              · simp [enrollRoute, ht, hm, htext, BodyVal.parsed, hk2, hf, hu, he, failWith]
              · simp [enrollRoute, ht, hm, htext, BodyVal.parsed, hk2, hf, hu, he, failWith]

/-- Ana, registered: the body `moduleId: "abc"` is answered 404, an object whose
conversion throws 500, the number 1 200, and a missing `moduleId` 400. -/
theorem enroll_status_codes_witness :
    (storeRegistered.modules.map (fun m => m.id) = catalogIds ∧
      BodyVal.wellFormed (.prim (.str "abc")) = true) ∧
    (enrollRoute storeRegistered 1 (.prim (.str "abc"))).1.status = 404 ∧
    (enrollRoute storeRegistered 1 (.composite none)).1.status = 500 ∧
    (enrollRoute storeRegistered 1 (.prim (.num 1))).1.status = 200 ∧
    (enrollRoute storeRegistered 1 (.prim .undefined)).1.status = 400 :=
  ⟨⟨by decide, by decide⟩,
   (enroll_status_codes storeRegistered 1 (.prim (.str "abc")) (by decide) (by decide)).2.1.mpr
      ⟨by decide, none, by decide, Or.inl (by decide)⟩,
   (enroll_status_codes storeRegistered 1 (.composite none) (by decide)
      (by decide)).2.2.2.1.mpr ⟨by decide, by decide⟩,
   (enroll_status_codes storeRegistered 1 (.prim (.num 1)) (by decide) (by decide)).2.2.1.mpr
      ⟨by decide, 1, module1, anaUser, by decide, by decide, by decide, by decide⟩,
   (enroll_status_codes storeRegistered 1 (.prim .undefined) (by decide) (by decide)).1.mpr
      (Or.inl (by decide))⟩

/-! ## The shape of the response bodies -/

/-- The rejections of the token check: an enrollment without an `Authorization` header is
answered by the middleware with a body whose only key is `error`; it carries no
`success` field, which every failure body of a route handler carries. -/
theorem middleware_body_lacks_success :
    serveProtected unaryVerify storeRegistered none (.enroll (.num 1)) =
      (.rejected 401 "Access token required", storeRegistered) ∧
    "success" ∉ (Served.rejected 401 "Access token required").keys ∧
    (failWith 401 "Invalid email or password").body.keys = ["success", "error"] := by
  decide

/-- The shape of a failure body with one of the four error statuses. -/
theorem shape_of_failure (code : Nat) (e : String)
    (hc : code = 400 ∨ code = 401 ∨ code = 404 ∨ code = 500) :
    "success" ∈ (failWith code e).body.keys ∧
    ((failWith code e).body.success = true ↔
      (failWith code e).status = 200 ∨ (failWith code e).status = 201) ∧
    ((failWith code e).body.success = false ↔
      (failWith code e).status = 400 ∨ (failWith code e).status = 401 ∨
        (failWith code e).status = 404 ∨ (failWith code e).status = 500) ∧
    ((failWith code e).body.success = true → "data" ∈ (failWith code e).body.keys) ∧
    ((failWith code e).body.success = false → "error" ∈ (failWith code e).body.keys) := by
  rcases hc with h | h | h | h <;> subst h <;> simp [failWith, Body.keys, Body.success]

/-- The shape of a success body with status 200 or 201. -/
theorem shape_of_success (resp : Response) (hs : resp.body.success = true)
    (hk : "success" ∈ resp.body.keys) (hd : "data" ∈ resp.body.keys)
    (hst : resp.status = 200 ∨ resp.status = 201) :
    "success" ∈ resp.body.keys ∧
    (resp.body.success = true ↔ resp.status = 200 ∨ resp.status = 201) ∧
    (resp.body.success = false ↔
      resp.status = 400 ∨ resp.status = 401 ∨ resp.status = 404 ∨ resp.status = 500) ∧
    (resp.body.success = true → "data" ∈ resp.body.keys) ∧
    (resp.body.success = false → "error" ∈ resp.body.keys) := by
  refine ⟨hk, ⟨fun _ => hst, fun _ => hs⟩, ⟨?_, ?_⟩, fun _ => hd, ?_⟩
  · intro h; rw [hs] at h; cases h
  · intro h; exfalso; omega
  · intro h; rw [hs] at h; cases h

/-- Every response of the five handlers of `step` is a failure body with one of the four
error statuses, or a success body with status 200 or 201. -/
theorem step_failure_or_success (s : Store) (r : Request) :
    (∃ code e, (step s r).1 = failWith code e ∧
      (code = 400 ∨ code = 401 ∨ code = 404 ∨ code = 500)) ∨
    ((step s r).1.body.success = true ∧ "success" ∈ (step s r).1.body.keys ∧
      "data" ∈ (step s r).1.body.keys ∧
      ((step s r).1.status = 200 ∨ (step s r).1.status = 201)) := by
  cases r <;>
  simp only [step, signupHandler, loginHandler, getModulesHandler, enrollHandler, completeHandler]
  repeat' split
  all_goals first
    | exact Or.inl ⟨400, _, rfl, Or.inl rfl⟩
    | exact Or.inl ⟨401, _, rfl, Or.inr (Or.inl rfl)⟩
    | exact Or.inl ⟨404, _, rfl, Or.inr (Or.inr (Or.inl rfl))⟩
    | exact Or.inl ⟨500, _, rfl, Or.inr (Or.inr (Or.inr rfl))⟩
    | exact Or.inr ⟨rfl, by simp [Body.keys], by simp [Body.keys], Or.inl rfl⟩
    | exact Or.inr ⟨rfl, by simp [Body.keys], by simp [Body.keys], Or.inr rfl⟩

/-- The same for the enrollment with any JSON value of `moduleId`. -/
theorem enrollRoute_failure_or_success (s : Store) (userId : Nat) (moduleId : BodyVal) :
    (∃ code e, (enrollRoute s userId moduleId).1 = failWith code e ∧
      (code = 400 ∨ code = 401 ∨ code = 404 ∨ code = 500)) ∨
    ((enrollRoute s userId moduleId).1.body.success = true ∧ "success" ∈ (enrollRoute s userId moduleId).1.body.keys ∧
      "data" ∈ (enrollRoute s userId moduleId).1.body.keys ∧
      ((enrollRoute s userId moduleId).1.status = 200 ∨ (enrollRoute s userId moduleId).1.status = 201)) := by
  simp only [enrollRoute]
  repeat' split
  all_goals first
    | exact Or.inl ⟨400, _, rfl, Or.inl rfl⟩
    | exact Or.inl ⟨404, _, rfl, Or.inr (Or.inr (Or.inl rfl))⟩
    | exact Or.inl ⟨500, _, rfl, Or.inr (Or.inr (Or.inr rfl))⟩
    | exact Or.inr ⟨rfl, by simp [Body.keys], by simp [Body.keys], Or.inl rfl⟩

/-- The same for the completion with any JSON value of `moduleId`. -/
theorem completeRoute_failure_or_success (s : Store) (userId : Nat) (moduleId : BodyVal) :
    (∃ code e, (completeRoute s userId moduleId).1 = failWith code e ∧
      (code = 400 ∨ code = 401 ∨ code = 404 ∨ code = 500)) ∨
    ((completeRoute s userId moduleId).1.body.success = true ∧ "success" ∈ (completeRoute s userId moduleId).1.body.keys ∧
      "data" ∈ (completeRoute s userId moduleId).1.body.keys ∧
      ((completeRoute s userId moduleId).1.status = 200 ∨ (completeRoute s userId moduleId).1.status = 201)) := by
  simp only [completeRoute]
  repeat' split
  all_goals first
    | exact Or.inl ⟨400, _, rfl, Or.inl rfl⟩
    | exact Or.inl ⟨404, _, rfl, Or.inr (Or.inr (Or.inl rfl))⟩
    | exact Or.inl ⟨500, _, rfl, Or.inr (Or.inr (Or.inr rfl))⟩
    | exact Or.inr ⟨rfl, by simp [Body.keys], by simp [Body.keys], Or.inl rfl⟩

/-- C21 (counterexample): the body of `GET /health` has the keys `status`, `message` and
`timestamp`: it carries no `success` field, nor `data` or `error`.  And the catch-all
route answers the path `/about` with the page `index.html`, not with a JSON body. -/
theorem health_body_lacks_success :
    healthKeys = ["status", "message", "timestamp"] ∧
    "success" ∉ healthKeys ∧ "data" ∉ healthKeys ∧ "error" ∉ healthKeys ∧
    catchAllHandler "/about" = none := by
  decide

/-- C21 (amended): every JSON body that a route handler answers with carries the key
`success`, which is true exactly when the status is 200 or 201 and then comes with
`data`, and which is false exactly when the status is 400, 401, 404 or 500 and then
comes with `error`: on `/signup`, `/login`, `GET /modules`, `/modules/enroll` and
`/modules/complete` in every store and for every request (any JSON value of `moduleId`
included), on the catalog route, on the module route, on the catch-all route for every
path that it answers with JSON, and in the error middleware.  `GET /health` answers
with the keys `status`, `message` and `timestamp`, and the catch-all route answers
every path outside the API roots with the page `index.html`. -/
theorem handler_bodies_carry_success (s : Store) (r : Request) (userId : Nat)
    (moduleId : BodyVal) (id path : String) :
    (∀ resp : Response,
      (resp = (step s r).1 ∨ resp = (enrollRoute s userId moduleId).1 ∨
        resp = (completeRoute s userId moduleId).1 ∨ catchAllHandler path = some resp ∨
        resp = errorMiddleware) →
      "success" ∈ resp.body.keys ∧
      (resp.body.success = true ↔ resp.status = 200 ∨ resp.status = 201) ∧
      (resp.body.success = false ↔
        resp.status = 400 ∨ resp.status = 401 ∨ resp.status = 404 ∨ resp.status = 500) ∧
      (resp.body.success = true → "data" ∈ resp.body.keys) ∧
      (resp.body.success = false → "error" ∈ resp.body.keys)) ∧
    ((catalogHandler s).status = 200 ∧ "success" ∈ (catalogHandler s).keys ∧
      "data" ∈ (catalogHandler s).keys) ∧
    ("success" ∈ moduleByIdKeys (moduleByIdHandler s id) ∧
      ((moduleByIdHandler s id).isSome = true →
        moduleByIdStatus (moduleByIdHandler s id) = 200 ∧
          "data" ∈ moduleByIdKeys (moduleByIdHandler s id)) ∧
      ((moduleByIdHandler s id).isSome = false →
        moduleByIdStatus (moduleByIdHandler s id) = 404 ∧
          "error" ∈ moduleByIdKeys (moduleByIdHandler s id))) ∧
    (catchAllHandler path = some routeNotFound ∨ catchAllHandler path = none) ∧
    healthKeys = ["status", "message", "timestamp"] := by
  refine ⟨?_, ⟨rfl, by simp [CatalogReply.keys], by simp [CatalogReply.keys]⟩, ?_, ?_, rfl⟩
  · intro resp h
    have key : ∀ x : Response,
        ((∃ code e, x = failWith code e ∧
          (code = 400 ∨ code = 401 ∨ code = 404 ∨ code = 500)) ∨
        (x.body.success = true ∧ "success" ∈ x.body.keys ∧ "data" ∈ x.body.keys ∧
          (x.status = 200 ∨ x.status = 201))) →
        "success" ∈ x.body.keys ∧
        (x.body.success = true ↔ x.status = 200 ∨ x.status = 201) ∧
        (x.body.success = false ↔
          x.status = 400 ∨ x.status = 401 ∨ x.status = 404 ∨ x.status = 500) ∧
        (x.body.success = true → "data" ∈ x.body.keys) ∧
        (x.body.success = false → "error" ∈ x.body.keys) := by
      intro x hx
      rcases hx with ⟨code, e, rfl, hc⟩ | ⟨hs, hk, hd, hst⟩
      · exact shape_of_failure code e hc
      · exact shape_of_success x hs hk hd hst
    rcases h with rfl | rfl | rfl | h | rfl
    · exact key _ (step_failure_or_success s r)
    · exact key _ (enrollRoute_failure_or_success s userId moduleId)
    · exact key _ (completeRoute_failure_or_success s userId moduleId)
    · unfold catchAllHandler at h
      split_ifs at h
      cases h
      exact shape_of_failure 404 _ (Or.inr (Or.inr (Or.inl rfl)))
    · exact shape_of_failure 500 _ (Or.inr (Or.inr (Or.inr rfl)))
  · cases moduleByIdHandler s id <;> simp [moduleByIdKeys, moduleByIdStatus]
  · unfold catchAllHandler
    split_ifs
    · exact Or.inl rfl
    · exact Or.inr rfl

/-! ## The catalog in every store the server reaches -/

/-- No event adds, removes or reorders a module or changes a field other than the
counter, also when signups overlap. -/
theorem modules_frame_asyncStep (st : Store × List PendingSignup) (e : Event) :
    (asyncStep st e).1.modules.map (fun m => { m with enrolled := 0 }) =
      st.1.modules.map (fun m => { m with enrolled := 0 }) := by
  cases e with
  | served r => exact modules_frame_step st.1 r
  | signupStarts p =>
    simp only [asyncStep]
    split <;> rfl
  | signupResumes p hashed =>
    simp only [asyncStep]
    split_ifs
    · simp only [signupResume]
      split <;> rfl
    · rfl

theorem modules_frame_asyncRun (st : Store × List PendingSignup) (es : List Event) :
    (asyncRun st es).1.modules.map (fun m => { m with enrolled := 0 }) =
      st.1.modules.map (fun m => { m with enrolled := 0 }) := by
  induction es generalizing st with
  | nil => rfl
  | cons e es ih => exact (ih (asyncStep st e)).trans (modules_frame_asyncStep st e)

/-- In every store that a sequence of events leads to from the start of the server,
overlapping signups included, the modules are those of the catalog: the ids 1 to 9. -/
theorem catalog_ids_of_events (es : List Event) :
    (asyncRun (initStore, []) es).1.modules.map (fun m => m.id) = catalogIds := by
  have h := congrArg (List.map (fun m : Module => m.id))
    (modules_frame_asyncRun (initStore, []) es)
  simp only [List.map_map] at h
  exact h

end Entropy
